import Mathlib

/-! Worker-node lifecycle of `internal/eks` (`worker_node_embedded.go`)

A shallow embedding of `(*embedded).createWorkerNode` and
`(*embedded).deleteWorkerNode`.

The two Go methods talk to the outside world (CloudFormation, `kubectl`, the
configuration file, the clock and the stop channel).  The embedding makes the
outside world an explicit value of type `World`: for every kind of call it
holds the stream of the answers that the future calls of that kind will
receive.  A Go method becomes a function from the system state (`Sys`: the
mutable `ClusterState`, the world and the trace of the calls made so far) to
an `Outcome` and a new system state.

Conventions.
* A Go `error` obtained from a collaborator is represented by its `Error()`
  text; `nil` is `none`.
* A Go pointer field of the AWS SDK is an `Option`; dereferencing `none`
  panics (`Outcome.panicked`).
* `time.Duration` is a number of nanoseconds.  `Sys.readClock` models
  `time.Now()`: the clock moves by the time slept since the last reading plus
  an arbitrary further delay chosen by the world (`World.tick`), which stands
  for the latency of the calls made in between.  Only the readings that decide
  control flow are modelled, not the ones made for log lines.
  The elapsed time `time.Now().UTC().Sub(retryStart)` is the difference of two
  readings; the saturation of `Sub` at the largest `Duration` is not modelled.
* Log calls (`md.lg`) have no effect on the state and are left out.
* The three wait loops are bounded by the clock.  They are written by
  structural recursion on a fuel argument that `createWorkerNode` and
  `deleteWorkerNode` set from the wait budget (`loopFuel`); that fuel is never
  used up (`createWorkerNode_returns`, `deleteWorkerNode_returns`).
-/

namespace Eks

/-! ## Durations -/

/-- Go `time.Second`, in nanoseconds. -/
def Second : Nat := 1000000000

/-- Go `time.Minute`, in nanoseconds. -/
def Minute : Nat := 60 * Second

/-- Two-complement wrap-around of a mathematical integer into `int64`. -/
def wrapInt64 (x : Int) : Int :=
  (x + 9223372036854775808) % 18446744073709551616 - 9223372036854775808

/-- The wait budget of lines 119 and 330:
`5*time.Minute + 2*time.Duration(md.cfg.WorkderNodeASGMax)*time.Minute`. -/
def waitTimeOf (asgMax : Int) : Int :=
  wrapInt64 (5 * (Minute : Int) + 2 * asgMax * (Minute : Int))

/-- Number of loop iterations that the clock allows at most, plus two: every
iteration that loops back sleeps for at least five seconds. -/
def loopFuel (waitTime : Int) : Nat :=
  waitTime.toNat / (5 * Second) + 2

/-! ## Strings -/

/-- Whether `p` is an initial segment of `s`. -/
def startsWith : List Char → List Char → Bool
  | [], _ => true
  | _ :: _, [] => false
  | a :: p, b :: s => a == b && startsWith p s

/-- Whether `sub` occurs in `s` as a contiguous segment. -/
def containsChars (sub : List Char) : List Char → Bool
  | [] => startsWith sub []
  | c :: s => startsWith sub (c :: s) || containsChars sub s

/-- Go `strings.Contains(s, substr)`. -/
def stringsContains (s substr : String) : Bool :=
  containsChars substr.data s.data

/-- Go `strings.Join(elems, sep)`. -/
def stringsJoin (elems : List String) (sep : String) : String :=
  sep.intercalate elems

/-! ## Data of the AWS SDK -/

/-- `cloudformation.Output`: the two fields that the code reads. -/
structure Output where
  OutputKey : Option String
  OutputValue : Option String
deriving DecidableEq, Repr

/-- `cloudformation.Stack`: the two fields that the code reads. -/
structure Stack where
  StackStatus : Option String
  Outputs : List (Option Output)
deriving DecidableEq, Repr

/-- `cloudformation.DescribeStacksOutput`. -/
structure DescribeStacksOutput where
  Stacks : List (Option Stack)
deriving DecidableEq, Repr

/-- `cloudformation.CreateStackInput` as filled in at lines 39-103; tags and
parameters are key/value pairs. -/
structure CreateStackInput where
  StackName : String
  Tags : List (String × String)
  TemplateBody : String
  Parameters : List (String × String)
  Capabilities : List String
deriving DecidableEq, Repr

/-- The answer of a call that returns a value or an error (the error is
represented by its text). -/
inductive Reply (α : Type) where
  | ok (v : α)
  | fail (text : String)
deriving DecidableEq, Repr

/-! ## Configuration and state -/

/-- The fields of `md.cfg.ClusterState` that the two methods read or write. -/
structure ClusterState where
  CFStackNodeGroupKeyPairName : String
  CFStackNodeGroupName : String
  CFStackVPCID : String
  CFStackVPCSubnetIDs : List String
  CFStackVPCSecurityGroupID : String
  StatusWorkerNodeCreated : Bool
  CFStackNodeGroupStatus : String
  CFStackNodeGroupWorkerNodeInstanceRoleARN : String
  EC2NodeGroupStatus : String
deriving DecidableEq, Repr

/-- The fields of `md.cfg` outside `ClusterState` that the two methods read,
and `md.kubectlPath`.  Go `int` fields are integers. -/
structure Config where
  ClusterName : String
  Tag : String
  WorkerNodeAMI : String
  WorkerNodeInstanceType : String
  WorkderNodeASGMin : Int
  WorkderNodeASGMax : Int
  WorkerNodeVolumeSizeGB : Int
  KubeConfigPath : String
  kubectlPath : String
deriving DecidableEq, Repr

/-- The value `v` built at lines 27-33. -/
structure workerNodeStack where
  Description : String
  TagKey : String
  TagValue : String
  Hostname : String
  EnableNodeSSH : Bool
deriving DecidableEq, Repr

/-- Modelled from the spec: the type `nodeList` is declared outside the files at
hand; section 6 gives the shape of the `get nodes` document,
`items: [status: conditions: [type, status]]`. -/
structure NodeCondition where
  type : String
  status : String
deriving DecidableEq, Repr

/-- Modelled from the spec: a node record is its list of conditions. -/
structure Node where
  conditions : List NodeCondition
deriving DecidableEq, Repr

/-- Modelled from the spec: `nodeList` holds the items of the document. -/
structure nodeList where
  Items : List Node
deriving DecidableEq, Repr

/-- The error values that the two methods return. -/
inductive GoError where
  /-- `errors.New(text)`. -/
  | new (text : String)
  /-- An error received from a collaborator and returned as it is. -/
  | external (text : String)
  /-- `fmt.Errorf("%q expects 1 Stack, got %v", name, do.Stacks)`. -/
  | expectsOneStack (name : String) (got : List (Option Stack))
  /-- `fmt.Errorf("failed to create %q (%q)", name, status)`. -/
  | failedToCreate (name status : String)
  /-- `fmt.Errorf("unknown flag %s", string(kexo))`. -/
  | unknownFlag (output : String)
  /-- `fmt.Errorf("worker nodes are not ready (status %q, ASG max %d)", status, max)`. -/
  | notReady (status : String) (asgMax : Int)
deriving DecidableEq, Repr

/-- How a call of one of the two methods ends. -/
inductive Outcome where
  /-- The method returned this `error` value (`none` is `nil`). -/
  | returned (err : Option GoError)
  /-- The method panicked (nil dereference or index out of range). -/
  | panicked
  /-- The fuel of a wait loop ran out (does not happen, see `loopFuel`). -/
  | outOfFuel
deriving DecidableEq, Repr

/-- A call made to the outside world, with its arguments and its answer. -/
inductive Event where
  | createStack (input : CreateStackInput) (err : Option String)
  | describeStacks (stackName : String) (res : Reply DescribeStacksOutput)
  | deleteStack (stackName : String) (err : Option String)
  /-- `md.cfg.Sync()`, with the state that is persisted. -/
  | sync (snapshot : ClusterState) (err : Option String)
  /-- `time.Sleep(d)`. -/
  | sleep (d : Nat)
  /-- The timer of `time.After(d)` fired. -/
  | after (d : Nat)
  | writeConfigMapNodeAuth (arn : String) (res : Reply String)
  | removeAll (path : String)
  /-- The `apply` command: arguments, combined output, error. -/
  | kubectlApply (args : List String) (output : String) (err : Option String)
  /-- The `get nodes` command: arguments, combined output, error. -/
  | kubectlGetNodes (args : List String) (output : String) (err : Option String)
deriving DecidableEq, Repr

/-- The outside world: the current time and, for every kind of call, the
answers of the calls to come (index 0 is the next one). -/
structure World where
  /-- Clock value at the last reading, in nanoseconds. -/
  now : Nat
  /-- Time slept since the last reading. -/
  pending : Nat
  /-- Further time that passes before each of the readings to come. -/
  tick : Nat → Nat
  /-- Whether the observations to come of `md.stopc` find it closed. -/
  stopc : Nat → Bool
  /-- Result of `os.Hostname()`. -/
  hostname : String
  createStack : Nat → Option String
  describeStacks : Nat → Reply DescribeStacksOutput
  deleteStack : Nat → Option String
  sync : Nat → Option String
  writeConfigMapNodeAuth : Nat → Reply String
  /-- Combined output and error of the `apply` commands to come. -/
  kubectlApply : Nat → String × Option String
  /-- Combined output and error of the `get nodes` commands to come. -/
  kubectlGetNodes : Nat → String × Option String

/-- The functions of the package that the two methods call and that are
defined outside the files at hand. -/
structure Deps where
  createWorkerNodeTemplate : workerNodeStack → Reply String
  isCFCreateFailed : String → Bool
  /-- Takes the stack name and the text of the error. -/
  isCFDeletedGoClient : String → String → Bool
  kubectlGetNodes : String → Reply nodeList
  countReadyNodes : nodeList → Int

/-- The system: mutable cluster state, outside world, calls made so far. -/
structure Sys where
  cs : ClusterState
  w : World
  trace : List Event

/-- Drop the first element of a stream. -/
def tl {α : Type} (f : Nat → α) : Nat → α := fun i => f (i + 1)

namespace Sys

/-- Go `time.Now()`. -/
def readClock (s : Sys) : Nat × Sys :=
  let t := s.w.now + s.w.pending + s.w.tick 0
  (t, { s with w := { s.w with now := t, pending := 0, tick := tl s.w.tick } })

/-- Go `time.Sleep(d)`. -/
def sleep (s : Sys) (d : Nat) : Sys :=
  { s with w := { s.w with pending := s.w.pending + d }, trace := s.trace ++ [Event.sleep d] }

/-- One observation of `md.stopc`: whether a receive on it can proceed. -/
def observeStop (s : Sys) : Bool × Sys :=
  (s.w.stopc 0, { s with w := { s.w with stopc := tl s.w.stopc } })

/-- The statement `select { case <-md.stopc: ... case <-time.After(d): }`:
`true` when the stop channel wins, otherwise the timer fires after `d`. -/
def selectStopOrAfter (s : Sys) (d : Nat) : Bool × Sys :=
  if s.w.stopc 0 then
    (true, { s with w := { s.w with stopc := tl s.w.stopc } })
  else
    (false, { s with w := { s.w with stopc := tl s.w.stopc, pending := s.w.pending + d },
                     trace := s.trace ++ [Event.after d] })

/-- Go `md.cfg.Sync()`: persists the configuration, may fail. -/
def sync (s : Sys) : Option String × Sys :=
  (s.w.sync 0, { s with w := { s.w with sync := tl s.w.sync },
                        trace := s.trace ++ [Event.sync s.cs (s.w.sync 0)] })

/-- Go `md.cf.CreateStack(input)`. -/
def createStack (s : Sys) (input : CreateStackInput) : Option String × Sys :=
  (s.w.createStack 0, { s with w := { s.w with createStack := tl s.w.createStack },
                               trace := s.trace ++ [Event.createStack input (s.w.createStack 0)] })

/-- Go `md.cf.DescribeStacks` for the stack `name`. -/
def describeStacks (s : Sys) (name : String) : Reply DescribeStacksOutput × Sys :=
  (s.w.describeStacks 0, { s with w := { s.w with describeStacks := tl s.w.describeStacks },
                                  trace := s.trace ++ [Event.describeStacks name (s.w.describeStacks 0)] })

/-- Go `md.cf.DeleteStack` for the stack `name`. -/
def deleteStack (s : Sys) (name : String) : Option String × Sys :=
  (s.w.deleteStack 0, { s with w := { s.w with deleteStack := tl s.w.deleteStack },
                               trace := s.trace ++ [Event.deleteStack name (s.w.deleteStack 0)] })

/-- Go `writeConfigMapNodeAuth(arn)`: writes the document, returns its path. -/
def writeConfigMapNodeAuth (s : Sys) (arn : String) : Reply String × Sys :=
  (s.w.writeConfigMapNodeAuth 0,
    { s with w := { s.w with writeConfigMapNodeAuth := tl s.w.writeConfigMapNodeAuth },
             trace := s.trace ++ [Event.writeConfigMapNodeAuth arn (s.w.writeConfigMapNodeAuth 0)] })

/-- Go `os.RemoveAll(path)`. -/
def removeAll (s : Sys) (path : String) : Sys :=
  { s with trace := s.trace ++ [Event.removeAll path] }

/-- The `apply` command and its `CombinedOutput()`. -/
def kubectlApply (s : Sys) (args : List String) : (String × Option String) × Sys :=
  (s.w.kubectlApply 0, { s with w := { s.w with kubectlApply := tl s.w.kubectlApply },
                                trace := s.trace ++
                                  [Event.kubectlApply args (s.w.kubectlApply 0).1 (s.w.kubectlApply 0).2] })

/-- The `get nodes` command and its `CombinedOutput()`. -/
def kubectlGetNodes (s : Sys) (args : List String) : (String × Option String) × Sys :=
  (s.w.kubectlGetNodes 0, { s with w := { s.w with kubectlGetNodes := tl s.w.kubectlGetNodes },
                                   trace := s.trace ++
                                     [Event.kubectlGetNodes args (s.w.kubectlGetNodes 0).1
                                       (s.w.kubectlGetNodes 0).2] })

/-- Assignment to `ClusterState.CFStackNodeGroupStatus`. -/
def setStackStatus (s : Sys) (v : String) : Sys :=
  { s with cs := { s.cs with CFStackNodeGroupStatus := v } }

/-- Assignment to `ClusterState.EC2NodeGroupStatus`. -/
def setEC2Status (s : Sys) (v : String) : Sys :=
  { s with cs := { s.cs with EC2NodeGroupStatus := v } }

/-- Assignment to `ClusterState.CFStackNodeGroupWorkerNodeInstanceRoleARN`. -/
def setRoleARN (s : Sys) (v : String) : Sys :=
  { s with cs := { s.cs with CFStackNodeGroupWorkerNodeInstanceRoleARN := v } }

/-- Assignment to `ClusterState.StatusWorkerNodeCreated`. -/
def setCreated (s : Sys) (v : Bool) : Sys :=
  { s with cs := { s.cs with StatusWorkerNodeCreated := v } }

end Sys

/-! ## The wait loops -/

/-- How one run of a loop body ends: the method returns, the loop is left
(`break`), or the next iteration starts (`continue` or end of the body).  The
value `v` holds the variables that outlive the iteration. -/
inductive Step (σ : Type) where
  | ret (o : Outcome)
  | brk (v : σ)
  | cont (v : σ)

/-- The loop `for time.Now().UTC().Sub(retryStart) < waitTime { body }` of lines
121, 200 and 339.  The result is `some` outcome when the method ends inside the
loop; otherwise the loop was left, by its guard or by `break`. -/
def waitLoop {σ : Type} (body : σ → Sys → Step σ × Sys) (retryStart : Nat) (waitTime : Int) :
    Nat → σ → Sys → Option Outcome × σ × Sys
  | 0, v, s => (some Outcome.outOfFuel, v, s)
  | fuel + 1, v, s =>
    if ((s.readClock.1 : Int) - (retryStart : Int) < waitTime) then
      match body v s.readClock.2 with
      | (Step.ret o, s2) => (some o, v, s2)
      | (Step.brk v2, s2) => (none, v2, s2)
      | (Step.cont v2, s2) => waitLoop body retryStart waitTime fuel v2 s2
    else
      (none, v, s.readClock.2)

/-! ## `deleteWorkerNode` (lines 303-378) -/

/-- The body of the loop of lines 339-365; the variable `err` outlives it.
`s1` is the state after the `DescribeStacks` call of line 341. -/
def deleteWaitBody (d : Deps) (_err : Option String) (s : Sys) : Step (Option String) × Sys :=
  let s1 := (s.describeStacks s.cs.CFStackNodeGroupName).2
  match (s.describeStacks s.cs.CFStackNodeGroupName).1 with
  | Reply.ok out =>
    -- line 345: `*do.Stacks[0].StackStatus`
    match out.Stacks with
    | some st :: _ =>
      match st.StackStatus with
      | some status =>
        (Step.cont none, (((s1.setStackStatus status).setEC2Status status).sleep (5 * Second)))
      | none => (Step.ret Outcome.panicked, s1)
    | _ => (Step.ret Outcome.panicked, s1)
  | Reply.fail e =>
    if d.isCFDeletedGoClient s1.cs.CFStackNodeGroupName e then
      (Step.brk none, (s1.setStackStatus "DELETE_COMPLETE").setEC2Status "DELETE_COMPLETE")
    else
      (Step.cont (some e), ((((s1.setStackStatus e).setEC2Status e).sync).2.sleep (10 * Second)))

/-- Lines 367-377: what follows the loop of lines 339-365, applied to the
result of the loop. -/
def finishDelete (r : Option Outcome × Option String × Sys) : Outcome × Sys :=
  match r with
  | (some o, _, s1) => (o, s1)
  | (none, some e, s1) => (Outcome.returned (some (GoError.external e)), s1)
  | (none, none, s1) => (Outcome.returned ((s1.sync).1.map GoError.external), (s1.sync).2)

/-- Lines 312-377: the body of `deleteWorkerNode` after the deferred function
has been registered.  `s1` is the state after the `DeleteStack` call, `s2` the
state after the sleep of line 328. -/
def deleteWorkerNodeBody (d : Deps) (cfg : Config) (s : Sys) : Outcome × Sys :=
  if s.cs.CFStackNodeGroupName = "" then
    (Outcome.returned (some (GoError.new "cannot delete empty worker node")), s)
  else
    let s1 := (s.deleteStack s.cs.CFStackNodeGroupName).2
    match (s.deleteStack s.cs.CFStackNodeGroupName).1 with
    | some e =>
      (Outcome.returned (some (GoError.external e)), (s1.setStackStatus e).setEC2Status e)
    | none =>
      let s2 := ((s1.sync).2.sleep Minute)
      finishDelete
        (waitLoop (deleteWaitBody d) s2.readClock.1 (waitTimeOf cfg.WorkderNodeASGMax)
          (loopFuel (waitTimeOf cfg.WorkderNodeASGMax)) none s2.readClock.2)

/-- The deferred function of lines 307-310. -/
def deleteWorkerNodeDeferred (s : Sys) : Sys :=
  ((s.setCreated false).sync).2

/-- Go `(*embedded).deleteWorkerNode`. -/
def deleteWorkerNode (d : Deps) (cfg : Config) (s : Sys) : Outcome × Sys :=
  if s.cs.StatusWorkerNodeCreated = false then
    (Outcome.returned none, s)
  else
    ((deleteWorkerNodeBody d cfg s).1, deleteWorkerNodeDeferred (deleteWorkerNodeBody d cfg s).2)

/-! ## `createWorkerNode` (lines 17-301) -/

/-- The loop of lines 152-157 over the outputs of the stack: every output
named `NodeInstanceRole` is stored.  The first component tells whether a nil
pointer was dereferenced. -/
def captureRole : List (Option Output) → Sys → Bool × Sys
  | [], s => (false, s)
  | none :: _, s => (true, s)
  | some op :: rest, s =>
    match op.OutputKey with
    | none => (true, s)
    | some k =>
      if k = "NodeInstanceRole" then
        match op.OutputValue with
        | none => (true, s)
        | some v => captureRole rest (s.setRoleARN v)
      else
        captureRole rest s

/-- The body of the loop of lines 121-167; the variable `err` outlives it.
`s1` is the state after the `DescribeStacks` call of line 129, `s2` the state
after the assignment of line 144, `s3` the state after the loop over the
outputs. -/
def stackWaitBody (d : Deps) (_err : Option String) (s : Sys) : Step (Option String) × Sys :=
  if (s.observeStop).1 then
    (Step.ret (Outcome.returned none), (s.observeStop).2)
  else
    let s1 := ((s.observeStop).2.describeStacks s.cs.CFStackNodeGroupName).2
    match ((s.observeStop).2.describeStacks s.cs.CFStackNodeGroupName).1 with
    | Reply.fail e =>
      (Step.cont (some e), (((s1.setStackStatus e).sync).2.sleep (5 * Second)))
    | Reply.ok out =>
      if out.Stacks.length ≠ 1 then
        (Step.ret (Outcome.returned
          (some (GoError.expectsOneStack s1.cs.CFStackNodeGroupName out.Stacks))), s1)
      else
        -- line 144: `*do.Stacks[0].StackStatus`
        match out.Stacks with
        | some st :: _ =>
          match st.StackStatus with
          | some status =>
            let s2 := s1.setStackStatus status
            if d.isCFCreateFailed s2.cs.CFStackNodeGroupStatus then
              (Step.ret (Outcome.returned (some (GoError.failedToCreate
                s2.cs.CFStackNodeGroupName s2.cs.CFStackNodeGroupStatus))), s2)
            else
              let s3 := (captureRole st.Outputs s2).2
              if (captureRole st.Outputs s2).1 then
                (Step.ret Outcome.panicked, s3)
              else if s3.cs.CFStackNodeGroupStatus = "CREATE_COMPLETE" then
                (Step.brk none, s3)
              else
                (Step.cont none, ((s3.sync).2.sleep (15 * Second)))
          | none => (Step.ret Outcome.panicked, s1)
        | _ => (Step.ret Outcome.panicked, s1)

/-- The arguments of the `apply` command, lines 210-214. -/
def applyArgs (cfg : Config) (cmPath : String) : List String :=
  [cfg.kubectlPath, "--kubeconfig=" ++ cfg.KubeConfigPath, "apply", "--filename=" ++ cmPath]

/-- The arguments of the `get nodes` command, lines 238-242. -/
def getNodesArgs (cfg : Config) : List String :=
  [cfg.kubectlPath, "--kubeconfig=" ++ cfg.KubeConfigPath, "get", "nodes", "-ojson"]

/-- Lines 236-284: the second half of the body of the loop of lines 200-285,
entered with `applied` true.  `s1` is the state after the command. -/
def getNodesStep (d : Deps) (cfg : Config) (s : Sys) : Step Bool × Sys :=
  let kexo := (s.kubectlGetNodes (getNodesArgs cfg)).1.1
  let s1 := (s.kubectlGetNodes (getNodesArgs cfg)).2
  match (s.kubectlGetNodes (getNodesArgs cfg)).1.2 with
  | some e =>
    if stringsContains e "unknown flag:" then
      (Step.ret (Outcome.returned (some (GoError.unknownFlag kexo))), s1)
    else
      (Step.cont true, (((s1.setEC2Status e).sync).2.sleep (5 * Second)))
  | none =>
    match d.kubectlGetNodes kexo with
    | Reply.fail e =>
      (Step.cont true, (((s1.setEC2Status e).sync).2.sleep (10 * Second)))
    | Reply.ok ns =>
      if d.countReadyNodes ns = cfg.WorkderNodeASGMax then
        (Step.brk true, ((s1.setEC2Status "READY").sync).2)
      else
        (Step.cont true,
          (((s1.setEC2Status (toString ns.Items.length ++ " AVAILABLE")).sync).2.sleep (15 * Second)))

/-- The body of the loop of lines 200-285; the variable `applied` outlives
it.  `s1` is the state after the `apply` command. -/
def nodeReadyBody (d : Deps) (cfg : Config) (cmPath : String) (applied : Bool) (s : Sys) :
    Step Bool × Sys :=
  if (s.observeStop).1 then
    (Step.ret (Outcome.returned none), (s.observeStop).2)
  else if applied = false then
    let kexo := ((s.observeStop).2.kubectlApply (applyArgs cfg cmPath)).1.1
    let s1 := ((s.observeStop).2.kubectlApply (applyArgs cfg cmPath)).2
    match ((s.observeStop).2.kubectlApply (applyArgs cfg cmPath)).1.2 with
    | some e =>
      if stringsContains e "unknown flag:" then
        (Step.ret (Outcome.returned (some (GoError.unknownFlag kexo))), s1)
      else
        (Step.cont false, (((s1.setEC2Status e).sync).2.sleep (5 * Second)))
    | none => getNodesStep d cfg s1
  else
    getNodesStep d cfg (s.observeStop).2

/-- Lines 287-300: what follows the loop of lines 200-285, applied to the
result of the loop. -/
def finishMembership (cfg : Config) (r : Option Outcome × Bool × Sys) : Outcome × Sys :=
  match r with
  | (some o, _, s1) => (o, s1)
  | (none, _, s1) =>
    if s1.cs.EC2NodeGroupStatus ≠ "READY" then
      (Outcome.returned (some (GoError.notReady s1.cs.EC2NodeGroupStatus cfg.WorkderNodeASGMax)), s1)
    else
      (Outcome.returned ((s1.sync).1.map GoError.external), (s1.sync).2)

/-- Lines 197-300: the membership phase, from `kcfgPath := ...` to the final
`return md.cfg.Sync()`, the deferred removal left aside. -/
def verifyMembership (d : Deps) (cfg : Config) (waitTime : Int) (cmPath : String) (s : Sys) :
    Outcome × Sys :=
  finishMembership cfg
    (waitLoop (nodeReadyBody d cfg cmPath) s.readClock.1 waitTime (loopFuel waitTime)
      false s.readClock.2)

/-- Lines 200-300 entered at the head of the loop of line 200, with the
value of `applied`, the start time and the budget at hand. -/
def membershipFrom (d : Deps) (cfg : Config) (cmPath : String) (retryStart : Nat)
    (waitTime : Int) (fuel : Nat) (applied : Bool) (s : Sys) : Outcome × Sys :=
  finishMembership cfg (waitLoop (nodeReadyBody d cfg cmPath) retryStart waitTime fuel applied s)

/-- Lines 179-300: what follows the stack-wait loop when it has been left with
`err` nil, with the deferred `os.RemoveAll(cmPath)` of line 195. -/
def afterStackWait (d : Deps) (cfg : Config) (waitTime : Int) (s : Sys) : Outcome × Sys :=
  if s.cs.CFStackNodeGroupWorkerNodeInstanceRoleARN = "" then
    (Outcome.returned (some (GoError.new "cannot find node group instance role ARN")), s)
  else
    let s1 := (s.writeConfigMapNodeAuth s.cs.CFStackNodeGroupWorkerNodeInstanceRoleARN).2
    match (s.writeConfigMapNodeAuth s.cs.CFStackNodeGroupWorkerNodeInstanceRoleARN).1 with
    | Reply.fail e => (Outcome.returned (some (GoError.external e)), s1)
    | Reply.ok cmPath =>
      ((verifyMembership d cfg waitTime cmPath s1).1,
        (verifyMembership d cfg waitTime cmPath s1).2.removeAll cmPath)

/-- Lines 169-300: what follows the stack-wait loop, applied to the result of
the loop. -/
def finishStackWait (d : Deps) (cfg : Config) (waitTime : Int)
    (r : Option Outcome × Option String × Sys) : Outcome × Sys :=
  match r with
  | (some o, _, s1) => (o, s1)
  | (none, some e, s1) => (Outcome.returned (some (GoError.external e)), s1)
  | (none, none, s1) => afterStackWait d cfg waitTime s1

/-- The argument of `CreateStack`, lines 39-103; `h` is the host name and
`body` the rendered template. -/
def createStackInput (cfg : Config) (cs : ClusterState) (h body : String) : CreateStackInput :=
  { StackName := cs.CFStackNodeGroupName
    Tags := [(cfg.Tag, cfg.ClusterName), ("HOSTNAME", h)]
    TemplateBody := body
    Parameters :=
      [ ("ClusterName", cfg.ClusterName),
        ("NodeGroupName", cs.CFStackNodeGroupName),
        ("KeyName", cs.CFStackNodeGroupKeyPairName),
        ("NodeImageId", cfg.WorkerNodeAMI),
        ("NodeInstanceType", cfg.WorkerNodeInstanceType),
        ("NodeAutoScalingGroupMinSize", toString cfg.WorkderNodeASGMin),
        ("NodeAutoScalingGroupMaxSize", toString cfg.WorkderNodeASGMax),
        ("NodeVolumeSize", toString cfg.WorkerNodeVolumeSizeGB),
        ("VpcId", cs.CFStackVPCID),
        ("Subnets", stringsJoin cs.CFStackVPCSubnetIDs ","),
        ("ClusterControlPlaneSecurityGroup", cs.CFStackVPCSecurityGroupID) ]
    Capabilities := ["CAPABILITY_IAM"] }

/-- Lines 107-300: what follows a `CreateStack` call that returned no error.
`s1` is the state after the `select` of lines 112-117. -/
def afterCreateStack (d : Deps) (cfg : Config) (s : Sys) : Outcome × Sys :=
  let s1 := ((((s.setCreated true).sync).2).selectStopOrAfter (2 * Minute)).2
  if ((((s.setCreated true).sync).2).selectStopOrAfter (2 * Minute)).1 then
    (Outcome.returned none, s1)
  else
    finishStackWait d cfg (waitTimeOf cfg.WorkderNodeASGMax)
      (waitLoop (stackWaitBody d) s1.readClock.1 (waitTimeOf cfg.WorkderNodeASGMax)
        (loopFuel (waitTimeOf cfg.WorkderNodeASGMax)) none s1.readClock.2)

/-- Go `(*embedded).createWorkerNode`.  `s1` is the state after the
`CreateStack` call. -/
def createWorkerNode (d : Deps) (cfg : Config) (s : Sys) : Outcome × Sys :=
  if s.cs.CFStackNodeGroupKeyPairName = "" then
    (Outcome.returned (some (GoError.new "cannot create worker node without key name")), s)
  else if s.cs.CFStackNodeGroupName = "" then
    (Outcome.returned (some (GoError.new "cannot create empty worker node")), s)
  else
    match d.createWorkerNodeTemplate
        { Description := cfg.ClusterName ++ "-worker-node-stack"
          TagKey := cfg.Tag
          TagValue := cfg.ClusterName
          Hostname := s.w.hostname
          EnableNodeSSH := false } with
    | Reply.fail e => (Outcome.returned (some (GoError.external e)), s)
    | Reply.ok body =>
      let s1 := (s.createStack (createStackInput cfg s.cs s.w.hostname body)).2
      match (s.createStack (createStackInput cfg s.cs s.w.hostname body)).1 with
      | some e => (Outcome.returned (some (GoError.external e)), s1)
      | none => afterCreateStack d cfg s1

/-! ## Vocabulary of the statements -/

/-- A `DescribeStacks` call. -/
def Event.isDescribe : Event → Bool
  | Event.describeStacks _ _ => true
  | _ => false

/-- A `kubectl` command. -/
def Event.isKubectl : Event → Bool
  | Event.kubectlApply _ _ _ => true
  | Event.kubectlGetNodes _ _ _ => true
  | _ => false

/-- A `get nodes` command. -/
def Event.isGetNodes : Event → Bool
  | Event.kubectlGetNodes _ _ _ => true
  | _ => false

/-- A `time.Sleep`. -/
def Event.isSleep : Event → Bool
  | Event.sleep _ => true
  | _ => false

/-- A call that writes the identity-mapping document. -/
def Event.isWriteConfigMap : Event → Bool
  | Event.writeConfigMapNodeAuth _ _ => true
  | _ => false

/-- A call of the membership phase: the identity-mapping document is written
or `kubectl` is run. -/
def Event.isMembership : Event → Bool
  | Event.writeConfigMapNodeAuth _ _ => true
  | Event.kubectlApply _ _ _ => true
  | Event.kubectlGetNodes _ _ _ => true
  | _ => false

/-- The trace holds a successful describe response with an output named
`NodeInstanceRole` of value `arn`. -/
def RoleSeen (tr : List Event) (arn : String) : Prop :=
  ∃ name out st op, Event.describeStacks name (Reply.ok out) ∈ tr ∧ some st ∈ out.Stacks ∧
    some op ∈ st.Outputs ∧ op.OutputKey = some "NodeInstanceRole" ∧ op.OutputValue = some arn

/-- The trace holds a successful describe response reporting `status`. -/
def StatusSeen (tr : List Event) (status : String) : Prop :=
  ∃ name out st, Event.describeStacks name (Reply.ok out) ∈ tr ∧ some st ∈ out.Stacks ∧
    st.StackStatus = some status

/-- A describe response that holds exactly one stack whose status the
classifier `failed` accepts. -/
def FailedResponse (failed : String → Bool) (status : String) (e : Event) : Prop :=
  ∃ name outs, e = Event.describeStacks name
    (Reply.ok { Stacks := [some { StackStatus := some status, Outputs := outs }] }) ∧
    failed status = true

/-- A failed `apply` command with combined output `output` whose error text
contains "unknown flag:". -/
def UnknownFlagApply (output : String) (e : Event) : Prop :=
  ∃ args err, e = Event.kubectlApply args output (some err) ∧
    stringsContains err "unknown flag:" = true

/-- Time that `n` iterations take when each ends with a sleep of `interval`:
the delays before their clock readings and their sleeps. -/
def pollTime (tick : Nat → Nat) (interval : Nat) : Nat → Nat
  | 0 => 0
  | n + 1 => pollTime tick interval n + tick n + interval

/-- No nil pointer among the outputs, and none is named `NodeInstanceRole`. -/
def noRoleOutput (outs : List (Option Output)) : Prop :=
  ∀ o ∈ outs, ∃ k v, o = some { OutputKey := some k, OutputValue := v } ∧ k ≠ "NodeInstanceRole"

/-- No nil pointer among the outputs, one of them is `NodeInstanceRole = role`
and no output named `NodeInstanceRole` has another value. -/
def roleOutputIs (outs : List (Option Output)) (role : String) : Prop :=
  (∀ o ∈ outs, ∃ k v, o = some { OutputKey := some k, OutputValue := some v } ∧
    (k = "NodeInstanceRole" → v = role)) ∧
  some { OutputKey := some "NodeInstanceRole", OutputValue := some role } ∈ outs

/-- A successful describe response that holds exactly one stack, with a
status that is neither failed nor `CREATE_COMPLETE` and without role output. -/
def inProgressNoRole (d : Deps) (r : Reply DescribeStacksOutput) : Prop :=
  ∃ status outs, r = Reply.ok { Stacks := [some { StackStatus := some status, Outputs := outs }] } ∧
    d.isCFCreateFailed status = false ∧ status ≠ "CREATE_COMPLETE" ∧ noRoleOutput outs

/-- A successful describe response that holds exactly one stack, with status
`CREATE_COMPLETE` and the output `NodeInstanceRole = role`. -/
def completeWithRole (r : Reply DescribeStacksOutput) (role : String) : Prop :=
  ∃ outs, r = Reply.ok { Stacks := [some { StackStatus := some "CREATE_COMPLETE", Outputs := outs }] } ∧
    roleOutputIs outs role

/-- A `get nodes` answer that succeeds, is decoded, and whose count of ready
nodes is `ready`. -/
def readyCountIs (d : Deps) (ans : String × Option String) (ready : Int) : Prop :=
  ans.2 = none ∧ ∃ ns, d.kubectlGetNodes ans.1 = Reply.ok ns ∧ d.countReadyNodes ns = ready

/-- An `apply` command. -/
def Event.isApply : Event → Bool
  | Event.kubectlApply _ _ _ => true
  | _ => false

/-- Among the calls `evs` none satisfies `T`, or `evs` ends with one call
followed by the calls `tail`, no other call satisfies `T`, and `Q` holds. -/
def EndsAt (T : Event → Prop) (Q : Prop) (tail evs : List Event) : Prop :=
  (∀ x ∈ evs, ¬ T x) ∨
  ∃ pre e, evs = pre ++ e :: tail ∧ (∀ x ∈ pre, ¬ T x) ∧ (∀ x ∈ tail, ¬ T x) ∧ Q

/-! ## Collaborators used for the concrete runs -/

/-- A stream that starts with the elements of `l` and goes on with `dflt`. -/
def streamOf {α : Type} (l : List α) (dflt : α) : Nat → α :=
  fun i => l.getD i dflt

/-- Modelled from the spec: `isCFCreateFailed` is defined outside the files at
hand; section 4.2 calls a status failed when it "matches a failed/rollback
pattern". -/
def specIsCFCreateFailed (status : String) : Bool :=
  stringsContains status "FAILED" || stringsContains status "ROLLBACK"

/-- Modelled from the spec: `isCFDeletedGoClient` is defined outside the files
at hand; section 4.2 speaks of a "stack does not exist" classification of the
describe error. -/
def specIsCFDeletedGoClient (_name : String) (errText : String) : Bool :=
  stringsContains errText "does not exist"

/-- Modelled from the spec: `countReadyNodes` is defined outside the files at
hand; by section 3 a node is ready iff its "Ready" condition is "True". -/
def specCountReadyNodes (ns : nodeList) : Int :=
  ((ns.Items.filter (fun n =>
    n.conditions.any (fun c => c.type == "Ready" && c.status == "True"))).length : Nat)

/-- A node whose "Ready" condition has the given status. -/
def nodeWithReady (status : String) : Node :=
  { conditions := [{ type := "Ready", status := status }] }

/-- A stand-in for the JSON decoder `kubectlGetNodes`: the document is a word
over `R` (a ready node) and `N` (a node that is not ready); any other
character is a decoding error. -/
def fakeKubectlGetNodes (output : String) : Reply nodeList :=
  if output.data.all (fun c => c == 'R' || c == 'N') then
    Reply.ok { Items := output.data.map (fun c => if c == 'R' then nodeWithReady "True"
                                                   else nodeWithReady "False") }
  else
    Reply.fail "invalid character"

/-- The collaborators of the concrete runs. -/
def testDeps : Deps :=
  { createWorkerNodeTemplate := fun v => Reply.ok ("# " ++ v.Description)
    isCFCreateFailed := specIsCFCreateFailed
    isCFDeletedGoClient := specIsCFDeletedGoClient
    kubectlGetNodes := fakeKubectlGetNodes
    countReadyNodes := specCountReadyNodes }

/-- A configuration asking for `asgMax` worker nodes. -/
def testConfig (asgMax : Int) : Config :=
  { ClusterName := "c1"
    Tag := "awstester"
    WorkerNodeAMI := "ami-1"
    WorkerNodeInstanceType := "m5.large"
    WorkderNodeASGMin := 1
    WorkderNodeASGMax := asgMax
    WorkerNodeVolumeSizeGB := 20
    KubeConfigPath := "/tmp/kubeconfig"
    kubectlPath := "/usr/bin/kubectl" }

/-- A cluster state as it is before the worker nodes are created. -/
def testState : ClusterState :=
  { CFStackNodeGroupKeyPairName := "key"
    CFStackNodeGroupName := "ng"
    CFStackVPCID := "vpc-1"
    CFStackVPCSubnetIDs := ["subnet-1", "subnet-2"]
    CFStackVPCSecurityGroupID := "sg-1"
    StatusWorkerNodeCreated := false
    CFStackNodeGroupStatus := ""
    CFStackNodeGroupWorkerNodeInstanceRoleARN := ""
    EC2NodeGroupStatus := "" }

/-- A describe response with one stack of the given status and outputs. -/
def describeOk (status : String) (outputs : List (String × String)) : Reply DescribeStacksOutput :=
  Reply.ok { Stacks := [some { StackStatus := some status
                               Outputs := outputs.map (fun kv =>
                                 some { OutputKey := some kv.1, OutputValue := some kv.2 }) }] }

/-- A world in which no time passes outside sleeps, the stop channel stays
open, every call succeeds, the stack is reported complete with the role `r1` at
once and three nodes are ready at once. -/
def calmWorld : World :=
  { now := 0
    pending := 0
    tick := fun _ => 0
    stopc := fun _ => false
    hostname := "host"
    createStack := fun _ => none
    describeStacks := fun _ => describeOk "CREATE_COMPLETE" [("NodeInstanceRole", "r1")]
    deleteStack := fun _ => none
    sync := fun _ => none
    writeConfigMapNodeAuth := fun _ => Reply.ok "/tmp/cm"
    kubectlApply := fun _ => ("configmap/aws-auth created", none)
    kubectlGetNodes := fun _ => ("RRR", none) }

/-- A world like `calmWorld` whose stop channel is closed from the start. -/
def stoppedWorld : World :=
  { calmWorld with stopc := fun _ => true }

/-- A world like `calmWorld` in which the stack is reported complete without
any output. -/
def noOutputWorld : World :=
  { calmWorld with describeStacks := fun _ => describeOk "CREATE_COMPLETE" [] }

/-- A cluster state that holds a role ARN from an earlier run. -/
def staleState : ClusterState :=
  { testState with CFStackNodeGroupWorkerNodeInstanceRoleARN := "arn:old" }

/-- A world like `calmWorld` in which 400 seconds pass before every clock
reading and the stack is reported in progress, without output, for ever. -/
def slowWorld : World :=
  { calmWorld with
    tick := fun _ => 400 * Second
    describeStacks := fun _ => describeOk "CREATE_IN_PROGRESS" [] }

/-- A world like `slowWorld` in which every describe response, still in
progress, has the role `r1` among its outputs. -/
def slowRoleWorld : World :=
  { slowWorld with
    describeStacks := fun _ => describeOk "CREATE_IN_PROGRESS" [("NodeInstanceRole", "r1")] }

/-- A world like `calmWorld` in which the stack is first reported in progress
with the role `r1` among its outputs and then complete without any output. -/
def earlyRoleWorld : World :=
  { calmWorld with
    describeStacks := streamOf [describeOk "CREATE_IN_PROGRESS" [("NodeInstanceRole", "r1")]]
      (describeOk "CREATE_COMPLETE" []) }

/-- A cluster state without key-pair name. -/
def noKeyState : ClusterState :=
  { testState with CFStackNodeGroupKeyPairName := "" }

/-- A world like `calmWorld` in which the stack is first reported in progress
and then failed. -/
def failingWorld : World :=
  { calmWorld with
    describeStacks := streamOf [describeOk "CREATE_IN_PROGRESS" []] (describeOk "CREATE_FAILED" []) }

/-- A world like `calmWorld` in which the first `apply` command fails with
the exit status as error text and "unknown flag: --foo" as combined output. -/
def flagInOutputWorld : World :=
  { calmWorld with
    kubectlApply := streamOf [("unknown flag: --foo", some "exit status 1")]
      ("configmap/aws-auth created", none) }

/-- A world like `calmWorld` in which the first `apply` command fails with an
error text that contains "unknown flag: --foo". -/
def flagInErrorWorld : World :=
  { calmWorld with
    kubectlApply := streamOf [("Error: unknown flag: --foo", some "unknown flag: --foo")]
      ("configmap/aws-auth created", none) }

/-- A cluster state after the worker nodes have been created. -/
def createdState : ClusterState :=
  { testState with StatusWorkerNodeCreated := true, CFStackNodeGroupStatus := "CREATE_COMPLETE" }

/-- A world like `calmWorld` in which the stack is reported as being deleted
for ever. -/
def stillDeletingWorld : World :=
  { calmWorld with describeStacks := fun _ => describeOk "DELETE_IN_PROGRESS" [] }

/-- A world like `calmWorld` in which the stack is reported in progress
twice, without output, and then complete with the role `r1`. -/
def thirdPollWorld : World :=
  { calmWorld with
    describeStacks := streamOf
      [describeOk "CREATE_IN_PROGRESS" [], describeOk "CREATE_IN_PROGRESS" []]
      (describeOk "CREATE_COMPLETE" [("NodeInstanceRole", "r1")]) }

/-- A world like `calmWorld` in which two of three nodes are ready at first
and three of three afterwards. -/
def twoThenThreeWorld : World :=
  { calmWorld with kubectlGetNodes := streamOf [("RRN", none)] ("RRR", none) }

/-! ## The primitives, field by field -/

section prims
variable (s : Sys)

@[simp] theorem readClock_cs : s.readClock.2.cs = s.cs := rfl
@[simp] theorem readClock_trace : s.readClock.2.trace = s.trace := rfl
@[simp] theorem readClock_stopc : s.readClock.2.w.stopc = s.w.stopc := rfl
@[simp] theorem observeStop_cs : s.observeStop.2.cs = s.cs := rfl
@[simp] theorem observeStop_trace : s.observeStop.2.trace = s.trace := rfl
@[simp] theorem sleep_cs (n : Nat) : (s.sleep n).cs = s.cs := rfl
@[simp] theorem sleep_trace (n : Nat) : (s.sleep n).trace = s.trace ++ [Event.sleep n] := rfl
@[simp] theorem sleep_stopc (n : Nat) : (s.sleep n).w.stopc = s.w.stopc := rfl
@[simp] theorem sync_cs : s.sync.2.cs = s.cs := rfl
@[simp] theorem sync_trace : s.sync.2.trace = s.trace ++ [Event.sync s.cs (s.w.sync 0)] := rfl
@[simp] theorem sync_stopc : s.sync.2.w.stopc = s.w.stopc := rfl
@[simp] theorem setStackStatus_trace (v : String) : (s.setStackStatus v).trace = s.trace := rfl
@[simp] theorem setStackStatus_w (v : String) : (s.setStackStatus v).w = s.w := rfl
@[simp] theorem setEC2Status_trace (v : String) : (s.setEC2Status v).trace = s.trace := rfl
@[simp] theorem setEC2Status_w (v : String) : (s.setEC2Status v).w = s.w := rfl
@[simp] theorem setRoleARN_trace (v : String) : (s.setRoleARN v).trace = s.trace := rfl
@[simp] theorem setRoleARN_w (v : String) : (s.setRoleARN v).w = s.w := rfl
@[simp] theorem setCreated_trace (v : Bool) : (s.setCreated v).trace = s.trace := rfl
@[simp] theorem setCreated_w (v : Bool) : (s.setCreated v).w = s.w := rfl
@[simp] theorem describeStacks_cs (n : String) : (s.describeStacks n).2.cs = s.cs := rfl
@[simp] theorem describeStacks_trace (n : String) :
    (s.describeStacks n).2.trace = s.trace ++ [Event.describeStacks n (s.w.describeStacks 0)] := rfl
@[simp] theorem describeStacks_stopc (n : String) : (s.describeStacks n).2.w.stopc = s.w.stopc := rfl
@[simp] theorem describeStacks_reply (n : String) : (s.describeStacks n).1 = s.w.describeStacks 0 := rfl
@[simp] theorem kubectlApply_cs (a : List String) : (s.kubectlApply a).2.cs = s.cs := rfl
@[simp] theorem kubectlApply_trace (a : List String) :
    (s.kubectlApply a).2.trace =
      s.trace ++ [Event.kubectlApply a (s.w.kubectlApply 0).1 (s.w.kubectlApply 0).2] := rfl
@[simp] theorem kubectlApply_stopc (a : List String) : (s.kubectlApply a).2.w.stopc = s.w.stopc := rfl
@[simp] theorem kubectlApply_reply (a : List String) : (s.kubectlApply a).1 = s.w.kubectlApply 0 := rfl
@[simp] theorem kubectlGetNodes_cs (a : List String) : (s.kubectlGetNodes a).2.cs = s.cs := rfl
@[simp] theorem kubectlGetNodes_trace (a : List String) :
    (s.kubectlGetNodes a).2.trace =
      s.trace ++ [Event.kubectlGetNodes a (s.w.kubectlGetNodes 0).1 (s.w.kubectlGetNodes 0).2] := rfl
@[simp] theorem kubectlGetNodes_stopc (a : List String) :
    (s.kubectlGetNodes a).2.w.stopc = s.w.stopc := rfl
@[simp] theorem kubectlGetNodes_reply (a : List String) :
    (s.kubectlGetNodes a).1 = s.w.kubectlGetNodes 0 := rfl

end prims

/-! ## The loop over the outputs -/

/-- The loop over the outputs changes nothing but the role ARN. -/
theorem captureRole_frame (outs : List (Option Output)) :
    ∀ s : Sys, (captureRole outs s).2 =
      s.setRoleARN (captureRole outs s).2.cs.CFStackNodeGroupWorkerNodeInstanceRoleARN := by
  induction outs with
  | nil => intro s; rfl
  | cons o rest ih =>
    intro s
    cases o with
    | none => rfl
    | some op =>
      unfold captureRole
      cases hk : op.OutputKey with
      | none => rfl
      | some k =>
        by_cases hr : k = "NodeInstanceRole"
        · cases hv : op.OutputValue with
          | none => simp [hr]; rfl
          | some v =>
            simp only [hr, if_true]
            rw [ih (s.setRoleARN v)]
            rfl
        · simp only [hr, if_false]
          exact ih s

/-- The role ARN after the loop over the outputs is the one before it or the
value of an output named `NodeInstanceRole`. -/
theorem captureRole_source (outs : List (Option Output)) :
    ∀ s : Sys,
      (captureRole outs s).2.cs.CFStackNodeGroupWorkerNodeInstanceRoleARN =
          s.cs.CFStackNodeGroupWorkerNodeInstanceRoleARN ∨
      ∃ op, some op ∈ outs ∧ op.OutputKey = some "NodeInstanceRole" ∧
        op.OutputValue = some (captureRole outs s).2.cs.CFStackNodeGroupWorkerNodeInstanceRoleARN := by
  induction outs with
  | nil => intro s; exact Or.inl rfl
  | cons o rest ih =>
    intro s
    cases o with
    | none => exact Or.inl rfl
    | some op =>
      unfold captureRole
      cases hk : op.OutputKey with
      | none => exact Or.inl rfl
      | some k =>
        by_cases hr : k = "NodeInstanceRole"
        · cases hv : op.OutputValue with
          | none => simp [hr]
          | some v =>
            simp only [hr, if_true]
            rcases ih (s.setRoleARN v) with h | ⟨op2, hm, hk2, hv2⟩
            · right
              refine ⟨op, by simp, by rw [hk, hr], ?_⟩
              rw [hv, h]; rfl
            · right
              exact ⟨op2, by simp [hm], hk2, hv2⟩
        · simp only [hr, if_false]
          rcases ih s with h | ⟨op2, hm, hk2, hv2⟩
          · exact Or.inl h
          · right
            exact ⟨op2, by simp [hm], hk2, hv2⟩

@[simp] theorem captureRole_trace (outs : List (Option Output)) (s : Sys) :
    (captureRole outs s).2.trace = s.trace := by
  rw [captureRole_frame]; rfl

@[simp] theorem captureRole_w (outs : List (Option Output)) (s : Sys) :
    (captureRole outs s).2.w = s.w := by
  rw [captureRole_frame]; rfl

/-- Outputs without role leave the state as it is. -/
theorem captureRole_noRole (outs : List (Option Output)) (h : noRoleOutput outs) (s : Sys) :
    captureRole outs s = (false, s) := by
  induction outs with
  | nil => rfl
  | cons o rest ih =>
    obtain ⟨k, v, ho, hk⟩ := h o (by simp)
    subst ho
    unfold captureRole
    simp only [hk, if_false]
    exact ih (fun o ho => h o (by simp [ho]))

/-- Outputs whose role is `role` store it. -/
theorem captureRole_roleIs (outs : List (Option Output)) (role : String)
    (h : roleOutputIs outs role) (s : Sys) :
    captureRole outs s = (false, s.setRoleARN role) := by
  obtain ⟨hall, hmem⟩ := h
  -- once the role is stored, the rest of the list keeps it
  have keep : ∀ (l : List (Option Output)),
      (∀ o ∈ l, ∃ k v, o = some { OutputKey := some k, OutputValue := some v } ∧
        (k = "NodeInstanceRole" → v = role)) →
      ∀ t : Sys, t.cs.CFStackNodeGroupWorkerNodeInstanceRoleARN = role → captureRole l t = (false, t) := by
    intro l
    induction l with
    | nil => intro _ t _; rfl
    | cons o rest ih =>
      intro hl t ht
      obtain ⟨k, v, ho, hkv⟩ := hl o (by simp)
      subst ho
      unfold captureRole
      by_cases hr : k = "NodeInstanceRole"
      · simp only [hr, if_true]
        have hv : v = role := hkv hr
        have : t.setRoleARN v = t := by
          rw [hv, ← ht]; rfl
        rw [this]
        exact ih (fun o ho => hl o (by simp [ho])) t ht
      · simp only [hr, if_false]
        exact ih (fun o ho => hl o (by simp [ho])) t ht
  induction outs generalizing s with
  | nil => simp at hmem
  | cons o rest ih =>
    obtain ⟨k, v, ho, hkv⟩ := hall o (by simp)
    subst ho
    unfold captureRole
    by_cases hr : k = "NodeInstanceRole"
    · simp only [hr, if_true]
      have hv : v = role := hkv hr
      rw [hv]
      exact keep rest (fun o ho => hall o (by simp [ho])) (s.setRoleARN role) rfl
    · simp only [hr, if_false]
      have hmem2 : some { OutputKey := some "NodeInstanceRole", OutputValue := some role } ∈ rest := by
        rcases List.mem_cons.1 hmem with h | h
        · exfalso
          simp only [Option.some.injEq, Output.mk.injEq] at h
          exact hr h.1.symm
        · exact h
      exact ih s (fun o ho => hall o (by simp [ho])) hmem2

/-! ## The wait loop -/

/-- An invariant of the clock readings and of the loop body is an invariant of
the loop, and what holds of the outcomes of the body holds of those of the
loop. -/
theorem waitLoop_inv {σ : Type} (body : σ → Sys → Step σ × Sys) (P : Sys → Prop)
    (R : Outcome → Prop) (hR : R Outcome.outOfFuel)
    (hclock : ∀ s, P s → P s.readClock.2)
    (hbody : ∀ v s, P s → P (body v s).2 ∧ ∀ o, (body v s).1 = Step.ret o → R o)
    (retryStart : Nat) (waitTime : Int) :
    ∀ (fuel : Nat) (v : σ) (s : Sys), P s →
      P (waitLoop body retryStart waitTime fuel v s).2.2 ∧
      ∀ o, (waitLoop body retryStart waitTime fuel v s).1 = some o → R o := by
  intro fuel
  induction fuel with
  | zero =>
    intro v s hs
    refine ⟨hs, ?_⟩
    intro o ho
    simp only [waitLoop, Option.some.injEq] at ho
    rw [← ho]; exact hR
  | succ fuel ih =>
    intro v s hs
    unfold waitLoop
    by_cases hg : ((s.readClock.1 : Int) - (retryStart : Int) < waitTime)
    · simp only [hg, if_true]
      have hb := hbody v s.readClock.2 (hclock s hs)
      rcases hstep : body v s.readClock.2 with ⟨st, s2⟩
      rw [hstep] at hb
      cases st with
      | ret o =>
        refine ⟨hb.1, ?_⟩
        intro o2 ho2
        simp only [Option.some.injEq] at ho2
        rw [← ho2]; exact hb.2 o rfl
      | brk v2 => exact ⟨hb.1, by intro o ho; simp at ho⟩
      | cont v2 => exact ih v2 s2 hb.1
    · simp only [hg, if_false]
      exact ⟨hclock s hs, by intro o ho; simp at ho⟩

/-! ## One iteration of the stack-wait loop -/

section fields
variable (s : Sys) (v : String)

@[simp] theorem tl_apply {α : Type} (f : Nat → α) (i : Nat) : tl f i = f (i + 1) := rfl
@[simp] theorem observeStop_fst : s.observeStop.1 = s.w.stopc 0 := rfl
@[simp] theorem observeStop_stopc : s.observeStop.2.w.stopc = tl s.w.stopc := rfl
@[simp] theorem observeStop_describeStacks :
    s.observeStop.2.w.describeStacks = s.w.describeStacks := rfl
@[simp] theorem observeStop_kubectlApply : s.observeStop.2.w.kubectlApply = s.w.kubectlApply := rfl
@[simp] theorem observeStop_kubectlGetNodes :
    s.observeStop.2.w.kubectlGetNodes = s.w.kubectlGetNodes := rfl
@[simp] theorem setStackStatus_arn : (s.setStackStatus v).cs.CFStackNodeGroupWorkerNodeInstanceRoleARN =
    s.cs.CFStackNodeGroupWorkerNodeInstanceRoleARN := rfl
@[simp] theorem setStackStatus_name :
    (s.setStackStatus v).cs.CFStackNodeGroupName = s.cs.CFStackNodeGroupName := rfl
@[simp] theorem setStackStatus_status : (s.setStackStatus v).cs.CFStackNodeGroupStatus = v := rfl
@[simp] theorem setStackStatus_created :
    (s.setStackStatus v).cs.StatusWorkerNodeCreated = s.cs.StatusWorkerNodeCreated := rfl
@[simp] theorem setRoleARN_name :
    (s.setRoleARN v).cs.CFStackNodeGroupName = s.cs.CFStackNodeGroupName := rfl
@[simp] theorem setRoleARN_status :
    (s.setRoleARN v).cs.CFStackNodeGroupStatus = s.cs.CFStackNodeGroupStatus := rfl
@[simp] theorem setRoleARN_created :
    (s.setRoleARN v).cs.StatusWorkerNodeCreated = s.cs.StatusWorkerNodeCreated := rfl
@[simp] theorem setRoleARN_arn :
    (s.setRoleARN v).cs.CFStackNodeGroupWorkerNodeInstanceRoleARN = v := rfl
@[simp] theorem setEC2Status_arn : (s.setEC2Status v).cs.CFStackNodeGroupWorkerNodeInstanceRoleARN =
    s.cs.CFStackNodeGroupWorkerNodeInstanceRoleARN := rfl
@[simp] theorem setEC2Status_name :
    (s.setEC2Status v).cs.CFStackNodeGroupName = s.cs.CFStackNodeGroupName := rfl
@[simp] theorem setEC2Status_status :
    (s.setEC2Status v).cs.CFStackNodeGroupStatus = s.cs.CFStackNodeGroupStatus := rfl
@[simp] theorem setEC2Status_created :
    (s.setEC2Status v).cs.StatusWorkerNodeCreated = s.cs.StatusWorkerNodeCreated := rfl
@[simp] theorem setEC2Status_ec2 : (s.setEC2Status v).cs.EC2NodeGroupStatus = v := rfl

@[simp] theorem captureRole_name (outs : List (Option Output)) :
    (captureRole outs s).2.cs.CFStackNodeGroupName = s.cs.CFStackNodeGroupName := by
  rw [captureRole_frame]; rfl
@[simp] theorem captureRole_status (outs : List (Option Output)) :
    (captureRole outs s).2.cs.CFStackNodeGroupStatus = s.cs.CFStackNodeGroupStatus := by
  rw [captureRole_frame]; rfl
@[simp] theorem captureRole_created (outs : List (Option Output)) :
    (captureRole outs s).2.cs.StatusWorkerNodeCreated = s.cs.StatusWorkerNodeCreated := by
  rw [captureRole_frame]; rfl

end fields

/-- What one iteration of the stack-wait loop leaves as it is: it makes no
call of the membership phase, only adds to the trace, keeps the stack name
and the created flag, observes the stop channel once, and returns nil only
when it finds the stop channel closed. -/
theorem stackWaitBody_frame (d : Deps) (v : Option String) (s : Sys) :
    (stackWaitBody d v s).2.trace.filter Event.isMembership = s.trace.filter Event.isMembership ∧
    s.trace <+: (stackWaitBody d v s).2.trace ∧
    (stackWaitBody d v s).2.cs.CFStackNodeGroupName = s.cs.CFStackNodeGroupName ∧
    (stackWaitBody d v s).2.cs.StatusWorkerNodeCreated = s.cs.StatusWorkerNodeCreated ∧
    (stackWaitBody d v s).2.w.stopc = tl s.w.stopc ∧
    (∀ o, (stackWaitBody d v s).1 = Step.ret o → o = Outcome.returned none → s.w.stopc 0 = true) := by
  unfold stackWaitBody
  simp only []
  repeat' split
  all_goals simp_all [Event.isMembership]

/-- After one iteration of the stack-wait loop the role ARN is the one before
it or the value of a `NodeInstanceRole` output of the response just received. -/
theorem stackWaitBody_role (d : Deps) (v : Option String) (s : Sys) :
    (stackWaitBody d v s).2.cs.CFStackNodeGroupWorkerNodeInstanceRoleARN =
        s.cs.CFStackNodeGroupWorkerNodeInstanceRoleARN ∨
    RoleSeen (stackWaitBody d v s).2.trace
      (stackWaitBody d v s).2.cs.CFStackNodeGroupWorkerNodeInstanceRoleARN := by
  have key : ∀ (out : DescribeStacksOutput) (st : Stack) (rest : List (Option Stack)) (t : Sys)
      (tr : List Event) (status : String),
      s.w.describeStacks 0 = Reply.ok out → out.Stacks = some st :: rest →
      t.cs.CFStackNodeGroupWorkerNodeInstanceRoleARN = s.cs.CFStackNodeGroupWorkerNodeInstanceRoleARN →
      Event.describeStacks s.cs.CFStackNodeGroupName (s.w.describeStacks 0) ∈ tr →
      (captureRole st.Outputs t).2.cs.CFStackNodeGroupWorkerNodeInstanceRoleARN =
          s.cs.CFStackNodeGroupWorkerNodeInstanceRoleARN ∨
      RoleSeen tr (captureRole st.Outputs t).2.cs.CFStackNodeGroupWorkerNodeInstanceRoleARN := by
    intro out st rest t tr status hd hst ht hmem
    rcases captureRole_source st.Outputs t with h | ⟨op, hop, hk, hv⟩
    · left; rw [h, ht]
    · right
      rw [hd] at hmem
      exact ⟨_, out, st, op, hmem, by rw [hst]; simp, hop, hk, hv⟩
  unfold stackWaitBody
  simp only []
  split
  · left; rfl
  · split
    · left; rfl
    · rename_i out hd
      split
      · left; rfl
      · split
        · rename_i st rest hst
          split
          · rename_i status hstatus
            split
            · left; rfl
            · split
              · exact key out st rest _ _ status hd hst rfl (by simp)
              · split
                · exact key out st rest _ _ status hd hst rfl (by simp)
                · exact key out st rest _ _ status hd hst rfl (by simp)
          · left; rfl
        · left; rfl

/-! ## One iteration of the membership loop -/

/-- What the second half of an iteration of the membership loop leaves as it
is. -/
theorem getNodesStep_frame (d : Deps) (cfg : Config) (s : Sys) :
    (getNodesStep d cfg s).2.trace.filter Event.isDescribe = s.trace.filter Event.isDescribe ∧
    (getNodesStep d cfg s).2.trace.filter Event.isWriteConfigMap =
      s.trace.filter Event.isWriteConfigMap ∧
    s.trace <+: (getNodesStep d cfg s).2.trace ∧
    (getNodesStep d cfg s).2.cs.CFStackNodeGroupWorkerNodeInstanceRoleARN =
      s.cs.CFStackNodeGroupWorkerNodeInstanceRoleARN ∧
    (getNodesStep d cfg s).2.cs.CFStackNodeGroupStatus = s.cs.CFStackNodeGroupStatus ∧
    (getNodesStep d cfg s).2.cs.StatusWorkerNodeCreated = s.cs.StatusWorkerNodeCreated ∧
    (getNodesStep d cfg s).2.w.stopc = s.w.stopc ∧
    (∀ o, (getNodesStep d cfg s).1 = Step.ret o → o ≠ Outcome.returned none) := by
  unfold getNodesStep
  simp only []
  repeat' split
  all_goals simp_all [Event.isDescribe, Event.isWriteConfigMap]

/-- What one iteration of the membership loop leaves as it is: it makes no
`DescribeStacks` call, does not write the document again, only adds to the
trace, keeps the role ARN, the stack status and the created flag, observes the
stop channel once, and returns nil only when it finds the stop channel
closed. -/
theorem nodeReadyBody_frame (d : Deps) (cfg : Config) (cmPath : String) (applied : Bool)
    (s : Sys) :
    (nodeReadyBody d cfg cmPath applied s).2.trace.filter Event.isDescribe =
      s.trace.filter Event.isDescribe ∧
    (nodeReadyBody d cfg cmPath applied s).2.trace.filter Event.isWriteConfigMap =
      s.trace.filter Event.isWriteConfigMap ∧
    s.trace <+: (nodeReadyBody d cfg cmPath applied s).2.trace ∧
    (nodeReadyBody d cfg cmPath applied s).2.cs.CFStackNodeGroupWorkerNodeInstanceRoleARN =
      s.cs.CFStackNodeGroupWorkerNodeInstanceRoleARN ∧
    (nodeReadyBody d cfg cmPath applied s).2.cs.CFStackNodeGroupStatus =
      s.cs.CFStackNodeGroupStatus ∧
    (nodeReadyBody d cfg cmPath applied s).2.cs.StatusWorkerNodeCreated =
      s.cs.StatusWorkerNodeCreated ∧
    (nodeReadyBody d cfg cmPath applied s).2.w.stopc = tl s.w.stopc ∧
    (∀ o, (nodeReadyBody d cfg cmPath applied s).1 = Step.ret o → o = Outcome.returned none →
      s.w.stopc 0 = true) := by
  unfold nodeReadyBody
  simp only []
  split
  · simp_all
  · split
    · split
      · split
        · simp_all [Event.isDescribe, Event.isWriteConfigMap]
        · simp_all [Event.isDescribe, Event.isWriteConfigMap]
      · obtain ⟨h1, h2, h3, h4, h5, h6, h7, h8⟩ :=
          getNodesStep_frame d cfg ((s.observeStop).2.kubectlApply (applyArgs cfg cmPath)).2
        refine ⟨?_, ?_, ?_, ?_, ?_, ?_, ?_, ?_⟩
        · rw [h1]; simp [Event.isDescribe]
        · rw [h2]; simp [Event.isWriteConfigMap]
        · exact List.IsPrefix.trans (by simp) h3
        · rw [h4]; rfl
        · rw [h5]; rfl
        · rw [h6]; rfl
        · rw [h7]; rfl
        · intro o ho hn; exact absurd hn (h8 o ho)
    · obtain ⟨h1, h2, h3, h4, h5, h6, h7, h8⟩ := getNodesStep_frame d cfg (s.observeStop).2
      refine ⟨?_, ?_, ?_, ?_, ?_, ?_, ?_, ?_⟩
      · rw [h1]; rfl
      · rw [h2]; rfl
      · exact h3
      · rw [h4]; rfl
      · rw [h5]; rfl
      · rw [h6]; rfl
      · rw [h7]; rfl
      · intro o ho hn; exact absurd hn (h8 o ho)

/-! ## The two loops of `createWorkerNode` as a whole -/

/-- A role seen in a trace is seen in every longer trace. -/
theorem RoleSeen.mono {tr tr2 : List Event} {arn : String} (h : tr <+: tr2)
    (hr : RoleSeen tr arn) : RoleSeen tr2 arn := by
  obtain ⟨name, out, st, op, hm, h1, h2, h3, h4⟩ := hr
  exact ⟨name, out, st, op, h.subset hm, h1, h2, h3, h4⟩

/-- The stack-wait loop: what it leaves as it is, where the role ARN comes
from, and that it returns nil only when the stop channel is closed.  The
state `s0` is any earlier state of the run. -/
theorem stackWaitLoop_frame (d : Deps) (retryStart : Nat) (waitTime : Int) (s0 : Sys)
    (fuel : Nat) (v : Option String) (s : Sys)
    (h1 : s.trace.filter Event.isMembership = s0.trace.filter Event.isMembership)
    (h2 : s0.trace <+: s.trace)
    (h3 : s.cs.CFStackNodeGroupName = s0.cs.CFStackNodeGroupName)
    (h4 : s.cs.StatusWorkerNodeCreated = s0.cs.StatusWorkerNodeCreated)
    (h5 : (∀ i, s0.w.stopc i = false) → ∀ i, s.w.stopc i = false)
    (h6 : s.cs.CFStackNodeGroupWorkerNodeInstanceRoleARN =
        s0.cs.CFStackNodeGroupWorkerNodeInstanceRoleARN ∨
      RoleSeen s.trace s.cs.CFStackNodeGroupWorkerNodeInstanceRoleARN) :
    ((waitLoop (stackWaitBody d) retryStart waitTime fuel v s).2.2.trace.filter Event.isMembership =
        s0.trace.filter Event.isMembership ∧
      s0.trace <+: (waitLoop (stackWaitBody d) retryStart waitTime fuel v s).2.2.trace ∧
      (waitLoop (stackWaitBody d) retryStart waitTime fuel v s).2.2.cs.CFStackNodeGroupName =
        s0.cs.CFStackNodeGroupName ∧
      (waitLoop (stackWaitBody d) retryStart waitTime fuel v s).2.2.cs.StatusWorkerNodeCreated =
        s0.cs.StatusWorkerNodeCreated ∧
      ((∀ i, s0.w.stopc i = false) →
        ∀ i, (waitLoop (stackWaitBody d) retryStart waitTime fuel v s).2.2.w.stopc i = false) ∧
      ((waitLoop (stackWaitBody d) retryStart waitTime fuel v s).2.2.cs.CFStackNodeGroupWorkerNodeInstanceRoleARN =
          s0.cs.CFStackNodeGroupWorkerNodeInstanceRoleARN ∨
        RoleSeen (waitLoop (stackWaitBody d) retryStart waitTime fuel v s).2.2.trace
          (waitLoop (stackWaitBody d) retryStart waitTime fuel v s).2.2.cs.CFStackNodeGroupWorkerNodeInstanceRoleARN)) ∧
    ∀ o, (waitLoop (stackWaitBody d) retryStart waitTime fuel v s).1 = some o →
      (∀ i, s0.w.stopc i = false) → o ≠ Outcome.returned none := by
  refine waitLoop_inv (stackWaitBody d)
    (fun t => t.trace.filter Event.isMembership = s0.trace.filter Event.isMembership ∧
      s0.trace <+: t.trace ∧
      t.cs.CFStackNodeGroupName = s0.cs.CFStackNodeGroupName ∧
      t.cs.StatusWorkerNodeCreated = s0.cs.StatusWorkerNodeCreated ∧
      ((∀ i, s0.w.stopc i = false) → ∀ i, t.w.stopc i = false) ∧
      (t.cs.CFStackNodeGroupWorkerNodeInstanceRoleARN =
          s0.cs.CFStackNodeGroupWorkerNodeInstanceRoleARN ∨
        RoleSeen t.trace t.cs.CFStackNodeGroupWorkerNodeInstanceRoleARN))
    (fun o => (∀ i, s0.w.stopc i = false) → o ≠ Outcome.returned none)
    (by intro _ h; cases h) (fun t ht => ht) ?_ retryStart waitTime fuel v s
    ⟨h1, h2, h3, h4, h5, h6⟩
  intro v t ⟨p1, p2, p3, p4, p5, p6⟩
  obtain ⟨f1, f2, f3, f4, f5, f6⟩ := stackWaitBody_frame d v t
  refine ⟨⟨by rw [f1, p1], p2.trans f2, by rw [f3, p3], by rw [f4, p4], ?_, ?_⟩, ?_⟩
  · intro h i
    rw [f5]
    exact p5 h (i + 1)
  · rcases stackWaitBody_role d v t with h | h
    · rcases p6 with q | q
      · left; rw [h, q]
      · right; rw [h]; exact q.mono f2
    · right; exact h
  · intro o ho hstop hn
    have := f6 o ho hn
    rw [p5 hstop 0] at this
    cases this

/-- The membership loop: what it leaves as it is, and that it returns nil only
when the stop channel is closed.  The state `s0` is any earlier state of the
run. -/
theorem nodeReadyLoop_frame (d : Deps) (cfg : Config) (cmPath : String) (retryStart : Nat)
    (waitTime : Int) (s0 : Sys) (fuel : Nat) (applied : Bool) (s : Sys)
    (h1 : s.trace.filter Event.isDescribe = s0.trace.filter Event.isDescribe)
    (h2 : s.trace.filter Event.isWriteConfigMap = s0.trace.filter Event.isWriteConfigMap)
    (h3 : s0.trace <+: s.trace)
    (h4 : s.cs.CFStackNodeGroupWorkerNodeInstanceRoleARN =
      s0.cs.CFStackNodeGroupWorkerNodeInstanceRoleARN)
    (h5 : s.cs.CFStackNodeGroupStatus = s0.cs.CFStackNodeGroupStatus)
    (h6 : s.cs.StatusWorkerNodeCreated = s0.cs.StatusWorkerNodeCreated)
    (h7 : (∀ i, s0.w.stopc i = false) → ∀ i, s.w.stopc i = false) :
    ((waitLoop (nodeReadyBody d cfg cmPath) retryStart waitTime fuel applied s).2.2.trace.filter
          Event.isDescribe = s0.trace.filter Event.isDescribe ∧
      (waitLoop (nodeReadyBody d cfg cmPath) retryStart waitTime fuel applied s).2.2.trace.filter
          Event.isWriteConfigMap = s0.trace.filter Event.isWriteConfigMap ∧
      s0.trace <+: (waitLoop (nodeReadyBody d cfg cmPath) retryStart waitTime fuel applied s).2.2.trace ∧
      (waitLoop (nodeReadyBody d cfg cmPath) retryStart waitTime fuel applied s).2.2.cs.CFStackNodeGroupWorkerNodeInstanceRoleARN =
        s0.cs.CFStackNodeGroupWorkerNodeInstanceRoleARN ∧
      (waitLoop (nodeReadyBody d cfg cmPath) retryStart waitTime fuel applied s).2.2.cs.CFStackNodeGroupStatus =
        s0.cs.CFStackNodeGroupStatus ∧
      (waitLoop (nodeReadyBody d cfg cmPath) retryStart waitTime fuel applied s).2.2.cs.StatusWorkerNodeCreated =
        s0.cs.StatusWorkerNodeCreated ∧
      ((∀ i, s0.w.stopc i = false) →
        ∀ i, (waitLoop (nodeReadyBody d cfg cmPath) retryStart waitTime fuel applied s).2.2.w.stopc i =
          false)) ∧
    ∀ o, (waitLoop (nodeReadyBody d cfg cmPath) retryStart waitTime fuel applied s).1 = some o →
      (∀ i, s0.w.stopc i = false) → o ≠ Outcome.returned none := by
  refine waitLoop_inv (nodeReadyBody d cfg cmPath)
    (fun t => t.trace.filter Event.isDescribe = s0.trace.filter Event.isDescribe ∧
      t.trace.filter Event.isWriteConfigMap = s0.trace.filter Event.isWriteConfigMap ∧
      s0.trace <+: t.trace ∧
      t.cs.CFStackNodeGroupWorkerNodeInstanceRoleARN =
        s0.cs.CFStackNodeGroupWorkerNodeInstanceRoleARN ∧
      t.cs.CFStackNodeGroupStatus = s0.cs.CFStackNodeGroupStatus ∧
      t.cs.StatusWorkerNodeCreated = s0.cs.StatusWorkerNodeCreated ∧
      ((∀ i, s0.w.stopc i = false) → ∀ i, t.w.stopc i = false))
    (fun o => (∀ i, s0.w.stopc i = false) → o ≠ Outcome.returned none)
    (by intro _ h; cases h) (fun t ht => ht) ?_ retryStart waitTime fuel applied s
    ⟨h1, h2, h3, h4, h5, h6, h7⟩
  intro a t ⟨p1, p2, p3, p4, p5, p6, p7⟩
  obtain ⟨f1, f2, f3, f4, f5, f6, f7, f8⟩ := nodeReadyBody_frame d cfg cmPath a t
  refine ⟨⟨by rw [f1, p1], by rw [f2, p2], p3.trans f3, by rw [f4, p4], by rw [f5, p5],
    by rw [f6, p6], ?_⟩, ?_⟩
  · intro h i
    rw [f7]
    exact p7 h (i + 1)
  · intro o ho hstop hn
    have := f8 o ho hn
    rw [p7 hstop 0] at this
    cases this

/-! ## The membership phase as a whole -/

/-- The membership phase makes no `DescribeStacks` call, does not write the
document, only adds to the trace, keeps the role ARN, the stack status and the
created flag, and returns nil only with the status `READY` or when the stop
channel is closed. -/
theorem verifyMembership_frame (d : Deps) (cfg : Config) (waitTime : Int) (cmPath : String)
    (s : Sys) :
    (verifyMembership d cfg waitTime cmPath s).2.trace.filter Event.isDescribe =
      s.trace.filter Event.isDescribe ∧
    (verifyMembership d cfg waitTime cmPath s).2.trace.filter Event.isWriteConfigMap =
      s.trace.filter Event.isWriteConfigMap ∧
    s.trace <+: (verifyMembership d cfg waitTime cmPath s).2.trace ∧
    (verifyMembership d cfg waitTime cmPath s).2.cs.CFStackNodeGroupWorkerNodeInstanceRoleARN =
      s.cs.CFStackNodeGroupWorkerNodeInstanceRoleARN ∧
    (verifyMembership d cfg waitTime cmPath s).2.cs.CFStackNodeGroupStatus =
      s.cs.CFStackNodeGroupStatus ∧
    (verifyMembership d cfg waitTime cmPath s).2.cs.StatusWorkerNodeCreated =
      s.cs.StatusWorkerNodeCreated := by
  obtain ⟨⟨f1, f2, f3, f4, f5, f6, _⟩, _⟩ :=
    nodeReadyLoop_frame d cfg cmPath s.readClock.1 waitTime s (loopFuel waitTime) false
      s.readClock.2 rfl rfl (List.prefix_refl _) rfl rfl rfl (fun h => h)
  unfold verifyMembership
  rcases hr : waitLoop (nodeReadyBody d cfg cmPath) s.readClock.1 waitTime (loopFuel waitTime)
    false s.readClock.2 with ⟨o, a, t⟩
  rw [hr] at f1 f2 f3 f4 f5 f6
  simp only at f1 f2 f3 f4 f5 f6
  cases o with
  | some o => exact ⟨f1, f2, f3, f4, f5, f6⟩
  | none =>
    unfold finishMembership
    simp only []
    split
    · exact ⟨f1, f2, f3, f4, f5, f6⟩
    · refine ⟨?_, ?_, ?_, f4, f5, f6⟩
      · simp [Event.isDescribe, f1]
      · simp [Event.isWriteConfigMap, f2]
      · exact f3.trans (by simp)

/-- The membership phase returns nil only when the stop channel is closed or
after a `Sync`. -/
theorem verifyMembership_nil (d : Deps) (cfg : Config) (waitTime : Int) (cmPath : String)
    (s : Sys) (hstop : ∀ i, s.w.stopc i = false)
    (hnil : (verifyMembership d cfg waitTime cmPath s).1 = Outcome.returned none) :
    (verifyMembership d cfg waitTime cmPath s).2.cs.EC2NodeGroupStatus = "READY" := by
  obtain ⟨_, g⟩ :=
    nodeReadyLoop_frame d cfg cmPath s.readClock.1 waitTime s (loopFuel waitTime) false
      s.readClock.2 rfl rfl (List.prefix_refl _) rfl rfl rfl (fun h => h)
  unfold verifyMembership at hnil ⊢
  rcases hr : waitLoop (nodeReadyBody d cfg cmPath) s.readClock.1 waitTime (loopFuel waitTime)
    false s.readClock.2 with ⟨o, a, t⟩
  rw [hr] at hnil g
  cases o with
  | some o =>
    simp only [finishMembership] at hnil
    exact absurd hnil (g o rfl hstop)
  | none =>
    unfold finishMembership at hnil ⊢
    simp only [] at hnil ⊢
    split
    · rename_i h
      rw [if_pos h] at hnil
      simp at hnil
    · rename_i h
      simpa using h

/-! ## What follows the stack-wait loop -/

section more_fields
variable (s : Sys)

@[simp] theorem writeConfigMapNodeAuth_cs (a : String) : (s.writeConfigMapNodeAuth a).2.cs = s.cs := rfl
@[simp] theorem writeConfigMapNodeAuth_trace (a : String) :
    (s.writeConfigMapNodeAuth a).2.trace =
      s.trace ++ [Event.writeConfigMapNodeAuth a (s.w.writeConfigMapNodeAuth 0)] := rfl
@[simp] theorem writeConfigMapNodeAuth_stopc (a : String) :
    (s.writeConfigMapNodeAuth a).2.w.stopc = s.w.stopc := rfl
@[simp] theorem writeConfigMapNodeAuth_reply (a : String) :
    (s.writeConfigMapNodeAuth a).1 = s.w.writeConfigMapNodeAuth 0 := rfl
@[simp] theorem removeAll_cs (p : String) : (s.removeAll p).cs = s.cs := rfl
@[simp] theorem removeAll_trace (p : String) :
    (s.removeAll p).trace = s.trace ++ [Event.removeAll p] := rfl
@[simp] theorem createStack_cs (i : CreateStackInput) : (s.createStack i).2.cs = s.cs := rfl
@[simp] theorem createStack_trace (i : CreateStackInput) :
    (s.createStack i).2.trace = s.trace ++ [Event.createStack i (s.w.createStack 0)] := rfl
@[simp] theorem createStack_stopc (i : CreateStackInput) :
    (s.createStack i).2.w.stopc = s.w.stopc := rfl
@[simp] theorem createStack_reply (i : CreateStackInput) :
    (s.createStack i).1 = s.w.createStack 0 := rfl
@[simp] theorem setCreated_created (v : Bool) : (s.setCreated v).cs.StatusWorkerNodeCreated = v := rfl
@[simp] theorem setCreated_arn (v : Bool) : (s.setCreated v).cs.CFStackNodeGroupWorkerNodeInstanceRoleARN =
    s.cs.CFStackNodeGroupWorkerNodeInstanceRoleARN := rfl
@[simp] theorem setCreated_name (v : Bool) :
    (s.setCreated v).cs.CFStackNodeGroupName = s.cs.CFStackNodeGroupName := rfl
@[simp] theorem selectStopOrAfter_fst (n : Nat) : (s.selectStopOrAfter n).1 = s.w.stopc 0 := by
  unfold Sys.selectStopOrAfter; split <;> simp_all
@[simp] theorem selectStopOrAfter_cs (n : Nat) : (s.selectStopOrAfter n).2.cs = s.cs := by
  unfold Sys.selectStopOrAfter; split <;> rfl
@[simp] theorem selectStopOrAfter_stopc (n : Nat) :
    (s.selectStopOrAfter n).2.w.stopc = tl s.w.stopc := by
  unfold Sys.selectStopOrAfter; split <;> rfl
theorem selectStopOrAfter_trace (n : Nat) :
    (s.selectStopOrAfter n).2.trace =
      if s.w.stopc 0 then s.trace else s.trace ++ [Event.after n] := by
  unfold Sys.selectStopOrAfter; split <;> rfl

end more_fields

/-- What follows the stack-wait loop: no `DescribeStacks` call, the role ARN,
the stack status and the created flag are kept; the document is written at
most once, for the role ARN held, and only when that is not empty; nil is
returned only when the role ARN is not empty. -/
theorem afterStackWait_frame (d : Deps) (cfg : Config) (waitTime : Int) (s : Sys) :
    (afterStackWait d cfg waitTime s).2.trace.filter Event.isDescribe =
      s.trace.filter Event.isDescribe ∧
    s.trace <+: (afterStackWait d cfg waitTime s).2.trace ∧
    (afterStackWait d cfg waitTime s).2.cs.CFStackNodeGroupWorkerNodeInstanceRoleARN =
      s.cs.CFStackNodeGroupWorkerNodeInstanceRoleARN ∧
    (afterStackWait d cfg waitTime s).2.cs.CFStackNodeGroupStatus = s.cs.CFStackNodeGroupStatus ∧
    (afterStackWait d cfg waitTime s).2.cs.StatusWorkerNodeCreated = s.cs.StatusWorkerNodeCreated ∧
    ((afterStackWait d cfg waitTime s).2.trace = s.trace ∨
      (s.cs.CFStackNodeGroupWorkerNodeInstanceRoleARN ≠ "" ∧
        (afterStackWait d cfg waitTime s).2.trace.filter Event.isWriteConfigMap =
          s.trace.filter Event.isWriteConfigMap ++
            [Event.writeConfigMapNodeAuth s.cs.CFStackNodeGroupWorkerNodeInstanceRoleARN
              (s.w.writeConfigMapNodeAuth 0)])) ∧
    ((afterStackWait d cfg waitTime s).1 = Outcome.returned none →
      s.cs.CFStackNodeGroupWorkerNodeInstanceRoleARN ≠ "") := by
  unfold afterStackWait
  simp only []
  split
  · simp
  · rename_i hne
    split
    · simp [Event.isDescribe, Event.isWriteConfigMap, hne]
    · rename_i cmPath hreply
      obtain ⟨f1, f2, f3, f4, f5, f6⟩ := verifyMembership_frame d cfg waitTime cmPath
        (s.writeConfigMapNodeAuth s.cs.CFStackNodeGroupWorkerNodeInstanceRoleARN).2
      refine ⟨?_, ?_, ?_, ?_, ?_, ?_, fun _ => hne⟩
      · simp [Event.isDescribe, f1]
      · simp only [removeAll_trace]
        exact (List.IsPrefix.trans (by simp) f3).trans (by simp)
      · simp [f4]
      · simp [f5]
      · simp [f6]
      · right
        refine ⟨hne, ?_⟩
        simp [Event.isWriteConfigMap, f2]

/-! ## `createWorkerNode` as a whole -/

/-- What follows an accepted `CreateStack`: the trace only grows, the created
flag is set, the role ARN is the one held before or one seen in a describe
response, nil is returned only with a role ARN or when the stop channel is
closed, and the membership phase is entered only with a role ARN, for which
the document is written. -/
theorem afterCreateStack_frame (d : Deps) (cfg : Config) (s : Sys) :
    s.trace <+: (afterCreateStack d cfg s).2.trace ∧
    (afterCreateStack d cfg s).2.cs.StatusWorkerNodeCreated = true ∧
    ((afterCreateStack d cfg s).2.cs.CFStackNodeGroupWorkerNodeInstanceRoleARN =
        s.cs.CFStackNodeGroupWorkerNodeInstanceRoleARN ∨
      RoleSeen (afterCreateStack d cfg s).2.trace
        (afterCreateStack d cfg s).2.cs.CFStackNodeGroupWorkerNodeInstanceRoleARN) ∧
    ((∀ i, s.w.stopc i = false) → (afterCreateStack d cfg s).1 = Outcome.returned none →
      (afterCreateStack d cfg s).2.cs.CFStackNodeGroupWorkerNodeInstanceRoleARN ≠ "") ∧
    ((afterCreateStack d cfg s).2.trace.filter Event.isMembership =
        s.trace.filter Event.isMembership ∨
      ((afterCreateStack d cfg s).2.cs.CFStackNodeGroupWorkerNodeInstanceRoleARN ≠ "" ∧
        ∃ reply, Event.writeConfigMapNodeAuth
          (afterCreateStack d cfg s).2.cs.CFStackNodeGroupWorkerNodeInstanceRoleARN reply ∈
            (afterCreateStack d cfg s).2.trace)) := by
  unfold afterCreateStack
  simp only [selectStopOrAfter_fst, sync_stopc, setCreated_w]
  by_cases hs : s.w.stopc 0 = true
  · simp only [hs, if_true]
    refine ⟨?_, ?_, Or.inl ?_, ?_, Or.inl ?_⟩
    · rw [selectStopOrAfter_trace]; simp [hs]
    · simp
    · simp
    · intro h; rw [h 0] at hs; cases hs
    · rw [selectStopOrAfter_trace]; simp [hs, Event.isMembership]
  · simp only [hs, Bool.false_eq_true, if_false]
    have htr : ((((s.setCreated true).sync).2).selectStopOrAfter (2 * Minute)).2.trace =
        s.trace ++ [Event.sync (s.setCreated true).cs (s.w.sync 0), Event.after (2 * Minute)] := by
      rw [selectStopOrAfter_trace]; simp [hs]
    obtain ⟨⟨f1, f2, _, f4, f5, f6⟩, g⟩ := stackWaitLoop_frame d
      ((((s.setCreated true).sync).2).selectStopOrAfter (2 * Minute)).2.readClock.1
      (waitTimeOf cfg.WorkderNodeASGMax) ((s.setCreated true).sync).2
      (loopFuel (waitTimeOf cfg.WorkderNodeASGMax)) none
      ((((s.setCreated true).sync).2).selectStopOrAfter (2 * Minute)).2.readClock.2
      (by rw [readClock_trace, htr]; simp [Event.isMembership])
      (by rw [readClock_trace, htr]; simp)
      (by simp) (by simp)
      (by intro h i; simp only [readClock_stopc, selectStopOrAfter_stopc, sync_stopc,
            setCreated_w, tl_apply]; exact h (i + 1))
      (Or.inl (by simp))
    rcases hr : waitLoop (stackWaitBody d)
      ((((s.setCreated true).sync).2).selectStopOrAfter (2 * Minute)).2.readClock.1
      (waitTimeOf cfg.WorkderNodeASGMax) (loopFuel (waitTimeOf cfg.WorkderNodeASGMax)) none
      ((((s.setCreated true).sync).2).selectStopOrAfter (2 * Minute)).2.readClock.2 with ⟨o, e, t⟩
    rw [hr] at f1 f2 f4 f5 f6 g
    simp only [sync_trace, sync_cs, setCreated_trace, setCreated_created, setCreated_arn,
      sync_stopc, setCreated_w] at f1 f2 f4 f5 f6 g
    have hpre : s.trace <+: t.trace := List.IsPrefix.trans (by simp) f2
    have hmem : t.trace.filter Event.isMembership = s.trace.filter Event.isMembership := by
      rw [f1]; simp [Event.isMembership]
    cases o with
    | some o =>
      simp only [finishStackWait]
      exact ⟨hpre, f4, f6, fun h hn => absurd hn (g o rfl h), Or.inl hmem⟩
    | none =>
      cases e with
      | some e =>
        simp only [finishStackWait]
        exact ⟨hpre, f4, f6, fun _ hn => by simp at hn, Or.inl hmem⟩
      | none =>
        simp only [finishStackWait]
        obtain ⟨_, a2, a3, _, a5, a6, a7⟩ :=
          afterStackWait_frame d cfg (waitTimeOf cfg.WorkderNodeASGMax) t
        refine ⟨hpre.trans a2, by rw [a5, f4], ?_, ?_, ?_⟩
        · rcases f6 with q | q
          · left; rw [a3, q]
          · right; rw [a3]; exact q.mono a2
        · intro _ hn
          rw [a3]; exact a7 hn
        · rcases a6 with q | ⟨q1, q2⟩
          · left; rw [q, hmem]
          · right
            rw [a3]
            refine ⟨q1, t.w.writeConfigMapNodeAuth 0, ?_⟩
            have : Event.writeConfigMapNodeAuth t.cs.CFStackNodeGroupWorkerNodeInstanceRoleARN
                (t.w.writeConfigMapNodeAuth 0) ∈
                (afterStackWait d cfg (waitTimeOf cfg.WorkderNodeASGMax) t).2.trace.filter
                  Event.isWriteConfigMap := by
              rw [q2]; simp
            exact (List.mem_filter.1 this).1

/-! ## The claims on `createWorkerNode` that hold of every run -/

/-- The three ways in which `createWorkerNode` goes on: it returns an error
before any call, `CreateStack` is rejected, or `CreateStack` is accepted. -/
theorem createWorkerNode_cases (d : Deps) (cfg : Config) (s : Sys) :
    (∃ e, createWorkerNode d cfg s = (Outcome.returned (some e), s)) ∨
    (∃ input e, s.w.createStack 0 = some e ∧
      createWorkerNode d cfg s =
        (Outcome.returned (some (GoError.external e)), (s.createStack input).2)) ∨
    (∃ input, s.w.createStack 0 = none ∧ s.cs.CFStackNodeGroupKeyPairName ≠ "" ∧
      s.cs.CFStackNodeGroupName ≠ "" ∧
      createWorkerNode d cfg s = afterCreateStack d cfg (s.createStack input).2) := by
  unfold createWorkerNode
  simp only []
  split
  · exact Or.inl ⟨_, rfl⟩
  · split
    · exact Or.inl ⟨_, rfl⟩
    · split
      · exact Or.inl ⟨_, rfl⟩
      · split
        · rename_i e he
          exact Or.inr (Or.inl ⟨_, e, he, rfl⟩)
        · rename_i hk hn _ _ _ _ hc
          exact Or.inr (Or.inr ⟨_, hc, hk, hn, rfl⟩)

/-- C1, as stated, fails: with the stop channel closed `createWorkerNode`
returns nil while the role ARN is empty, and with a role ARN left by an earlier
run it returns nil with that ARN although the only describe response of the
call has no output. -/
theorem createWorkerNode_nil_without_captured_role :
    (testState.CFStackNodeGroupKeyPairName ≠ "" ∧ testState.CFStackNodeGroupName ≠ "" ∧
      (createWorkerNode testDeps (testConfig 3) ⟨testState, stoppedWorld, []⟩).1 =
        Outcome.returned none ∧
      (createWorkerNode testDeps (testConfig 3)
        ⟨testState, stoppedWorld, []⟩).2.cs.CFStackNodeGroupWorkerNodeInstanceRoleARN = "") ∧
    ((createWorkerNode testDeps (testConfig 3) ⟨staleState, noOutputWorld, []⟩).1 =
        Outcome.returned none ∧
      (createWorkerNode testDeps (testConfig 3)
        ⟨staleState, noOutputWorld, []⟩).2.cs.CFStackNodeGroupWorkerNodeInstanceRoleARN = "arn:old" ∧
      (createWorkerNode testDeps (testConfig 3)
        ⟨staleState, noOutputWorld, []⟩).2.trace.filter Event.isDescribe =
          [Event.describeStacks "ng" (describeOk "CREATE_COMPLETE" [])]) := by
  decide

/-- C1, amended: when no observation of the stop channel finds it closed and
`createWorkerNode` returns nil, the role ARN of the cluster state is not empty,
and it is the value held on entry or the value of a `NodeInstanceRole` output
of a describe response received during the call. -/
theorem createWorkerNode_nil_has_role (d : Deps) (cfg : Config) (w : World) (cs : ClusterState)
    (hstop : ∀ i, w.stopc i = false)
    (hnil : (createWorkerNode d cfg ⟨cs, w, []⟩).1 = Outcome.returned none) :
    (createWorkerNode d cfg ⟨cs, w, []⟩).2.cs.CFStackNodeGroupWorkerNodeInstanceRoleARN ≠ "" ∧
    ((createWorkerNode d cfg ⟨cs, w, []⟩).2.cs.CFStackNodeGroupWorkerNodeInstanceRoleARN =
        cs.CFStackNodeGroupWorkerNodeInstanceRoleARN ∨
      RoleSeen (createWorkerNode d cfg ⟨cs, w, []⟩).2.trace
        (createWorkerNode d cfg ⟨cs, w, []⟩).2.cs.CFStackNodeGroupWorkerNodeInstanceRoleARN) := by
  rcases createWorkerNode_cases d cfg ⟨cs, w, []⟩ with ⟨e, h⟩ | ⟨input, e, _, h⟩ | ⟨input, _, _, _, h⟩
  · rw [h] at hnil; simp at hnil
  · rw [h] at hnil; simp at hnil
  · rw [h] at hnil ⊢
    obtain ⟨_, _, a3, a4, _⟩ := afterCreateStack_frame d cfg ((Sys.mk cs w []).createStack input).2
    exact ⟨a4 hstop hnil, a3⟩

/-- C1, amended, at a concrete run: every call succeeds at once and the stack
reports the role `r1`. -/
theorem createWorkerNode_nil_has_role_witness :
    (createWorkerNode testDeps (testConfig 3)
        ⟨testState, calmWorld, []⟩).2.cs.CFStackNodeGroupWorkerNodeInstanceRoleARN ≠ "" ∧
    ((createWorkerNode testDeps (testConfig 3)
          ⟨testState, calmWorld, []⟩).2.cs.CFStackNodeGroupWorkerNodeInstanceRoleARN =
        testState.CFStackNodeGroupWorkerNodeInstanceRoleARN ∨
      RoleSeen (createWorkerNode testDeps (testConfig 3) ⟨testState, calmWorld, []⟩).2.trace
        (createWorkerNode testDeps (testConfig 3)
          ⟨testState, calmWorld, []⟩).2.cs.CFStackNodeGroupWorkerNodeInstanceRoleARN) :=
  createWorkerNode_nil_has_role testDeps (testConfig 3) calmWorld testState (fun _ => rfl)
    (by decide)

/-- C8: with an empty key-pair name or an empty stack name `createWorkerNode`
returns an error without any call (no `CreateStack`, `DescribeStacks`,
`kubectl` or `Sync`) and leaves the cluster state as it is; and in every run
the created flag either keeps its value or is true after a run whose first call
is a `CreateStack` that returned no error. -/
theorem createWorkerNode_validation (d : Deps) (cfg : Config) (w : World) (cs : ClusterState) :
    ((cs.CFStackNodeGroupKeyPairName = "" ∨ cs.CFStackNodeGroupName = "") →
      (∃ e, (createWorkerNode d cfg ⟨cs, w, []⟩).1 = Outcome.returned (some e)) ∧
      (createWorkerNode d cfg ⟨cs, w, []⟩).2.trace = [] ∧
      (createWorkerNode d cfg ⟨cs, w, []⟩).2.cs = cs) ∧
    ((createWorkerNode d cfg ⟨cs, w, []⟩).2.cs.StatusWorkerNodeCreated = cs.StatusWorkerNodeCreated ∨
      ((createWorkerNode d cfg ⟨cs, w, []⟩).2.cs.StatusWorkerNodeCreated = true ∧
        ∃ input rest, (createWorkerNode d cfg ⟨cs, w, []⟩).2.trace =
          Event.createStack input none :: rest)) := by
  constructor
  · intro h
    unfold createWorkerNode
    simp only []
    by_cases hk : cs.CFStackNodeGroupKeyPairName = ""
    · simp [hk]
    · have hn : cs.CFStackNodeGroupName = "" := h.resolve_left hk
      simp [hk, hn]
  · rcases createWorkerNode_cases d cfg ⟨cs, w, []⟩ with ⟨e, h⟩ | ⟨input, e, _, h⟩ | ⟨input, hc, _, _, h⟩
    · left; rw [h]
    · left; rw [h]; rfl
    · right
      rw [h]
      obtain ⟨a1, a2, _⟩ := afterCreateStack_frame d cfg ((Sys.mk cs w []).createStack input).2
      refine ⟨a2, input, ?_⟩
      obtain ⟨t, ht⟩ := a1
      refine ⟨t, ?_⟩
      rw [← ht]
      simp only [createStack_trace, List.nil_append, List.singleton_append]
      simp only [] at hc
      rw [hc]

/-- C8 at a concrete run: the key-pair name is empty. -/
theorem createWorkerNode_validation_witness :
    (∃ e, (createWorkerNode testDeps (testConfig 3) ⟨noKeyState, calmWorld, []⟩).1 =
      Outcome.returned (some e)) ∧
    (createWorkerNode testDeps (testConfig 3) ⟨noKeyState, calmWorld, []⟩).2.trace = [] ∧
    (createWorkerNode testDeps (testConfig 3) ⟨noKeyState, calmWorld, []⟩).2.cs = noKeyState :=
  (createWorkerNode_validation testDeps (testConfig 3) calmWorld noKeyState).1 (Or.inl rfl)

/-- C10: the code does not do what the claim says.  The wait budget is
eleven minutes and 400 seconds pass before every reading of the clock, so the
only describe response of each run is received before the budget ends and the
loop of line 121 is left by its guard after it, with `err` nil.  No response
reports `CREATE_COMPLETE`.  In the first run the response has no output and
the cluster state holds a role ARN from an earlier run; in the second run the
cluster state holds none and the response, in progress, has the role among
its outputs.  In both runs nothing after the loop looks at the status: the
document is written, `kubectl` is run and the method returns nil with the stack
status `CREATE_IN_PROGRESS`. -/
theorem createWorkerNode_membership_without_complete :
    ((createWorkerNode testDeps (testConfig 3) ⟨staleState, slowWorld, []⟩).1 =
        Outcome.returned none ∧
      (createWorkerNode testDeps (testConfig 3)
          ⟨staleState, slowWorld, []⟩).2.cs.CFStackNodeGroupStatus = "CREATE_IN_PROGRESS" ∧
      (createWorkerNode testDeps (testConfig 3) ⟨staleState, slowWorld, []⟩).2.trace.filter
          Event.isDescribe = [Event.describeStacks "ng" (describeOk "CREATE_IN_PROGRESS" [])] ∧
      (createWorkerNode testDeps (testConfig 3) ⟨staleState, slowWorld, []⟩).2.trace.filter
          Event.isMembership =
        [Event.writeConfigMapNodeAuth "arn:old" (Reply.ok "/tmp/cm"),
         Event.kubectlApply (applyArgs (testConfig 3) "/tmp/cm") "configmap/aws-auth created" none,
         Event.kubectlGetNodes (getNodesArgs (testConfig 3)) "RRR" none]) ∧
    ((createWorkerNode testDeps (testConfig 3) ⟨testState, slowRoleWorld, []⟩).1 =
        Outcome.returned none ∧
      (createWorkerNode testDeps (testConfig 3)
          ⟨testState, slowRoleWorld, []⟩).2.cs.CFStackNodeGroupStatus = "CREATE_IN_PROGRESS" ∧
      (createWorkerNode testDeps (testConfig 3) ⟨testState, slowRoleWorld, []⟩).2.trace.filter
          Event.isDescribe =
        [Event.describeStacks "ng" (describeOk "CREATE_IN_PROGRESS" [("NodeInstanceRole", "r1")])] ∧
      (createWorkerNode testDeps (testConfig 3) ⟨testState, slowRoleWorld, []⟩).2.trace.filter
          Event.isMembership =
        [Event.writeConfigMapNodeAuth "r1" (Reply.ok "/tmp/cm"),
         Event.kubectlApply (applyArgs (testConfig 3) "/tmp/cm") "configmap/aws-auth created" none,
         Event.kubectlGetNodes (getNodesArgs (testConfig 3)) "RRR" none]) := by
  decide

/-- The role is stored from every describe response, before the status is
looked at (lines 152-157 come before line 159): here the role is an output of
the response that is in progress, the response that reports `CREATE_COMPLETE`
has no output, and the document is written for the role stored before. -/
theorem createWorkerNode_role_of_earlier_response :
    (createWorkerNode testDeps (testConfig 3) ⟨testState, earlyRoleWorld, []⟩).2.trace.filter
        (fun e => e.isDescribe || e.isWriteConfigMap) =
      [Event.describeStacks "ng" (describeOk "CREATE_IN_PROGRESS" [("NodeInstanceRole", "r1")]),
       Event.describeStacks "ng" (describeOk "CREATE_COMPLETE" []),
       Event.writeConfigMapNodeAuth "r1" (Reply.ok "/tmp/cm")] := by
  decide

/-- The only test between the stack-wait loop and the membership phase is the
one of line 179.  In every run, when a call of the membership phase is made
(the identity-mapping document is written or `kubectl` is run), the role ARN is
not empty, the document has been written for it, and it is the value held on
entry or the value of a `NodeInstanceRole` output of a describe response
received during the call.  In particular, when no role ARN is held on entry
and no describe response of the run has such an output, no call of the
membership phase is made. -/
theorem createWorkerNode_membership_has_role (d : Deps) (cfg : Config) (w : World)
    (cs : ClusterState) :
    (∀ e ∈ (createWorkerNode d cfg ⟨cs, w, []⟩).2.trace, e.isMembership = true →
      (createWorkerNode d cfg ⟨cs, w, []⟩).2.cs.CFStackNodeGroupWorkerNodeInstanceRoleARN ≠ "" ∧
      (∃ reply, Event.writeConfigMapNodeAuth
        (createWorkerNode d cfg ⟨cs, w, []⟩).2.cs.CFStackNodeGroupWorkerNodeInstanceRoleARN reply ∈
          (createWorkerNode d cfg ⟨cs, w, []⟩).2.trace) ∧
      ((createWorkerNode d cfg ⟨cs, w, []⟩).2.cs.CFStackNodeGroupWorkerNodeInstanceRoleARN =
          cs.CFStackNodeGroupWorkerNodeInstanceRoleARN ∨
        RoleSeen (createWorkerNode d cfg ⟨cs, w, []⟩).2.trace
          (createWorkerNode d cfg ⟨cs, w, []⟩).2.cs.CFStackNodeGroupWorkerNodeInstanceRoleARN)) ∧
    (cs.CFStackNodeGroupWorkerNodeInstanceRoleARN = "" →
      (∀ arn, ¬ RoleSeen (createWorkerNode d cfg ⟨cs, w, []⟩).2.trace arn) →
      ∀ e ∈ (createWorkerNode d cfg ⟨cs, w, []⟩).2.trace, e.isMembership = false) := by
  have main : ∀ e ∈ (createWorkerNode d cfg ⟨cs, w, []⟩).2.trace, e.isMembership = true →
      (createWorkerNode d cfg ⟨cs, w, []⟩).2.cs.CFStackNodeGroupWorkerNodeInstanceRoleARN ≠ "" ∧
      (∃ reply, Event.writeConfigMapNodeAuth
        (createWorkerNode d cfg ⟨cs, w, []⟩).2.cs.CFStackNodeGroupWorkerNodeInstanceRoleARN reply ∈
          (createWorkerNode d cfg ⟨cs, w, []⟩).2.trace) ∧
      ((createWorkerNode d cfg ⟨cs, w, []⟩).2.cs.CFStackNodeGroupWorkerNodeInstanceRoleARN =
          cs.CFStackNodeGroupWorkerNodeInstanceRoleARN ∨
        RoleSeen (createWorkerNode d cfg ⟨cs, w, []⟩).2.trace
          (createWorkerNode d cfg ⟨cs, w, []⟩).2.cs.CFStackNodeGroupWorkerNodeInstanceRoleARN) := by
    rcases createWorkerNode_cases d cfg ⟨cs, w, []⟩ with ⟨e, h⟩ | ⟨input, e, _, h⟩ | ⟨input, _, _, _, h⟩
    · rw [h]; intro e he; simp at he
    · rw [h]
      intro e he hm
      simp only [createStack_trace, List.nil_append, List.mem_singleton] at he
      rw [he] at hm
      simp [Event.isMembership] at hm
    · rw [h]
      obtain ⟨_, _, a3, _, a5⟩ := afterCreateStack_frame d cfg ((Sys.mk cs w []).createStack input).2
      intro e he hm
      rcases a5 with q | ⟨q1, q2⟩
      · exfalso
        have : e ∈ (afterCreateStack d cfg ((Sys.mk cs w []).createStack input).2).2.trace.filter
            Event.isMembership := List.mem_filter.2 ⟨he, hm⟩
        rw [q] at this
        simp [Event.isMembership] at this
      · exact ⟨q1, q2, a3⟩
  refine ⟨main, ?_⟩
  intro h0 hnone e he
  cases hm : e.isMembership with
  | false => rfl
  | true =>
    obtain ⟨m1, _, m3⟩ := main e he hm
    rcases m3 with q | q
    · rw [q] at m1; exact absurd h0 m1
    · exact absurd q (hnone _)

/-- The test of line 179 at a concrete run: every call succeeds at once, the
stack reports the role `r1`, and the `apply` command is run. -/
theorem createWorkerNode_membership_has_role_witness :
    (createWorkerNode testDeps (testConfig 3)
        ⟨testState, calmWorld, []⟩).2.cs.CFStackNodeGroupWorkerNodeInstanceRoleARN ≠ "" ∧
    (∃ reply, Event.writeConfigMapNodeAuth
      (createWorkerNode testDeps (testConfig 3)
        ⟨testState, calmWorld, []⟩).2.cs.CFStackNodeGroupWorkerNodeInstanceRoleARN reply ∈
        (createWorkerNode testDeps (testConfig 3) ⟨testState, calmWorld, []⟩).2.trace) ∧
    ((createWorkerNode testDeps (testConfig 3)
          ⟨testState, calmWorld, []⟩).2.cs.CFStackNodeGroupWorkerNodeInstanceRoleARN =
        testState.CFStackNodeGroupWorkerNodeInstanceRoleARN ∨
      RoleSeen (createWorkerNode testDeps (testConfig 3) ⟨testState, calmWorld, []⟩).2.trace
        (createWorkerNode testDeps (testConfig 3)
          ⟨testState, calmWorld, []⟩).2.cs.CFStackNodeGroupWorkerNodeInstanceRoleARN) :=
  (createWorkerNode_membership_has_role testDeps (testConfig 3) calmWorld testState).1
    (Event.kubectlApply (applyArgs (testConfig 3) "/tmp/cm") "configmap/aws-auth created" none)
    (by decide) rfl

/-! ## The claims on `deleteWorkerNode` that hold of every run -/

/-- C2: when the created flag is false, `deleteWorkerNode` returns nil, makes no
call (no `DeleteStack`, `DescribeStacks` or `Sync`: the trace is the one before)
and leaves the cluster state as it is. -/
theorem deleteWorkerNode_not_created (d : Deps) (cfg : Config) (s : Sys)
    (h : s.cs.StatusWorkerNodeCreated = false) :
    (deleteWorkerNode d cfg s).1 = Outcome.returned none ∧
    (deleteWorkerNode d cfg s).2.trace = s.trace ∧
    (deleteWorkerNode d cfg s).2.cs = s.cs := by
  simp [deleteWorkerNode, h]

/-- C2 at a concrete state: the worker nodes have not been created. -/
theorem deleteWorkerNode_not_created_witness :
    (deleteWorkerNode testDeps (testConfig 3) ⟨testState, calmWorld, []⟩).1 = Outcome.returned none ∧
    (deleteWorkerNode testDeps (testConfig 3) ⟨testState, calmWorld, []⟩).2.trace = [] ∧
    (deleteWorkerNode testDeps (testConfig 3) ⟨testState, calmWorld, []⟩).2.cs = testState :=
  deleteWorkerNode_not_created testDeps (testConfig 3) ⟨testState, calmWorld, []⟩ rfl

/-- C3: whatever the state and the world, and however `deleteWorkerNode` ends,
the created flag is false afterwards; hence a `deleteWorkerNode` that follows
at once returns nil, makes no call and changes nothing. -/
theorem deleteWorkerNode_idempotent (d : Deps) (cfg : Config) (s : Sys) :
    (deleteWorkerNode d cfg s).2.cs.StatusWorkerNodeCreated = false ∧
    deleteWorkerNode d cfg (deleteWorkerNode d cfg s).2 =
      (Outcome.returned none, (deleteWorkerNode d cfg s).2) := by
  have h : (deleteWorkerNode d cfg s).2.cs.StatusWorkerNodeCreated = false := by
    unfold deleteWorkerNode
    split
    · assumption
    · rfl
  refine ⟨h, ?_⟩
  generalize deleteWorkerNode d cfg s = r at h ⊢
  simp [deleteWorkerNode, h]

/-! ## Calls after which a loop ends -/

theorem EndsAt.prepend {T : Event → Prop} {Q : Prop} {tail evs : List Event} (pre : List Event)
    (hpre : ∀ x ∈ pre, ¬ T x) (h : EndsAt T Q tail evs) : EndsAt T Q tail (pre ++ evs) := by
  rcases h with h | ⟨p, e, h1, h2, h3, h4⟩
  · left
    intro x hx
    rcases List.mem_append.1 hx with q | q
    · exact hpre x q
    · exact h x q
  · right
    refine ⟨pre ++ p, e, by rw [h1, List.append_assoc], ?_, h3, h4⟩
    intro x hx
    rcases List.mem_append.1 hx with q | q
    · exact hpre x q
    · exact h2 x q

theorem EndsAt.imp {T : Event → Prop} {Q Q2 : Prop} {tail evs : List Event} (hq : Q → Q2)
    (h : EndsAt T Q tail evs) : EndsAt T Q2 tail evs := by
  rcases h with h | ⟨p, e, h1, h2, h3, h4⟩
  · exact Or.inl h
  · exact Or.inr ⟨p, e, h1, h2, h3, hq h4⟩

/-- A call that satisfies `T` is the one at which the calls end. -/
theorem EndsAt.elim {T : Event → Prop} {Q : Prop} {tail evs : List Event}
    (h : EndsAt T Q tail evs) {e : Event} (he : e ∈ evs) (hT : T e) :
    Q ∧ ∃ pre, evs = pre ++ e :: tail ∧ ∀ x ∈ pre, ¬ T x := by
  rcases h with h | ⟨p, e0, h1, h2, h3, h4⟩
  · exact absurd hT (h e he)
  · refine ⟨h4, p, ?_, h2⟩
    rw [h1] at he
    rcases List.mem_append.1 he with q | q
    · exact absurd hT (h2 e q)
    · rcases List.mem_cons.1 q with q | q
      · rw [q]; exact h1
      · exact absurd hT (h3 e q)

/-- Calls that add nothing of the kind `isK` contain no call satisfying `T`,
when every call satisfying `T` is of that kind. -/
theorem new_calls_free {T : Event → Prop} {isK : Event → Bool} (hT : ∀ x, T x → isK x = true)
    {tr tr2 : List Event} (hpre : tr <+: tr2) (hfil : tr2.filter isK = tr.filter isK) :
    ∃ t, tr2 = tr ++ t ∧ ∀ x ∈ t, ¬ T x := by
  obtain ⟨t, ht⟩ := hpre
  refine ⟨t, ht.symm, ?_⟩
  intro x hx hTx
  rw [← ht, List.filter_append] at hfil
  have : t.filter isK = [] := by
    have := congrArg List.length hfil
    simp only [List.length_append] at this
    exact List.length_eq_zero.1 (by omega)
  have hmem : x ∈ t.filter isK := List.mem_filter.2 ⟨hx, hT x hTx⟩
  rw [this] at hmem
  simp at hmem

/-- Calls that start with `ev` and add nothing else of the kind `isK` contain
no call satisfying `T` after `ev`. -/
theorem calls_after_free {T : Event → Prop} {isK : Event → Bool} (hT : ∀ x, T x → isK x = true)
    {tr tr2 : List Event} {ev : Event} (hk : isK ev = true) (hpre : tr ++ [ev] <+: tr2)
    (hfil : tr2.filter isK = tr.filter isK ++ [ev]) :
    ∃ t, tr2 = tr ++ ev :: t ∧ ∀ x ∈ t, ¬ T x := by
  have hfil2 : tr2.filter isK = (tr ++ [ev]).filter isK := by
    rw [hfil, List.filter_append]; simp [hk]
  obtain ⟨t, ht, hfree⟩ := new_calls_free hT hpre hfil2
  exact ⟨t, by rw [ht]; simp, hfree⟩

/-- When every iteration either makes no call satisfying `T` or returns at once
after such a call, with an outcome satisfying `Q`, the loop makes no call
satisfying `T` or ends at the first one with an outcome satisfying `Q`. -/
theorem waitLoop_terminal {σ : Type} (body : σ → Sys → Step σ × Sys) (P : Sys → Prop)
    (T : Event → Prop) (Q : Outcome → Prop)
    (hclock : ∀ s, P s → P s.readClock.2)
    (hbody : ∀ v s, P s → P (body v s).2 ∧ ∃ evs, (body v s).2.trace = s.trace ++ evs ∧
      EndsAt T (∃ o, (body v s).1 = Step.ret o ∧ Q o) [] evs)
    (retryStart : Nat) (waitTime : Int) :
    ∀ (fuel : Nat) (v : σ) (s : Sys), P s →
      ∃ evs, (waitLoop body retryStart waitTime fuel v s).2.2.trace = s.trace ++ evs ∧
        EndsAt T (∃ o, (waitLoop body retryStart waitTime fuel v s).1 = some o ∧ Q o) [] evs := by
  intro fuel
  induction fuel with
  | zero =>
    intro v s _
    exact ⟨[], by simp [waitLoop], Or.inl (by simp)⟩
  | succ fuel ih =>
    intro v s hs
    unfold waitLoop
    by_cases hg : ((s.readClock.1 : Int) - (retryStart : Int) < waitTime)
    · simp only [hg, if_true]
      obtain ⟨hP, evs, htr, hends⟩ := hbody v s.readClock.2 (hclock s hs)
      rcases hstep : body v s.readClock.2 with ⟨st, s2⟩
      rw [hstep] at hP htr hends
      simp only [readClock_trace] at htr
      cases st with
      | ret o =>
        refine ⟨evs, htr, hends.imp ?_⟩
        rintro ⟨o2, ho2, hq⟩
        simp only [Step.ret.injEq] at ho2
        exact ⟨o, rfl, ho2 ▸ hq⟩
      | brk v2 =>
        refine ⟨evs, htr, ?_⟩
        rcases hends with h | ⟨_, _, _, _, _, o2, ho2, _⟩
        · exact Or.inl h
        · cases ho2
      | cont v2 =>
        have hfree : ∀ x ∈ evs, ¬ T x := by
          rcases hends with h | ⟨_, _, _, _, _, o2, ho2, _⟩
          · exact h
          · cases ho2
        obtain ⟨evs2, htr2, hends2⟩ := ih v2 s2 hP
        refine ⟨evs ++ evs2, ?_, hends2.prepend evs hfree⟩
        simp only [] at htr htr2 ⊢
        rw [htr2, htr, List.append_assoc]
    · simp only [hg, if_false]
      exact ⟨[], by simp, Or.inl (by simp)⟩

/-! ## A describe response with a failed status ends `createWorkerNode` -/

theorem FailedResponse.isDescribe {failed : String → Bool} {status : String} {e : Event}
    (h : FailedResponse failed status e) : e.isDescribe = true := by
  obtain ⟨name, outs, he, _⟩ := h
  rw [he]; rfl

/-- The calls of one iteration of the stack-wait loop: none when the stop
channel is closed, otherwise one `DescribeStacks` first and no other one; and a
response holding one stack with a failed status ends the iteration and the
method at once. -/
theorem stackWaitBody_calls (d : Deps) (v : Option String) (s : Sys) :
    (s.w.stopc 0 = true → (stackWaitBody d v s).2.trace = s.trace) ∧
    (s.w.stopc 0 = false →
      (s.trace ++ [Event.describeStacks s.cs.CFStackNodeGroupName (s.w.describeStacks 0)] <+:
        (stackWaitBody d v s).2.trace) ∧
      (stackWaitBody d v s).2.trace.filter Event.isDescribe =
        s.trace.filter Event.isDescribe ++
          [Event.describeStacks s.cs.CFStackNodeGroupName (s.w.describeStacks 0)]) ∧
    (s.w.stopc 0 = false → ∀ status outs,
      s.w.describeStacks 0 =
        Reply.ok { Stacks := [some { StackStatus := some status, Outputs := outs }] } →
      d.isCFCreateFailed status = true →
      (stackWaitBody d v s).2.trace =
        s.trace ++ [Event.describeStacks s.cs.CFStackNodeGroupName (s.w.describeStacks 0)] ∧
      (stackWaitBody d v s).1 = Step.ret (Outcome.returned (some
        (GoError.failedToCreate s.cs.CFStackNodeGroupName status)))) := by
  unfold stackWaitBody
  simp only []
  repeat' split
  all_goals simp_all [Event.isDescribe]
  all_goals (intro status outs hout; subst hout; simp_all)
  all_goals (rename_i hst; subst hst; simp_all)

/-- One iteration of the stack-wait loop makes no call that receives a failed
status, or ends with that call and returns the error that carries the stack
name and the status. -/
theorem stackWaitBody_ends (d : Deps) (status : String) (v : Option String) (s : Sys) :
    ∃ evs, (stackWaitBody d v s).2.trace = s.trace ++ evs ∧
      EndsAt (FailedResponse d.isCFCreateFailed status)
        (∃ o, (stackWaitBody d v s).1 = Step.ret o ∧
          o = Outcome.returned (some (GoError.failedToCreate s.cs.CFStackNodeGroupName status)))
        [] evs := by
  obtain ⟨c1, c2, c3⟩ := stackWaitBody_calls d v s
  cases hs : s.w.stopc 0 with
  | true => exact ⟨[], by simp [c1 hs], Or.inl (by simp)⟩
  | false =>
    obtain ⟨p1, p2⟩ := c2 hs
    obtain ⟨t, ht, hfree⟩ := @calls_after_free (FailedResponse d.isCFCreateFailed status)
      Event.isDescribe (fun x hx => hx.isDescribe) _ _
      (Event.describeStacks s.cs.CFStackNodeGroupName (s.w.describeStacks 0)) rfl p1 p2
    refine ⟨_ :: t, ht, ?_⟩
    by_cases hT : FailedResponse d.isCFCreateFailed status
        (Event.describeStacks s.cs.CFStackNodeGroupName (s.w.describeStacks 0))
    · obtain ⟨name, outs, he, hf⟩ := hT
      simp only [Event.describeStacks.injEq] at he
      obtain ⟨q1, q2⟩ := c3 hs status outs he.2 hf
      have : t = [] := by
        rw [q1] at ht
        have := List.append_cancel_left ht
        simpa using this.symm
      subst this
      exact Or.inr ⟨[], _, rfl, by simp, by simp, _, q2, rfl⟩
    · left
      intro x hx
      rcases List.mem_cons.1 hx with q | q
      · rw [q]; exact hT
      · exact hfree x q

/-- The stack-wait loop makes no call that receives a failed status, or ends
with that call and returns the error that carries the stack name and the
status. -/
theorem stackWaitLoop_ends (d : Deps) (status : String) (retryStart : Nat) (waitTime : Int)
    (fuel : Nat) (v : Option String) (s : Sys) :
    ∃ evs, (waitLoop (stackWaitBody d) retryStart waitTime fuel v s).2.2.trace = s.trace ++ evs ∧
      EndsAt (FailedResponse d.isCFCreateFailed status)
        (∃ o, (waitLoop (stackWaitBody d) retryStart waitTime fuel v s).1 = some o ∧
          o = Outcome.returned (some (GoError.failedToCreate s.cs.CFStackNodeGroupName status)))
        [] evs := by
  refine waitLoop_terminal (stackWaitBody d)
    (fun t => t.cs.CFStackNodeGroupName = s.cs.CFStackNodeGroupName)
    (FailedResponse d.isCFCreateFailed status)
    (fun o => o = Outcome.returned (some (GoError.failedToCreate s.cs.CFStackNodeGroupName status)))
    (fun t ht => ht) ?_ retryStart waitTime fuel v s rfl
  intro v2 t ht
  refine ⟨?_, ?_⟩
  · show (stackWaitBody d v2 t).2.cs.CFStackNodeGroupName = s.cs.CFStackNodeGroupName
    rw [(stackWaitBody_frame d v2 t).2.2.1, ht]
  obtain ⟨evs, h1, h2⟩ := stackWaitBody_ends d status v2 t
  rw [ht] at h2
  exact ⟨evs, h1, h2⟩

/-- What follows an accepted `CreateStack` makes no call that receives a
failed status, or ends with that call, returns the error that carries the
stack name and the status, and has made no call of the membership phase. -/
theorem afterCreateStack_ends (d : Deps) (cfg : Config) (status : String) (s : Sys) :
    ∃ evs, (afterCreateStack d cfg s).2.trace = s.trace ++ evs ∧
      EndsAt (FailedResponse d.isCFCreateFailed status)
        ((afterCreateStack d cfg s).1 =
            Outcome.returned (some (GoError.failedToCreate s.cs.CFStackNodeGroupName status)) ∧
          (afterCreateStack d cfg s).2.trace.filter Event.isMembership =
            s.trace.filter Event.isMembership)
        [] evs := by
  have hT : ∀ x, FailedResponse d.isCFCreateFailed status x → x.isDescribe = true :=
    fun x hx => hx.isDescribe
  unfold afterCreateStack
  simp only [selectStopOrAfter_fst, sync_stopc, setCreated_w]
  by_cases hs : s.w.stopc 0 = true
  · simp only [hs, if_true]
    refine ⟨[Event.sync (s.setCreated true).cs (s.w.sync 0)], ?_, Or.inl ?_⟩
    · rw [selectStopOrAfter_trace]; simp [hs]
    · intro x hx hf
      simp only [List.mem_singleton] at hx
      rw [hx] at hf
      have := hf.isDescribe
      simp [Event.isDescribe] at this
  · simp only [hs, Bool.false_eq_true, if_false]
    have htr : ((((s.setCreated true).sync).2).selectStopOrAfter (2 * Minute)).2.trace =
        s.trace ++ [Event.sync (s.setCreated true).cs (s.w.sync 0), Event.after (2 * Minute)] := by
      rw [selectStopOrAfter_trace]; simp [hs]
    have hA : ∀ x ∈ [Event.sync (s.setCreated true).cs (s.w.sync 0), Event.after (2 * Minute)],
        ¬ FailedResponse d.isCFCreateFailed status x := by
      intro x hx hf
      have := hf.isDescribe
      simp only [List.mem_cons, List.mem_singleton, List.not_mem_nil, or_false] at hx
      rcases hx with q | q <;> rw [q] at this <;> simp [Event.isDescribe] at this
    obtain ⟨⟨f1, _⟩, _⟩ := stackWaitLoop_frame d
      ((((s.setCreated true).sync).2).selectStopOrAfter (2 * Minute)).2.readClock.1
      (waitTimeOf cfg.WorkderNodeASGMax) ((s.setCreated true).sync).2
      (loopFuel (waitTimeOf cfg.WorkderNodeASGMax)) none
      ((((s.setCreated true).sync).2).selectStopOrAfter (2 * Minute)).2.readClock.2
      (by rw [readClock_trace, htr]; simp [Event.isMembership])
      (by rw [readClock_trace, htr]; simp)
      (by simp) (by simp)
      (by intro h i; simp only [readClock_stopc, selectStopOrAfter_stopc, sync_stopc,
            setCreated_w, tl_apply]; exact h (i + 1))
      (Or.inl (by simp))
    obtain ⟨evs, e1, e2⟩ := stackWaitLoop_ends d status
      ((((s.setCreated true).sync).2).selectStopOrAfter (2 * Minute)).2.readClock.1
      (waitTimeOf cfg.WorkderNodeASGMax) (loopFuel (waitTimeOf cfg.WorkderNodeASGMax)) none
      ((((s.setCreated true).sync).2).selectStopOrAfter (2 * Minute)).2.readClock.2
    rcases hr : waitLoop (stackWaitBody d)
      ((((s.setCreated true).sync).2).selectStopOrAfter (2 * Minute)).2.readClock.1
      (waitTimeOf cfg.WorkderNodeASGMax) (loopFuel (waitTimeOf cfg.WorkderNodeASGMax)) none
      ((((s.setCreated true).sync).2).selectStopOrAfter (2 * Minute)).2.readClock.2 with ⟨o, e, t⟩
    rw [hr] at f1 e1 e2
    simp only [readClock_trace, htr, readClock_cs, selectStopOrAfter_cs, sync_cs,
      setCreated_name] at e1 e2
    simp only [sync_trace, setCreated_trace, List.filter_append] at f1
    simp only [List.filter, Event.isMembership, List.append_nil] at f1
    have e1b : t.trace = s.trace ++
        ([Event.sync (s.setCreated true).cs (s.w.sync 0), Event.after (2 * Minute)] ++ evs) := by
      rw [e1, List.append_assoc]
    cases o with
    | some o =>
      simp only [finishStackWait]
      refine ⟨_, e1b, (e2.imp ?_).prepend _ hA⟩
      rintro ⟨o2, ho2, hq⟩
      simp only [Option.some.injEq] at ho2
      exact ⟨by rw [ho2, hq], f1⟩
    | none =>
      have hfree : ∀ x ∈ evs, ¬ FailedResponse d.isCFCreateFailed status x := by
        rcases e2 with h | ⟨_, _, _, _, _, o2, ho2, _⟩
        · exact h
        · cases ho2
      cases e with
      | some e =>
        simp only [finishStackWait]
        refine ⟨_, e1b, Or.inl ?_⟩
        intro x hx
        rcases List.mem_append.1 hx with q | q
        · exact hA x q
        · exact hfree x q
      | none =>
        simp only [finishStackWait]
        obtain ⟨a1, a2, _⟩ := afterStackWait_frame d cfg (waitTimeOf cfg.WorkderNodeASGMax) t
        obtain ⟨t2, ht2, hfree2⟩ := new_calls_free hT a2 a1
        refine ⟨([Event.sync (s.setCreated true).cs (s.w.sync 0), Event.after (2 * Minute)] ++ evs)
          ++ t2, by rw [ht2, e1b, List.append_assoc], Or.inl ?_⟩
        intro x hx
        rcases List.mem_append.1 hx with q | q
        · rcases List.mem_append.1 q with q | q
          · exact hA x q
          · exact hfree x q
        · exact hfree2 x q

theorem isMembership_of_isKubectl {x : Event} (h : x.isKubectl = true) : x.isMembership = true := by
  cases x <;> simp_all [Event.isKubectl, Event.isMembership]

/-- C4: in every run of `createWorkerNode`, when a `DescribeStacks` call receives
a response that holds one stack whose status `isCFCreateFailed` classifies as
failed, the method returns the error that carries the stack name and that
status, the call is the last call of the run (no retry, no earlier response of
that kind), and `kubectl` is never run. -/
theorem createWorkerNode_failed_status (d : Deps) (cfg : Config) (w : World) (cs : ClusterState)
    (status : String) (e : Event)
    (he : e ∈ (createWorkerNode d cfg ⟨cs, w, []⟩).2.trace)
    (hf : FailedResponse d.isCFCreateFailed status e) :
    (createWorkerNode d cfg ⟨cs, w, []⟩).1 =
      Outcome.returned (some (GoError.failedToCreate cs.CFStackNodeGroupName status)) ∧
    (∃ pre, (createWorkerNode d cfg ⟨cs, w, []⟩).2.trace = pre ++ [e] ∧
      ∀ x ∈ pre, ¬ FailedResponse d.isCFCreateFailed status x) ∧
    ∀ x ∈ (createWorkerNode d cfg ⟨cs, w, []⟩).2.trace, x.isKubectl = false := by
  rcases createWorkerNode_cases d cfg ⟨cs, w, []⟩ with ⟨e0, h⟩ | ⟨input, e0, _, h⟩ | ⟨input, _, _, _, h⟩
  · rw [h] at he; simp at he
  · rw [h] at he
    simp only [createStack_trace, List.nil_append, List.mem_singleton] at he
    have := hf.isDescribe
    rw [he] at this
    simp [Event.isDescribe] at this
  · rw [h] at he ⊢
    obtain ⟨evs, h1, h2⟩ := afterCreateStack_ends d cfg status
      ((Sys.mk cs w []).createStack input).2
    simp only [createStack_trace, List.nil_append, createStack_cs] at h1 h2
    have hfirst : ¬ FailedResponse d.isCFCreateFailed status
        (Event.createStack input (w.createStack 0)) := by
      intro hx
      have := hx.isDescribe
      simp [Event.isDescribe] at this
    have he2 : e ∈ evs := by
      rw [h1] at he
      rcases List.mem_append.1 he with q | q
      · simp only [List.mem_singleton] at q
        rw [q] at hf
        exact absurd hf hfirst
      · exact q
    obtain ⟨⟨q1, q2⟩, pre, q3, q4⟩ := h2.elim he2 hf
    refine ⟨q1, ⟨Event.createStack input (w.createStack 0) :: pre, ?_, ?_⟩, ?_⟩
    · rw [h1, q3]; simp
    · intro x hx
      rcases List.mem_cons.1 hx with q | q
      · rw [q]; exact hfirst
      · exact q4 x q
    · intro x hx
      cases hk : x.isKubectl with
      | false => rfl
      | true =>
        exfalso
        have : x ∈ (afterCreateStack d cfg ((Sys.mk cs w []).createStack input).2).2.trace.filter
            Event.isMembership := List.mem_filter.2 ⟨hx, isMembership_of_isKubectl hk⟩
        rw [q2] at this
        simp [Event.isMembership] at this

/-- C4 at a concrete run: the stack is reported `CREATE_IN_PROGRESS`, then
`CREATE_FAILED`. -/
theorem createWorkerNode_failed_status_witness :
    (createWorkerNode testDeps (testConfig 3) ⟨testState, failingWorld, []⟩).1 =
      Outcome.returned (some (GoError.failedToCreate testState.CFStackNodeGroupName "CREATE_FAILED")) ∧
    (∃ pre, (createWorkerNode testDeps (testConfig 3) ⟨testState, failingWorld, []⟩).2.trace =
        pre ++ [Event.describeStacks "ng" (describeOk "CREATE_FAILED" [])] ∧
      ∀ x ∈ pre, ¬ FailedResponse testDeps.isCFCreateFailed "CREATE_FAILED" x) ∧
    ∀ x ∈ (createWorkerNode testDeps (testConfig 3) ⟨testState, failingWorld, []⟩).2.trace,
      x.isKubectl = false :=
  createWorkerNode_failed_status testDeps (testConfig 3) failingWorld testState "CREATE_FAILED"
    (Event.describeStacks "ng" (describeOk "CREATE_FAILED" [])) (by decide)
    ⟨"ng", [], rfl, by decide⟩

/-! ## A failed `apply` whose error text has "unknown flag:" ends `createWorkerNode` -/

theorem EndsAt.append_tail {T : Event → Prop} {Q : Prop} {evs : List Event} (tail : List Event)
    (htail : ∀ x ∈ tail, ¬ T x) (h : EndsAt T Q [] evs) : EndsAt T Q tail (evs ++ tail) := by
  rcases h with h | ⟨p, e, h1, h2, _, h4⟩
  · left
    intro x hx
    rcases List.mem_append.1 hx with q | q
    · exact h x q
    · exact htail x q
  · right
    exact ⟨p, e, by rw [h1]; simp, h2, htail, h4⟩

theorem UnknownFlagApply.isApply {output : String} {e : Event} (h : UnknownFlagApply output e) :
    e.isApply = true := by
  obtain ⟨args, err, he, _⟩ := h
  rw [he]; rfl

theorem isMembership_of_isApply {x : Event} (h : x.isApply = true) : x.isMembership = true := by
  cases x <;> simp_all [Event.isApply, Event.isMembership]

/-- The second half of an iteration of the membership loop runs no `apply`
command. -/
theorem getNodesStep_apply (d : Deps) (cfg : Config) (s : Sys) :
    (getNodesStep d cfg s).2.trace.filter Event.isApply = s.trace.filter Event.isApply := by
  unfold getNodesStep
  simp only []
  repeat' split
  all_goals simp_all [Event.isApply]

/-- The `apply` commands of one iteration of the membership loop: none when the
stop channel is closed or the document has been applied, otherwise one, first;
and when it fails with an error text that contains "unknown flag:" the
iteration and the method end at once. -/
theorem nodeReadyBody_calls (d : Deps) (cfg : Config) (cmPath : String) (applied : Bool)
    (s : Sys) :
    ((s.w.stopc 0 = true ∨ applied = true) →
      (nodeReadyBody d cfg cmPath applied s).2.trace.filter Event.isApply =
        s.trace.filter Event.isApply) ∧
    (s.w.stopc 0 = false → applied = false →
      (s.trace ++ [Event.kubectlApply (applyArgs cfg cmPath) (s.w.kubectlApply 0).1
          (s.w.kubectlApply 0).2] <+: (nodeReadyBody d cfg cmPath applied s).2.trace) ∧
      (nodeReadyBody d cfg cmPath applied s).2.trace.filter Event.isApply =
        s.trace.filter Event.isApply ++
          [Event.kubectlApply (applyArgs cfg cmPath) (s.w.kubectlApply 0).1
            (s.w.kubectlApply 0).2]) ∧
    (s.w.stopc 0 = false → applied = false → ∀ err, (s.w.kubectlApply 0).2 = some err →
      stringsContains err "unknown flag:" = true →
      (nodeReadyBody d cfg cmPath applied s).2.trace =
        s.trace ++ [Event.kubectlApply (applyArgs cfg cmPath) (s.w.kubectlApply 0).1
          (s.w.kubectlApply 0).2] ∧
      (nodeReadyBody d cfg cmPath applied s).1 =
        Step.ret (Outcome.returned (some (GoError.unknownFlag (s.w.kubectlApply 0).1)))) := by
  unfold nodeReadyBody
  simp only []
  split
  · simp_all
  · split
    · split
      · split
        · simp_all [Event.isApply]
        · simp_all [Event.isApply]
      · rename_i hstop happ _ hnone
        have g1 := getNodesStep_apply d cfg ((s.observeStop).2.kubectlApply (applyArgs cfg cmPath)).2
        have g2 := (getNodesStep_frame d cfg
          ((s.observeStop).2.kubectlApply (applyArgs cfg cmPath)).2).2.2.1
        simp only [kubectlApply_trace, observeStop_trace, observeStop_kubectlApply] at g1 g2
        simp only [kubectlApply_reply, observeStop_kubectlApply] at hnone
        refine ⟨?_, ?_, ?_⟩
        · intro h
          simp only [observeStop_fst] at hstop
          rcases h with h | h
          · exact absurd h hstop
          · rw [h] at happ; cases happ
        · intro _ _
          refine ⟨g2, ?_⟩
          rw [g1, List.filter_append]
          simp [Event.isApply]
        · intro _ _ err herr
          rw [hnone] at herr
          cases herr
    · rename_i hstop happ
      have g1 := getNodesStep_apply d cfg (s.observeStop).2
      refine ⟨fun _ => by rw [g1]; rfl, ?_, ?_⟩
      · intro _ h; exact absurd h happ
      · intro _ h; exact absurd h happ

/-- One iteration of the membership loop runs no `apply` that fails with an
error text containing "unknown flag:", or ends with it and returns the
`unknown flag` error that carries the combined output. -/
theorem nodeReadyBody_ends (d : Deps) (cfg : Config) (cmPath : String) (output : String)
    (applied : Bool) (s : Sys) :
    ∃ evs, (nodeReadyBody d cfg cmPath applied s).2.trace = s.trace ++ evs ∧
      EndsAt (UnknownFlagApply output)
        (∃ o, (nodeReadyBody d cfg cmPath applied s).1 = Step.ret o ∧
          o = Outcome.returned (some (GoError.unknownFlag output)))
        [] evs := by
  obtain ⟨c1, c2, c3⟩ := nodeReadyBody_calls d cfg cmPath applied s
  have hpre := (nodeReadyBody_frame d cfg cmPath applied s).2.2.1
  by_cases hcase : s.w.stopc 0 = true ∨ applied = true
  · obtain ⟨t, ht, hfree⟩ := @new_calls_free (UnknownFlagApply output) Event.isApply
      (fun x hx => hx.isApply) _ _ hpre (c1 hcase)
    exact ⟨t, ht, Or.inl hfree⟩
  · have hs : s.w.stopc 0 = false := by
      cases h : s.w.stopc 0 with
      | false => rfl
      | true => exact absurd (Or.inl h) hcase
    have ha : applied = false := by
      cases h : applied with
      | false => rfl
      | true => exact absurd (Or.inr h) hcase
    obtain ⟨p1, p2⟩ := c2 hs ha
    obtain ⟨t, ht, hfree⟩ := @calls_after_free (UnknownFlagApply output) Event.isApply
      (fun x hx => hx.isApply) _ _
      (Event.kubectlApply (applyArgs cfg cmPath) (s.w.kubectlApply 0).1 (s.w.kubectlApply 0).2)
      rfl p1 p2
    refine ⟨_ :: t, ht, ?_⟩
    by_cases hT : UnknownFlagApply output
        (Event.kubectlApply (applyArgs cfg cmPath) (s.w.kubectlApply 0).1 (s.w.kubectlApply 0).2)
    · obtain ⟨args, err, he, hc⟩ := hT
      simp only [Event.kubectlApply.injEq] at he
      obtain ⟨q1, q2⟩ := c3 hs ha err he.2.2 hc
      have : t = [] := by
        rw [q1] at ht
        have := List.append_cancel_left ht
        simpa using this.symm
      subst this
      refine Or.inr ⟨[], _, rfl, by simp, by simp, _, q2, ?_⟩
      rw [he.2.1]
    · left
      intro x hx
      rcases List.mem_cons.1 hx with q | q
      · rw [q]; exact hT
      · exact hfree x q

/-- The membership phase runs no `apply` that fails with an error text
containing "unknown flag:", or ends with it and returns the `unknown flag`
error that carries the combined output. -/
theorem verifyMembership_ends (d : Deps) (cfg : Config) (waitTime : Int) (cmPath : String)
    (output : String) (s : Sys) :
    ∃ evs, (verifyMembership d cfg waitTime cmPath s).2.trace = s.trace ++ evs ∧
      EndsAt (UnknownFlagApply output)
        ((verifyMembership d cfg waitTime cmPath s).1 =
          Outcome.returned (some (GoError.unknownFlag output)))
        [] evs := by
  obtain ⟨evs, e1, e2⟩ := waitLoop_terminal (nodeReadyBody d cfg cmPath) (fun _ => True)
    (UnknownFlagApply output)
    (fun o => o = Outcome.returned (some (GoError.unknownFlag output)))
    (fun _ _ => trivial)
    (fun v t _ => ⟨trivial, nodeReadyBody_ends d cfg cmPath output v t⟩)
    s.readClock.1 waitTime (loopFuel waitTime) false s.readClock.2 trivial
  unfold verifyMembership
  rcases hr : waitLoop (nodeReadyBody d cfg cmPath) s.readClock.1 waitTime (loopFuel waitTime)
    false s.readClock.2 with ⟨o, a, t⟩
  rw [hr] at e1 e2
  simp only [readClock_trace] at e1 e2
  cases o with
  | some o =>
    simp only [finishMembership]
    refine ⟨evs, e1, e2.imp ?_⟩
    rintro ⟨o2, ho2, hq⟩
    simp only [Option.some.injEq] at ho2
    rw [ho2, hq]
  | none =>
    have hfree : ∀ x ∈ evs, ¬ UnknownFlagApply output x := by
      rcases e2 with h | ⟨_, _, _, _, _, o2, ho2, _⟩
      · exact h
      · cases ho2
    unfold finishMembership
    simp only []
    split
    · exact ⟨evs, e1, Or.inl hfree⟩
    · refine ⟨evs ++ [Event.sync t.cs (t.w.sync 0)], by simp [e1], Or.inl ?_⟩
      intro x hx
      rcases List.mem_append.1 hx with q | q
      · exact hfree x q
      · simp only [List.mem_singleton] at q
        rw [q]
        intro hx2
        have := hx2.isApply
        simp [Event.isApply] at this

/-- What follows the stack-wait loop runs no `apply` that fails with an error
text containing "unknown flag:", or that command is followed by the deferred
removal of the document only and the `unknown flag` error is returned. -/
theorem afterStackWait_ends (d : Deps) (cfg : Config) (waitTime : Int) (output : String)
    (s : Sys) :
    ∃ evs p, (afterStackWait d cfg waitTime s).2.trace = s.trace ++ evs ∧
      EndsAt (UnknownFlagApply output)
        ((afterStackWait d cfg waitTime s).1 =
          Outcome.returned (some (GoError.unknownFlag output)))
        [Event.removeAll p] evs := by
  have notApply : ∀ (l : List Event), (∀ x ∈ l, x.isApply = false) →
      ∀ x ∈ l, ¬ UnknownFlagApply output x := by
    intro l hl x hx hT
    have h1 := hl x hx
    rw [hT.isApply] at h1
    cases h1
  unfold afterStackWait
  simp only []
  split
  · exact ⟨[], "", by simp, Or.inl (by simp)⟩
  · split
    · refine ⟨[_], "", rfl, Or.inl (notApply _ ?_)⟩
      simp [Event.isApply]
    · rename_i cmPath _
      obtain ⟨evs, e1, e2⟩ := verifyMembership_ends d cfg waitTime cmPath output
        (s.writeConfigMapNodeAuth s.cs.CFStackNodeGroupWorkerNodeInstanceRoleARN).2
      refine ⟨[Event.writeConfigMapNodeAuth s.cs.CFStackNodeGroupWorkerNodeInstanceRoleARN
        (s.w.writeConfigMapNodeAuth 0)] ++ (evs ++ [Event.removeAll cmPath]), cmPath, ?_, ?_⟩
      · simp only [removeAll_trace, e1, writeConfigMapNodeAuth_trace, List.append_assoc]
      · refine (e2.append_tail [Event.removeAll cmPath] (notApply _ ?_)).prepend _ (notApply _ ?_)
        · simp [Event.isApply]
        · simp [Event.isApply]

/-- What follows an accepted `CreateStack` runs no `apply` that fails with an
error text containing "unknown flag:", or that command is followed by the
deferred removal of the document only and the `unknown flag` error is
returned. -/
theorem afterCreateStack_flag (d : Deps) (cfg : Config) (output : String) (s : Sys) :
    ∃ evs p, (afterCreateStack d cfg s).2.trace = s.trace ++ evs ∧
      EndsAt (UnknownFlagApply output)
        ((afterCreateStack d cfg s).1 = Outcome.returned (some (GoError.unknownFlag output)))
        [Event.removeAll p] evs := by
  have hT : ∀ x, UnknownFlagApply output x → x.isMembership = true :=
    fun x hx => isMembership_of_isApply hx.isApply
  unfold afterCreateStack
  simp only [selectStopOrAfter_fst, sync_stopc, setCreated_w]
  by_cases hs : s.w.stopc 0 = true
  · simp only [hs, if_true]
    refine ⟨[Event.sync (s.setCreated true).cs (s.w.sync 0)], "", ?_, Or.inl ?_⟩
    · rw [selectStopOrAfter_trace]; simp [hs]
    · intro x hx hf
      simp only [List.mem_singleton] at hx
      rw [hx] at hf
      have := hf.isApply
      simp [Event.isApply] at this
  · simp only [hs, Bool.false_eq_true, if_false]
    have htr : ((((s.setCreated true).sync).2).selectStopOrAfter (2 * Minute)).2.trace =
        s.trace ++ [Event.sync (s.setCreated true).cs (s.w.sync 0), Event.after (2 * Minute)] := by
      rw [selectStopOrAfter_trace]; simp [hs]
    obtain ⟨⟨f1, f2, _⟩, _⟩ := stackWaitLoop_frame d
      ((((s.setCreated true).sync).2).selectStopOrAfter (2 * Minute)).2.readClock.1
      (waitTimeOf cfg.WorkderNodeASGMax) ((s.setCreated true).sync).2
      (loopFuel (waitTimeOf cfg.WorkderNodeASGMax)) none
      ((((s.setCreated true).sync).2).selectStopOrAfter (2 * Minute)).2.readClock.2
      (by rw [readClock_trace, htr]; simp [Event.isMembership])
      (by rw [readClock_trace, htr]; simp)
      (by simp) (by simp)
      (by intro h i; simp only [readClock_stopc, selectStopOrAfter_stopc, sync_stopc,
            setCreated_w, tl_apply]; exact h (i + 1))
      (Or.inl (by simp))
    rcases hr : waitLoop (stackWaitBody d)
      ((((s.setCreated true).sync).2).selectStopOrAfter (2 * Minute)).2.readClock.1
      (waitTimeOf cfg.WorkderNodeASGMax) (loopFuel (waitTimeOf cfg.WorkderNodeASGMax)) none
      ((((s.setCreated true).sync).2).selectStopOrAfter (2 * Minute)).2.readClock.2 with ⟨o, e, t⟩
    rw [hr] at f1 f2
    simp only [sync_trace, setCreated_trace, List.filter_append] at f1 f2
    simp only [List.filter, Event.isMembership, List.append_nil] at f1
    have hpre : s.trace <+: t.trace := List.IsPrefix.trans (by simp) f2
    obtain ⟨tl1, ht1, hfree1⟩ := new_calls_free hT hpre f1
    cases o with
    | some o =>
      simp only [finishStackWait]
      exact ⟨tl1, "", ht1, Or.inl hfree1⟩
    | none =>
      cases e with
      | some e =>
        simp only [finishStackWait]
        exact ⟨tl1, "", ht1, Or.inl hfree1⟩
      | none =>
        simp only [finishStackWait]
        obtain ⟨evs, p, a1, a2⟩ :=
          afterStackWait_ends d cfg (waitTimeOf cfg.WorkderNodeASGMax) output t
        exact ⟨tl1 ++ evs, p, by rw [a1, ht1, List.append_assoc], a2.prepend tl1 hfree1⟩

/-- C6: the code does not do what the claim says.  The first `apply` command
fails, its combined output contains "unknown flag:" and its error text is the
exit status, as for a command that exits with status 1 after writing the
message.  Line 219 looks for "unknown flag:" in the error text, not in the
combined output that line 220 puts in the error it returns, so the failure is
taken for a transient one: the method sleeps five seconds, runs `apply` a
second time, runs `get nodes`, and returns nil. -/
theorem createWorkerNode_flag_in_output_retried :
    stringsContains "unknown flag: --foo" "unknown flag:" = true ∧
    (createWorkerNode testDeps (testConfig 3) ⟨testState, flagInOutputWorld, []⟩).1 =
      Outcome.returned none ∧
    (createWorkerNode testDeps (testConfig 3) ⟨testState, flagInOutputWorld, []⟩).2.trace.filter
        (fun e => e.isKubectl || e.isSleep) =
      [Event.kubectlApply (applyArgs (testConfig 3) "/tmp/cm") "unknown flag: --foo"
         (some "exit status 1"),
       Event.sleep (5 * Second),
       Event.kubectlApply (applyArgs (testConfig 3) "/tmp/cm") "configmap/aws-auth created" none,
       Event.kubectlGetNodes (getNodesArgs (testConfig 3)) "RRR" none] := by
  decide

/-- The branch of lines 219-221 as it is coded: in every run of
`createWorkerNode`, when an `apply` command fails with an error text that
contains "unknown flag:", the method returns the `unknown flag` error that
carries the combined output, and that command is followed by the deferred
removal of the document only: no sleep, no second `apply`, no `get nodes`. -/
theorem createWorkerNode_unknown_flag (d : Deps) (cfg : Config) (w : World) (cs : ClusterState)
    (output : String) (e : Event)
    (he : e ∈ (createWorkerNode d cfg ⟨cs, w, []⟩).2.trace)
    (hf : UnknownFlagApply output e) :
    (createWorkerNode d cfg ⟨cs, w, []⟩).1 =
      Outcome.returned (some (GoError.unknownFlag output)) ∧
    ∃ pre p, (createWorkerNode d cfg ⟨cs, w, []⟩).2.trace = pre ++ [e, Event.removeAll p] ∧
      ∀ x ∈ pre, ¬ UnknownFlagApply output x := by
  rcases createWorkerNode_cases d cfg ⟨cs, w, []⟩ with ⟨e0, h⟩ | ⟨input, e0, _, h⟩ | ⟨input, _, _, _, h⟩
  · rw [h] at he; simp at he
  · rw [h] at he
    simp only [createStack_trace, List.nil_append, List.mem_singleton] at he
    have := hf.isApply
    rw [he] at this
    simp [Event.isApply] at this
  · rw [h] at he ⊢
    obtain ⟨evs, p, h1, h2⟩ := afterCreateStack_flag d cfg output
      ((Sys.mk cs w []).createStack input).2
    simp only [createStack_trace, List.nil_append] at h1
    have hfirst : ¬ UnknownFlagApply output (Event.createStack input (w.createStack 0)) := by
      intro hx
      have := hx.isApply
      simp [Event.isApply] at this
    have he2 : e ∈ evs := by
      rw [h1] at he
      rcases List.mem_append.1 he with q | q
      · simp only [List.mem_singleton] at q
        rw [q] at hf
        exact absurd hf hfirst
      · exact q
    obtain ⟨q1, pre, q3, q4⟩ := h2.elim he2 hf
    refine ⟨q1, Event.createStack input (w.createStack 0) :: pre, p, ?_, ?_⟩
    · rw [h1, q3]; simp
    · intro x hx
      rcases List.mem_cons.1 hx with q | q
      · rw [q]; exact hfirst
      · exact q4 x q

/-- The branch of lines 219-221 at a concrete run: the first `apply` command
fails with the error text "unknown flag: --foo". -/
theorem createWorkerNode_unknown_flag_witness :
    (createWorkerNode testDeps (testConfig 3) ⟨testState, flagInErrorWorld, []⟩).1 =
      Outcome.returned (some (GoError.unknownFlag "Error: unknown flag: --foo")) ∧
    ∃ pre p, (createWorkerNode testDeps (testConfig 3) ⟨testState, flagInErrorWorld, []⟩).2.trace =
        pre ++ [Event.kubectlApply (applyArgs (testConfig 3) "/tmp/cm")
          "Error: unknown flag: --foo" (some "unknown flag: --foo"), Event.removeAll p] ∧
      ∀ x ∈ pre, ¬ UnknownFlagApply "Error: unknown flag: --foo" x :=
  createWorkerNode_unknown_flag testDeps (testConfig 3) flagInErrorWorld testState
    "Error: unknown flag: --foo"
    (Event.kubectlApply (applyArgs (testConfig 3) "/tmp/cm") "Error: unknown flag: --foo"
      (some "unknown flag: --foo"))
    (by decide) ⟨_, _, rfl, by decide⟩

set_option maxRecDepth 100000 in
/-- C9: the code does not do what the claim says.  The created flag is set,
the stack name is not empty, `DeleteStack` is accepted, and every
`DescribeStacks` call succeeds and reports `DELETE_IN_PROGRESS` until the wait
budget of five minutes is used up (sixty calls, five seconds apart):
`deleteWorkerNode` returns nil, not a timeout error. -/
theorem deleteWorkerNode_nil_while_deleting :
    createdState.StatusWorkerNodeCreated = true ∧ createdState.CFStackNodeGroupName ≠ "" ∧
    (deleteWorkerNode testDeps (testConfig 0) ⟨createdState, stillDeletingWorld, []⟩).1 =
      Outcome.returned none ∧
    (deleteWorkerNode testDeps (testConfig 0) ⟨createdState, stillDeletingWorld, []⟩).2.trace.filter
        Event.isDescribe =
      List.replicate 60 (Event.describeStacks "ng" (describeOk "DELETE_IN_PROGRESS" [])) ∧
    (deleteWorkerNode testDeps (testConfig 0)
      ⟨createdState, stillDeletingWorld, []⟩).2.cs.CFStackNodeGroupStatus = "DELETE_IN_PROGRESS" := by
  decide

/-! ## Iterations that loop back -/

/-- The time of `n + 1` iterations is the time of the first one and of the
`n` that follow. -/
theorem pollTime_succ (tick : Nat → Nat) (c : Nat) (n : Nat) :
    pollTime tick c (n + 1) = tick 0 + c + pollTime (tl tick) c n := by
  induction n with
  | zero => simp [pollTime]
  | succ n ih =>
    rw [pollTime, ih]
    simp only [pollTime, tl_apply]
    omega

theorem pollTime_ge (tick : Nat → Nat) (c : Nat) (n : Nat) : n * c ≤ pollTime tick c n := by
  induction n with
  | zero => simp [pollTime]
  | succ n ih =>
    rw [pollTime, Nat.succ_mul]
    omega

/-- An iteration whose guard holds and whose body loops back. -/
theorem waitLoop_cont {σ : Type} (body : σ → Sys → Step σ × Sys) (retryStart : Nat)
    (waitTime : Int) (fuel : Nat) (v v2 : σ) (s s2 : Sys)
    (hg : (s.readClock.1 : Int) - (retryStart : Int) < waitTime)
    (hb : body v s.readClock.2 = (Step.cont v2, s2)) :
    waitLoop body retryStart waitTime (fuel + 1) v s = waitLoop body retryStart waitTime fuel v2 s2 := by
  rw [waitLoop, if_pos hg, hb]

/-- An iteration whose guard holds and whose body leaves the loop. -/
theorem waitLoop_brk {σ : Type} (body : σ → Sys → Step σ × Sys) (retryStart : Nat)
    (waitTime : Int) (fuel : Nat) (v v2 : σ) (s s2 : Sys)
    (hg : (s.readClock.1 : Int) - (retryStart : Int) < waitTime)
    (hb : body v s.readClock.2 = (Step.brk v2, s2)) :
    waitLoop body retryStart waitTime (fuel + 1) v s = (none, v2, s2) := by
  rw [waitLoop, if_pos hg, hb]

theorem readClock_now (s : Sys) : s.readClock.2.w.now = s.w.now + s.w.pending + s.w.tick 0 := rfl
theorem readClock_fst (s : Sys) : s.readClock.1 = s.w.now + s.w.pending + s.w.tick 0 := rfl
theorem readClock_pending (s : Sys) : s.readClock.2.w.pending = 0 := rfl
theorem readClock_tick (s : Sys) : s.readClock.2.w.tick = tl s.w.tick := rfl
theorem readClock_describeStacks (s : Sys) :
    s.readClock.2.w.describeStacks = s.w.describeStacks := rfl
theorem readClock_kubectlApply (s : Sys) : s.readClock.2.w.kubectlApply = s.w.kubectlApply := rfl
theorem readClock_kubectlGetNodes (s : Sys) :
    s.readClock.2.w.kubectlGetNodes = s.w.kubectlGetNodes := rfl

/-- An iteration of the stack-wait loop that receives a response in progress
without role makes one `DescribeStacks` call, sleeps fifteen seconds and loops
back. -/
theorem stackWaitBody_inProgress (d : Deps) (v : Option String) (s : Sys)
    (hs : s.w.stopc 0 = false) (hr : inProgressNoRole d (s.w.describeStacks 0)) :
    ∃ s2, stackWaitBody d v s = (Step.cont none, s2) ∧
      s2.w.now = s.w.now ∧ s2.w.pending = s.w.pending + 15 * Second ∧ s2.w.tick = s.w.tick ∧
      s2.w.stopc = tl s.w.stopc ∧ s2.w.describeStacks = tl s.w.describeStacks ∧
      (s2.trace.filter Event.isDescribe).length = (s.trace.filter Event.isDescribe).length + 1 ∧
      s2.trace.filter Event.isWriteConfigMap = s.trace.filter Event.isWriteConfigMap := by
  obtain ⟨status, outs, h1, h2, h3, h4⟩ := hr
  refine ⟨(((((s.observeStop).2.describeStacks s.cs.CFStackNodeGroupName).2.setStackStatus
    status).sync).2.sleep (15 * Second)), ?_, rfl, rfl, rfl, rfl, rfl, ?_, ?_⟩
  · unfold stackWaitBody
    simp only [observeStop_fst, hs, Bool.false_eq_true, if_false, describeStacks_reply,
      observeStop_describeStacks, h1, List.length_singleton, ne_eq, not_true_eq_false,
      setStackStatus_status, h2, captureRole_noRole outs h4, h3]
  · simp [Event.isDescribe]
  · simp [Event.isWriteConfigMap]

/-- An iteration of the stack-wait loop that receives the response
`CREATE_COMPLETE` with the role `r` makes one `DescribeStacks` call, stores
the status and the role, and leaves the loop. -/
theorem stackWaitBody_complete (d : Deps) (v : Option String) (s : Sys) (r : String)
    (hs : s.w.stopc 0 = false) (hnf : d.isCFCreateFailed "CREATE_COMPLETE" = false)
    (hr : completeWithRole (s.w.describeStacks 0) r) :
    ∃ s2, stackWaitBody d v s = (Step.brk none, s2) ∧
      s2.cs.CFStackNodeGroupStatus = "CREATE_COMPLETE" ∧
      s2.cs.CFStackNodeGroupWorkerNodeInstanceRoleARN = r ∧
      (s2.trace.filter Event.isDescribe).length = (s.trace.filter Event.isDescribe).length + 1 ∧
      s2.trace.filter Event.isWriteConfigMap = s.trace.filter Event.isWriteConfigMap := by
  obtain ⟨outs, h1, h2⟩ := hr
  refine ⟨((((s.observeStop).2.describeStacks s.cs.CFStackNodeGroupName).2.setStackStatus
    "CREATE_COMPLETE").setRoleARN r), ?_, rfl, rfl, ?_, ?_⟩
  · unfold stackWaitBody
    simp only [observeStop_fst, hs, Bool.false_eq_true, if_false, describeStacks_reply,
      observeStop_describeStacks, h1, List.length_singleton, ne_eq, not_true_eq_false,
      setStackStatus_status, hnf, captureRole_roleIs outs r h2, setRoleARN_status, if_true]
  · simp [Event.isDescribe]
  · simp [Event.isWriteConfigMap]


/-- The stack-wait loop, entered with `n` responses in progress to come and
then the response `CREATE_COMPLETE` with the role `r`, all within the budget
and with the stop channel open: it makes `n + 1` more `DescribeStacks` calls,
leaves with `err` nil, and stores the status and the role. -/
theorem stackWaitLoop_polls (d : Deps) (r : String) (rs : Nat) (W : Int)
    (hnf : d.isCFCreateFailed "CREATE_COMPLETE" = false) :
    ∀ (n fuel : Nat) (v : Option String) (s : Sys), n < fuel →
      (∀ i, i ≤ n → s.w.stopc i = false) →
      (∀ i, i < n → inProgressNoRole d (s.w.describeStacks i)) →
      completeWithRole (s.w.describeStacks n) r →
      ((s.w.now + s.w.pending + pollTime s.w.tick (15 * Second) n + s.w.tick n : Nat) : Int) -
        (rs : Int) < W →
      (waitLoop (stackWaitBody d) rs W fuel v s).1 = none ∧
      (waitLoop (stackWaitBody d) rs W fuel v s).2.1 = none ∧
      ((waitLoop (stackWaitBody d) rs W fuel v s).2.2.trace.filter Event.isDescribe).length =
        (s.trace.filter Event.isDescribe).length + (n + 1) ∧
      (waitLoop (stackWaitBody d) rs W fuel v s).2.2.trace.filter Event.isWriteConfigMap =
        s.trace.filter Event.isWriteConfigMap ∧
      (waitLoop (stackWaitBody d) rs W fuel v s).2.2.cs.CFStackNodeGroupStatus = "CREATE_COMPLETE" ∧
      (waitLoop (stackWaitBody d) rs W fuel v s).2.2.cs.CFStackNodeGroupWorkerNodeInstanceRoleARN = r := by
  intro n
  induction n with
  | zero =>
    intro fuel v s hf hstop _ hlast hb
    obtain ⟨f, rfl⟩ : ∃ f, fuel = f + 1 := ⟨fuel - 1, by omega⟩
    have hg : (s.readClock.1 : Int) - (rs : Int) < W := by
      rw [readClock_fst]
      simpa [pollTime] using hb
    obtain ⟨s2, hbody, e1, e2, e3, e4⟩ :=
      stackWaitBody_complete d v s.readClock.2 r (hstop 0 (Nat.le_refl 0)) hnf hlast
    rw [waitLoop_brk _ _ _ _ _ _ _ _ hg hbody]
    exact ⟨rfl, rfl, e3, e4, e1, e2⟩
  | succ n ih =>
    intro fuel v s hf hstop hpoll hlast hb
    obtain ⟨f, rfl⟩ : ∃ f, fuel = f + 1 := ⟨fuel - 1, by omega⟩
    rw [pollTime_succ] at hb
    have hg : (s.readClock.1 : Int) - (rs : Int) < W := by
      rw [readClock_fst]
      omega
    obtain ⟨s2, hbody, e1, e2, e3, e4, e5, e6, e7⟩ := stackWaitBody_inProgress d v s.readClock.2
      (hstop 0 (Nat.zero_le _)) (hpoll 0 (Nat.succ_pos _))
    rw [waitLoop_cont _ _ _ _ _ _ _ _ hg hbody]
    rw [readClock_now] at e1
    rw [readClock_pending] at e2
    rw [readClock_tick] at e3
    rw [readClock_stopc] at e4
    rw [readClock_describeStacks] at e5
    rw [readClock_trace] at e6 e7
    obtain ⟨i1, i2, i3, i4, i5, i6⟩ := ih f none s2 (by omega)
      (fun i hi => by rw [e4]; exact hstop (i + 1) (by omega))
      (fun i hi => by rw [e5]; exact hpoll (i + 1) (by omega))
      (by rw [e5]; exact hlast)
      (by
        rw [e1, e2, e3]
        simp only [tl_apply]
        omega)
    refine ⟨i1, i2, ?_, ?_, i5, i6⟩
    · rw [i3, e6]
      omega
    · rw [i4, e7]

theorem sync_tick (s : Sys) : s.sync.2.w.tick = s.w.tick := rfl
theorem sync_describeStacks (s : Sys) : s.sync.2.w.describeStacks = s.w.describeStacks := rfl
theorem selectStopOrAfter_tick (s : Sys) (n : Nat) : (s.selectStopOrAfter n).2.w.tick = s.w.tick := by
  unfold Sys.selectStopOrAfter; split <;> rfl
theorem selectStopOrAfter_describeStacks (s : Sys) (n : Nat) :
    (s.selectStopOrAfter n).2.w.describeStacks = s.w.describeStacks := by
  unfold Sys.selectStopOrAfter; split <;> rfl

/-- What follows the stack-wait loop writes the document for the role ARN
held when that is not empty, and makes no call otherwise. -/
theorem afterStackWait_writes (d : Deps) (cfg : Config) (waitTime : Int) (s : Sys) :
    (s.cs.CFStackNodeGroupWorkerNodeInstanceRoleARN = "" →
      (afterStackWait d cfg waitTime s).2.trace = s.trace) ∧
    (s.cs.CFStackNodeGroupWorkerNodeInstanceRoleARN ≠ "" →
      (afterStackWait d cfg waitTime s).2.trace.filter Event.isWriteConfigMap =
        s.trace.filter Event.isWriteConfigMap ++
          [Event.writeConfigMapNodeAuth s.cs.CFStackNodeGroupWorkerNodeInstanceRoleARN
            (s.w.writeConfigMapNodeAuth 0)]) := by
  constructor
  · intro h
    unfold afterStackWait
    simp [h]
  · intro h
    rcases (afterStackWait_frame d cfg waitTime s).2.2.2.2.2.1 with q | ⟨_, q⟩
    · exfalso
      revert q
      unfold afterStackWait
      simp only [h, if_false]
      split
      · simp
      · rename_i cmPath _
        intro q
        have h3 := (verifyMembership_frame d cfg waitTime cmPath
          (s.writeConfigMapNodeAuth s.cs.CFStackNodeGroupWorkerNodeInstanceRoleARN).2).2.2.1
        have := congrArg List.length q
        have hl := h3.length_le
        simp only [removeAll_trace, List.length_append, List.length_singleton,
          writeConfigMapNodeAuth_trace] at this hl
        omega
    · exact q

/-- What follows an accepted `CreateStack`, with `n` responses in progress to
come and then the response `CREATE_COMPLETE` with the role `r`, all within the
budget and with the stop channel open. -/
theorem afterCreateStack_polls (d : Deps) (cfg : Config) (n : Nat) (r : String) (s : Sys)
    (hnf : d.isCFCreateFailed "CREATE_COMPLETE" = false)
    (hstop : ∀ i, i ≤ n + 1 → s.w.stopc i = false)
    (hbudget : ((pollTime (tl s.w.tick) (15 * Second) n + s.w.tick (n + 1) : Nat) : Int) <
      waitTimeOf cfg.WorkderNodeASGMax)
    (hpoll : ∀ i, i < n → inProgressNoRole d (s.w.describeStacks i))
    (hlast : completeWithRole (s.w.describeStacks n) r) :
    ((afterCreateStack d cfg s).2.trace.filter Event.isDescribe).length =
      (s.trace.filter Event.isDescribe).length + (n + 1) ∧
    (afterCreateStack d cfg s).2.cs.CFStackNodeGroupStatus = "CREATE_COMPLETE" ∧
    (afterCreateStack d cfg s).2.cs.CFStackNodeGroupWorkerNodeInstanceRoleARN = r ∧
    (r = "" → (afterCreateStack d cfg s).2.trace.filter Event.isWriteConfigMap =
      s.trace.filter Event.isWriteConfigMap) ∧
    (r ≠ "" → ∃ reply, (afterCreateStack d cfg s).2.trace.filter Event.isWriteConfigMap =
      s.trace.filter Event.isWriteConfigMap ++ [Event.writeConfigMapNodeAuth r reply]) := by
  have hs : s.w.stopc 0 = false := hstop 0 (Nat.zero_le _)
  have hfuel : n < loopFuel (waitTimeOf cfg.WorkderNodeASGMax) := by
    have h1 := pollTime_ge (tl s.w.tick) (15 * Second) n
    have h2 : 0 < Second := by decide
    have h3 : n * (5 * Second) ≤ (waitTimeOf cfg.WorkderNodeASGMax).toNat := by
      have : n * (15 * Second) = 3 * (n * (5 * Second)) := by ring
      omega
    have h4 : n ≤ (waitTimeOf cfg.WorkderNodeASGMax).toNat / (5 * Second) :=
      (Nat.le_div_iff_mul_le (by omega)).2 h3
    unfold loopFuel
    omega
  unfold afterCreateStack
  simp only [selectStopOrAfter_fst, sync_stopc, setCreated_w, hs, Bool.false_eq_true, if_false]
  have htr : ((((s.setCreated true).sync).2).selectStopOrAfter (2 * Minute)).2.trace =
      s.trace ++ [Event.sync (s.setCreated true).cs (s.w.sync 0), Event.after (2 * Minute)] := by
    rw [selectStopOrAfter_trace]; simp [hs]
  obtain ⟨l1, l2, l3, l4, l5, l6⟩ := stackWaitLoop_polls d r
    ((((s.setCreated true).sync).2).selectStopOrAfter (2 * Minute)).2.readClock.1
    (waitTimeOf cfg.WorkderNodeASGMax) hnf n (loopFuel (waitTimeOf cfg.WorkderNodeASGMax)) none
    ((((s.setCreated true).sync).2).selectStopOrAfter (2 * Minute)).2.readClock.2 hfuel
    (by
      intro i hi
      rw [readClock_stopc, selectStopOrAfter_stopc, sync_stopc, setCreated_w, tl_apply]
      exact hstop (i + 1) (by omega))
    (by
      intro i hi
      rw [readClock_describeStacks, selectStopOrAfter_describeStacks, sync_describeStacks,
        setCreated_w]
      exact hpoll i hi)
    (by
      rw [readClock_describeStacks, selectStopOrAfter_describeStacks, sync_describeStacks,
        setCreated_w]
      exact hlast)
    (by
      rw [readClock_now, readClock_pending, readClock_tick, ← readClock_fst,
        selectStopOrAfter_tick, sync_tick, setCreated_w]
      simp only [tl_apply]
      omega)
  rcases hr : waitLoop (stackWaitBody d)
    ((((s.setCreated true).sync).2).selectStopOrAfter (2 * Minute)).2.readClock.1
    (waitTimeOf cfg.WorkderNodeASGMax) (loopFuel (waitTimeOf cfg.WorkderNodeASGMax)) none
    ((((s.setCreated true).sync).2).selectStopOrAfter (2 * Minute)).2.readClock.2 with ⟨o, e, t⟩
  rw [hr] at l1 l2 l3 l4 l5 l6
  simp only [] at l1 l2 l3 l4 l5 l6
  subst l1 l2
  simp only [readClock_trace, htr, List.filter_append] at l3 l4
  simp only [List.filter, Event.isDescribe, Event.isWriteConfigMap, List.append_nil] at l3 l4
  simp only [finishStackWait]
  obtain ⟨a1, _, a3, a4, _⟩ := afterStackWait_frame d cfg (waitTimeOf cfg.WorkderNodeASGMax) t
  obtain ⟨w1, w2⟩ := afterStackWait_writes d cfg (waitTimeOf cfg.WorkderNodeASGMax) t
  refine ⟨by rw [a1, l3], by rw [a4, l5], by rw [a3, l6], ?_, ?_⟩
  · intro h0
    rw [w1 (by rw [l6, h0]), l4]
  · intro h0
    refine ⟨t.w.writeConfigMapNodeAuth 0, ?_⟩
    rw [w2 (by rw [l6]; exact h0), l4, l6]

/-- C5: the request is valid, the template is rendered, `CreateStack` is
accepted, the stop channel stays open, and within the wait budget the
`DescribeStacks` calls receive `n` responses that hold one stack with a status
neither failed nor `CREATE_COMPLETE` and no role output, then one response with
status `CREATE_COMPLETE` and the output `NodeInstanceRole = r`.  Then the run
makes exactly `n + 1` `DescribeStacks` calls, ends with the stack status
`CREATE_COMPLETE` and the role ARN `r`, and the identity-mapping document is
written for `r` and for no other value (it is written when `r` is not
empty). -/
theorem createWorkerNode_polls_until_complete (d : Deps) (cfg : Config) (w : World)
    (cs : ClusterState) (n : Nat) (r : String)
    (hkey : cs.CFStackNodeGroupKeyPairName ≠ "") (hname : cs.CFStackNodeGroupName ≠ "")
    (htpl : ∃ body, d.createWorkerNodeTemplate
      { Description := cfg.ClusterName ++ "-worker-node-stack"
        TagKey := cfg.Tag
        TagValue := cfg.ClusterName
        Hostname := w.hostname
        EnableNodeSSH := false } = Reply.ok body)
    (hnf : d.isCFCreateFailed "CREATE_COMPLETE" = false)
    (hcreate : w.createStack 0 = none)
    (hstop : ∀ i, i ≤ n + 1 → w.stopc i = false)
    (hbudget : ((pollTime (tl w.tick) (15 * Second) n + w.tick (n + 1) : Nat) : Int) <
      waitTimeOf cfg.WorkderNodeASGMax)
    (hpoll : ∀ i, i < n → inProgressNoRole d (w.describeStacks i))
    (hlast : completeWithRole (w.describeStacks n) r) :
    ((createWorkerNode d cfg ⟨cs, w, []⟩).2.trace.filter Event.isDescribe).length = n + 1 ∧
    (createWorkerNode d cfg ⟨cs, w, []⟩).2.cs.CFStackNodeGroupStatus = "CREATE_COMPLETE" ∧
    (createWorkerNode d cfg ⟨cs, w, []⟩).2.cs.CFStackNodeGroupWorkerNodeInstanceRoleARN = r ∧
    (∀ arn reply, Event.writeConfigMapNodeAuth arn reply ∈
      (createWorkerNode d cfg ⟨cs, w, []⟩).2.trace → arn = r) ∧
    (r ≠ "" → ∃ reply, Event.writeConfigMapNodeAuth r reply ∈
      (createWorkerNode d cfg ⟨cs, w, []⟩).2.trace) := by
  obtain ⟨body, hbody⟩ := htpl
  have hrun : createWorkerNode d cfg ⟨cs, w, []⟩ =
      afterCreateStack d cfg ((Sys.mk cs w []).createStack
        (createStackInput cfg cs w.hostname body)).2 := by
    unfold createWorkerNode
    simp only [hkey, hname, if_false, hbody, createStack_reply, hcreate]
  rw [hrun]
  obtain ⟨p1, p2, p3, p4, p5⟩ := afterCreateStack_polls d cfg n r
    ((Sys.mk cs w []).createStack (createStackInput cfg cs w.hostname body)).2 hnf hstop hbudget
    hpoll hlast
  simp only [createStack_trace, List.nil_append] at p1 p4 p5
  simp only [List.filter, Event.isDescribe, Event.isWriteConfigMap, List.length_nil, Nat.zero_add,
    List.nil_append] at p1 p4 p5
  refine ⟨p1, p2, p3, ?_, ?_⟩
  · intro arn reply hmem
    have hf : Event.writeConfigMapNodeAuth arn reply ∈
        (afterCreateStack d cfg ((Sys.mk cs w []).createStack
          (createStackInput cfg cs w.hostname body)).2).2.trace.filter Event.isWriteConfigMap :=
      List.mem_filter.2 ⟨hmem, rfl⟩
    by_cases h0 : r = ""
    · rw [p4 h0] at hf
      simp at hf
    · obtain ⟨rep, hrep⟩ := p5 h0
      rw [hrep] at hf
      simp only [List.mem_singleton, Event.writeConfigMapNodeAuth.injEq] at hf
      exact hf.1
  · intro h0
    obtain ⟨rep, hrep⟩ := p5 h0
    refine ⟨rep, ?_⟩
    have : Event.writeConfigMapNodeAuth r rep ∈
        (afterCreateStack d cfg ((Sys.mk cs w []).createStack
          (createStackInput cfg cs w.hostname body)).2).2.trace.filter Event.isWriteConfigMap := by
      rw [hrep]; simp
    exact (List.mem_filter.1 this).1

/-- C5 at a concrete run: two responses in progress, then `CREATE_COMPLETE`
with the role `r1` on the third response. -/
theorem createWorkerNode_polls_until_complete_witness :
    ((createWorkerNode testDeps (testConfig 3) ⟨testState, thirdPollWorld, []⟩).2.trace.filter
      Event.isDescribe).length = 2 + 1 ∧
    (createWorkerNode testDeps (testConfig 3)
      ⟨testState, thirdPollWorld, []⟩).2.cs.CFStackNodeGroupStatus = "CREATE_COMPLETE" ∧
    (createWorkerNode testDeps (testConfig 3)
      ⟨testState, thirdPollWorld, []⟩).2.cs.CFStackNodeGroupWorkerNodeInstanceRoleARN = "r1" ∧
    (∀ arn reply, Event.writeConfigMapNodeAuth arn reply ∈
      (createWorkerNode testDeps (testConfig 3) ⟨testState, thirdPollWorld, []⟩).2.trace →
        arn = "r1") ∧
    ("r1" ≠ "" → ∃ reply, Event.writeConfigMapNodeAuth "r1" reply ∈
      (createWorkerNode testDeps (testConfig 3) ⟨testState, thirdPollWorld, []⟩).2.trace) :=
  createWorkerNode_polls_until_complete testDeps (testConfig 3) thirdPollWorld testState 2 "r1"
    (by decide) (by decide) ⟨_, rfl⟩ (by decide) rfl (fun _ _ => rfl) (by decide)
    (by
      intro i hi
      have hi2 : i = 0 ∨ i = 1 := by omega
      rcases hi2 with rfl | rfl
      · exact ⟨"CREATE_IN_PROGRESS", [], rfl, by decide, by decide, by simp [noRoleOutput]⟩
      · exact ⟨"CREATE_IN_PROGRESS", [], rfl, by decide, by decide, by simp [noRoleOutput]⟩)
    ⟨[some { OutputKey := some "NodeInstanceRole", OutputValue := some "r1" }], rfl,
      by
        intro o ho
        simp only [List.mem_singleton] at ho
        exact ⟨"NodeInstanceRole", "r1", ho, fun _ => rfl⟩,
      by simp⟩


/-- The membership phase is the loop entered with `applied` false, followed by
the code after the loop. -/
theorem verifyMembership_eq (d : Deps) (cfg : Config) (waitTime : Int) (cmPath : String)
    (s : Sys) :
    verifyMembership d cfg waitTime cmPath s =
      membershipFrom d cfg cmPath s.readClock.1 waitTime (loopFuel waitTime) false s.readClock.2 :=
  rfl

/-- The second half of an iteration that finds a count of ready nodes other
than the one asked for: one `get nodes` command, the status persisted, a
sleep of fifteen seconds, and back to the head of the loop. -/
theorem getNodesStep_notReady (d : Deps) (cfg : Config) (s : Sys) (k : Int)
    (hans : readyCountIs d (s.w.kubectlGetNodes 0) k) (hk : k ≠ cfg.WorkderNodeASGMax) :
    ∃ s2, getNodesStep d cfg s = (Step.cont true, s2) ∧
      s2.w.now = s.w.now ∧ s2.w.pending = s.w.pending + 15 * Second ∧ s2.w.tick = s.w.tick ∧
      s2.w.stopc = s.w.stopc ∧ s2.w.kubectlGetNodes = tl s.w.kubectlGetNodes ∧
      (s2.trace.filter Event.isGetNodes).length = (s.trace.filter Event.isGetNodes).length + 1 ∧
      s2.trace.filter Event.isSleep = s.trace.filter Event.isSleep ++ [Event.sleep (15 * Second)] := by
  obtain ⟨h1, ns, h2, h3⟩ := hans
  refine ⟨((((s.kubectlGetNodes (getNodesArgs cfg)).2.setEC2Status
    (toString ns.Items.length ++ " AVAILABLE")).sync).2.sleep (15 * Second)),
    ?_, rfl, rfl, rfl, rfl, rfl, ?_, ?_⟩
  · unfold getNodesStep
    simp only [kubectlGetNodes_reply, h1, h2, h3, hk, if_false]
  · simp [Event.isGetNodes]
  · simp [Event.isSleep]

/-- The second half of an iteration that finds the count of ready nodes asked
for: one `get nodes` command, the status `READY` persisted, and the loop is
left. -/
theorem getNodesStep_ready (d : Deps) (cfg : Config) (s : Sys)
    (hans : readyCountIs d (s.w.kubectlGetNodes 0) cfg.WorkderNodeASGMax) :
    ∃ s2, getNodesStep d cfg s = (Step.brk true, s2) ∧
      s2.cs.EC2NodeGroupStatus = "READY" ∧
      (s2.trace.filter Event.isGetNodes).length = (s.trace.filter Event.isGetNodes).length + 1 ∧
      s2.trace.filter Event.isSleep = s.trace.filter Event.isSleep ∧
      ∃ e1, s2.trace = s.trace ++
        [Event.kubectlGetNodes (getNodesArgs cfg) (s.w.kubectlGetNodes 0).1 none,
         Event.sync s2.cs e1] := by
  obtain ⟨h1, ns, h2, h3⟩ := hans
  refine ⟨(((s.kubectlGetNodes (getNodesArgs cfg)).2.setEC2Status "READY").sync).2,
    ?_, rfl, ?_, ?_, ?_⟩
  · unfold getNodesStep
    simp only [kubectlGetNodes_reply, h1, h2, h3, if_true]
  · simp [Event.isGetNodes]
  · simp [Event.isSleep]
  · refine ⟨(s.kubectlGetNodes (getNodesArgs cfg)).2.w.sync 0, ?_⟩
    simp [h1]

/-- An iteration of the membership loop, with the document applied before or
by this iteration, that finds a count of ready nodes other than the one asked
for. -/
theorem nodeReadyBody_notReady (d : Deps) (cfg : Config) (cmPath : String) (applied : Bool)
    (s : Sys) (k : Int) (hs : s.w.stopc 0 = false)
    (happly : applied = false → (s.w.kubectlApply 0).2 = none)
    (hans : readyCountIs d (s.w.kubectlGetNodes 0) k) (hk : k ≠ cfg.WorkderNodeASGMax) :
    ∃ s2, nodeReadyBody d cfg cmPath applied s = (Step.cont true, s2) ∧
      s2.w.now = s.w.now ∧ s2.w.pending = s.w.pending + 15 * Second ∧ s2.w.tick = s.w.tick ∧
      s2.w.stopc = tl s.w.stopc ∧ s2.w.kubectlGetNodes = tl s.w.kubectlGetNodes ∧
      (s2.trace.filter Event.isGetNodes).length = (s.trace.filter Event.isGetNodes).length + 1 ∧
      s2.trace.filter Event.isSleep = s.trace.filter Event.isSleep ++ [Event.sleep (15 * Second)] := by
  cases applied with
  | true =>
    obtain ⟨s2, g0, g1, g2, g3, g4, g5, g6, g7⟩ :=
      getNodesStep_notReady d cfg (s.observeStop).2 k hans hk
    refine ⟨s2, ?_, g1, g2, g3, g4, g5, g6, g7⟩
    unfold nodeReadyBody
    simp only [observeStop_fst, hs, Bool.false_eq_true, if_false]
    exact g0
  | false =>
    obtain ⟨s2, g0, g1, g2, g3, g4, g5, g6, g7⟩ :=
      getNodesStep_notReady d cfg ((s.observeStop).2.kubectlApply (applyArgs cfg cmPath)).2 k
        hans hk
    refine ⟨s2, ?_, g1, g2, g3, g4, g5, ?_, ?_⟩
    · unfold nodeReadyBody
      simp only [observeStop_fst, hs, Bool.false_eq_true, if_false, if_true, kubectlApply_reply,
        observeStop_kubectlApply, happly rfl]
      exact g0
    · rw [g6]; simp [Event.isGetNodes]
    · rw [g7]; simp [Event.isSleep]

/-- An iteration of the membership loop, with the document applied before or
by this iteration, that finds the count of ready nodes asked for. -/
theorem nodeReadyBody_ready (d : Deps) (cfg : Config) (cmPath : String) (applied : Bool)
    (s : Sys) (hs : s.w.stopc 0 = false)
    (happly : applied = false → (s.w.kubectlApply 0).2 = none)
    (hans : readyCountIs d (s.w.kubectlGetNodes 0) cfg.WorkderNodeASGMax) :
    ∃ s2, nodeReadyBody d cfg cmPath applied s = (Step.brk true, s2) ∧
      s2.cs.EC2NodeGroupStatus = "READY" ∧
      (s2.trace.filter Event.isGetNodes).length = (s.trace.filter Event.isGetNodes).length + 1 ∧
      s2.trace.filter Event.isSleep = s.trace.filter Event.isSleep ∧
      ∃ pre e1, s2.trace = pre ++
        [Event.kubectlGetNodes (getNodesArgs cfg) (s.w.kubectlGetNodes 0).1 none,
         Event.sync s2.cs e1] := by
  cases applied with
  | true =>
    obtain ⟨s2, g0, g1, g2, g3, e1, g4⟩ := getNodesStep_ready d cfg (s.observeStop).2 hans
    refine ⟨s2, ?_, g1, g2, g3, _, e1, g4⟩
    unfold nodeReadyBody
    simp only [observeStop_fst, hs, Bool.false_eq_true, if_false]
    exact g0
  | false =>
    obtain ⟨s2, g0, g1, g2, g3, e1, g4⟩ :=
      getNodesStep_ready d cfg ((s.observeStop).2.kubectlApply (applyArgs cfg cmPath)).2 hans
    refine ⟨s2, ?_, g1, ?_, ?_, _, e1, g4⟩
    · unfold nodeReadyBody
      simp only [observeStop_fst, hs, Bool.false_eq_true, if_false, if_true, kubectlApply_reply,
        observeStop_kubectlApply, happly rfl]
      exact g0
    · rw [g2]; simp [Event.isGetNodes]
    · rw [g3]; simp [Event.isSleep]

/-- The membership loop, entered with the document applied before or by the
next iteration, with `m` counts of ready nodes other than the one asked for to
come and then the count asked for, all within the budget and with the stop
channel open. -/
theorem nodeReadyLoop_polls (d : Deps) (cfg : Config) (cmPath : String) (rs : Nat) (W : Int) :
    ∀ (m fuel : Nat) (applied : Bool) (s : Sys), m < fuel →
      (applied = false → (s.w.kubectlApply 0).2 = none) →
      (∀ i, i ≤ m → s.w.stopc i = false) →
      ((s.w.now + s.w.pending + pollTime s.w.tick (15 * Second) m + s.w.tick m : Nat) : Int) -
        (rs : Int) < W →
      (∀ i, i < m → ∃ k, readyCountIs d (s.w.kubectlGetNodes i) k ∧ k ≠ cfg.WorkderNodeASGMax) →
      readyCountIs d (s.w.kubectlGetNodes m) cfg.WorkderNodeASGMax →
      (waitLoop (nodeReadyBody d cfg cmPath) rs W fuel applied s).1 = none ∧
      ((waitLoop (nodeReadyBody d cfg cmPath) rs W fuel applied s).2.2.trace.filter
        Event.isGetNodes).length = (s.trace.filter Event.isGetNodes).length + (m + 1) ∧
      (waitLoop (nodeReadyBody d cfg cmPath) rs W fuel applied s).2.2.trace.filter Event.isSleep =
        s.trace.filter Event.isSleep ++ List.replicate m (Event.sleep (15 * Second)) ∧
      (waitLoop (nodeReadyBody d cfg cmPath) rs W fuel applied s).2.2.cs.EC2NodeGroupStatus =
        "READY" ∧
      ∃ pre e1, (waitLoop (nodeReadyBody d cfg cmPath) rs W fuel applied s).2.2.trace = pre ++
        [Event.kubectlGetNodes (getNodesArgs cfg) (s.w.kubectlGetNodes m).1 none,
         Event.sync (waitLoop (nodeReadyBody d cfg cmPath) rs W fuel applied s).2.2.cs e1] := by
  intro m
  induction m with
  | zero =>
    intro fuel applied s hf happly hstop hb _ hlast
    obtain ⟨f, rfl⟩ : ∃ f, fuel = f + 1 := ⟨fuel - 1, by omega⟩
    have hg : (s.readClock.1 : Int) - (rs : Int) < W := by
      rw [readClock_fst]
      simpa [pollTime] using hb
    obtain ⟨s2, hbody, e1, e2, e3, e4⟩ := nodeReadyBody_ready d cfg cmPath applied s.readClock.2
      (hstop 0 (Nat.le_refl 0)) happly hlast
    rw [waitLoop_brk _ _ _ _ _ _ _ _ hg hbody]
    exact ⟨rfl, e2, by simpa using e3, e1, e4⟩
  | succ m ih =>
    intro fuel applied s hf happly hstop hb hearly hlast
    obtain ⟨f, rfl⟩ : ∃ f, fuel = f + 1 := ⟨fuel - 1, by omega⟩
    rw [pollTime_succ] at hb
    have hg : (s.readClock.1 : Int) - (rs : Int) < W := by
      rw [readClock_fst]
      omega
    obtain ⟨k, hk1, hk2⟩ := hearly 0 (Nat.succ_pos _)
    obtain ⟨s2, hbody, e1, e2, e3, e4, e5, e6, e7⟩ :=
      nodeReadyBody_notReady d cfg cmPath applied s.readClock.2 k (hstop 0 (Nat.zero_le _))
        happly hk1 hk2
    rw [waitLoop_cont _ _ _ _ _ _ _ _ hg hbody]
    rw [readClock_now] at e1
    rw [readClock_pending] at e2
    rw [readClock_tick] at e3
    rw [readClock_stopc] at e4
    rw [readClock_kubectlGetNodes] at e5
    rw [readClock_trace] at e6 e7
    obtain ⟨i1, i2, i3, i4, pre, x1, i5⟩ := ih f true s2 (by omega)
      (fun h => by cases h)
      (fun i hi => by rw [e4]; exact hstop (i + 1) (by omega))
      (by
        rw [e1, e2, e3]
        simp only [tl_apply]
        omega)
      (fun i hi => by rw [e5]; exact hearly (i + 1) (by omega))
      (by rw [e5]; exact hlast)
    refine ⟨i1, ?_, ?_, i4, pre, x1, ?_⟩
    · rw [i2, e6]
      omega
    · rw [i3, e7, List.append_assoc]
      rfl
    · rw [i5, e5]
      rfl

/-- C7: at the head of the membership loop, with the document applied before
or by the next iteration, the stop channel open and `m + 1` iterations within
the wait budget: when the `get nodes` commands to come succeed and are decoded,
the first `m` with a count of ready nodes other than `WorkderNodeASGMax` and the
next one with that count, the method runs exactly `m + 1` more `get nodes`
commands and sleeps fifteen seconds after each of the first `m`; the last
`get nodes` command is the matching one and is followed only by the two `Sync`
calls that persist the final state, whose `EC2NodeGroupStatus` is `READY`; and
the method returns the result of the last `Sync`, not the error "worker nodes
are not ready". -/
theorem membership_stops_at_full_count (d : Deps) (cfg : Config) (cmPath : String) (rs : Nat)
    (W : Int) (m fuel : Nat) (applied : Bool) (s : Sys)
    (hfuel : m < fuel)
    (happly : applied = false → (s.w.kubectlApply 0).2 = none)
    (hstop : ∀ i, i ≤ m → s.w.stopc i = false)
    (hbudget : ((s.w.now + s.w.pending + pollTime s.w.tick (15 * Second) m + s.w.tick m : Nat) : Int) -
      (rs : Int) < W)
    (hearly : ∀ i, i < m →
      ∃ k, readyCountIs d (s.w.kubectlGetNodes i) k ∧ k ≠ cfg.WorkderNodeASGMax)
    (hlast : readyCountIs d (s.w.kubectlGetNodes m) cfg.WorkderNodeASGMax) :
    ((membershipFrom d cfg cmPath rs W fuel applied s).2.trace.filter Event.isGetNodes).length =
      (s.trace.filter Event.isGetNodes).length + (m + 1) ∧
    (membershipFrom d cfg cmPath rs W fuel applied s).2.trace.filter Event.isSleep =
      s.trace.filter Event.isSleep ++ List.replicate m (Event.sleep (15 * Second)) ∧
    (membershipFrom d cfg cmPath rs W fuel applied s).2.cs.EC2NodeGroupStatus = "READY" ∧
    (∃ pre e1 e2, (membershipFrom d cfg cmPath rs W fuel applied s).2.trace = pre ++
      [Event.kubectlGetNodes (getNodesArgs cfg) (s.w.kubectlGetNodes m).1 none,
       Event.sync (membershipFrom d cfg cmPath rs W fuel applied s).2.cs e1,
       Event.sync (membershipFrom d cfg cmPath rs W fuel applied s).2.cs e2]) ∧
    ∃ e, (membershipFrom d cfg cmPath rs W fuel applied s).1 =
      Outcome.returned (Option.map GoError.external e) := by
  obtain ⟨l1, l2, l3, l4, pre, x1, l5⟩ :=
    nodeReadyLoop_polls d cfg cmPath rs W m fuel applied s hfuel happly hstop hbudget hearly hlast
  unfold membershipFrom
  rcases hr : waitLoop (nodeReadyBody d cfg cmPath) rs W fuel applied s with ⟨o, a, t⟩
  rw [hr] at l1 l2 l3 l4 l5
  simp only [] at l1 l2 l3 l4 l5
  subst l1
  simp only [finishMembership, l4, ne_eq, not_true_eq_false, if_false, sync_trace, sync_cs]
  refine ⟨?_, ?_, trivial, ⟨pre, x1, t.w.sync 0, ?_⟩, ⟨_, rfl⟩⟩
  · rw [List.filter_append, List.length_append, l2]
    simp [Event.isGetNodes]
  · rw [List.filter_append, l3]
    simp [Event.isSleep]
  · rw [l5]
    simp

/-- C7 at a concrete state: the document is applied by the next iteration, two
of three nodes are ready at first, three of three afterwards. -/
theorem membership_stops_at_full_count_witness :
    ((membershipFrom testDeps (testConfig 3) "/tmp/cm" 0 (waitTimeOf 3) (loopFuel (waitTimeOf 3))
      false ⟨testState, twoThenThreeWorld, []⟩).2.trace.filter Event.isGetNodes).length =
      ((Sys.mk testState twoThenThreeWorld []).trace.filter Event.isGetNodes).length + (1 + 1) ∧
    (membershipFrom testDeps (testConfig 3) "/tmp/cm" 0 (waitTimeOf 3) (loopFuel (waitTimeOf 3))
      false ⟨testState, twoThenThreeWorld, []⟩).2.trace.filter Event.isSleep =
      (Sys.mk testState twoThenThreeWorld []).trace.filter Event.isSleep ++
        List.replicate 1 (Event.sleep (15 * Second)) ∧
    (membershipFrom testDeps (testConfig 3) "/tmp/cm" 0 (waitTimeOf 3) (loopFuel (waitTimeOf 3))
      false ⟨testState, twoThenThreeWorld, []⟩).2.cs.EC2NodeGroupStatus = "READY" ∧
    (∃ pre e1 e2, (membershipFrom testDeps (testConfig 3) "/tmp/cm" 0 (waitTimeOf 3)
        (loopFuel (waitTimeOf 3)) false ⟨testState, twoThenThreeWorld, []⟩).2.trace = pre ++
      [Event.kubectlGetNodes (getNodesArgs (testConfig 3))
          ((Sys.mk testState twoThenThreeWorld []).w.kubectlGetNodes 1).1 none,
       Event.sync (membershipFrom testDeps (testConfig 3) "/tmp/cm" 0 (waitTimeOf 3)
          (loopFuel (waitTimeOf 3)) false ⟨testState, twoThenThreeWorld, []⟩).2.cs e1,
       Event.sync (membershipFrom testDeps (testConfig 3) "/tmp/cm" 0 (waitTimeOf 3)
          (loopFuel (waitTimeOf 3)) false ⟨testState, twoThenThreeWorld, []⟩).2.cs e2]) ∧
    ∃ e, (membershipFrom testDeps (testConfig 3) "/tmp/cm" 0 (waitTimeOf 3)
        (loopFuel (waitTimeOf 3)) false ⟨testState, twoThenThreeWorld, []⟩).1 =
      Outcome.returned (Option.map GoError.external e) :=
  membership_stops_at_full_count testDeps (testConfig 3) "/tmp/cm" 0 (waitTimeOf 3) 1
    (loopFuel (waitTimeOf 3)) false ⟨testState, twoThenThreeWorld, []⟩
    (by decide) (fun _ => rfl) (fun _ _ => rfl) (by decide)
    (by
      intro i hi
      have hi0 : i = 0 := by omega
      subst hi0
      exact ⟨2, ⟨rfl, _, rfl, by decide⟩, by decide⟩)
    ⟨rfl, _, rfl, by decide⟩

/-! ## The fuel of the wait loops is never used up -/

/-- A loop whose body, when it loops back, has slept for at least five
seconds and has not touched the clock otherwise, does not run out of a fuel
that covers the budget left. -/
theorem waitLoop_fuel {σ : Type} (body : σ → Sys → Step σ × Sys) (rs : Nat) (W : Int)
    (hcont : ∀ v s v2, (body v s).1 = Step.cont v2 →
      (body v s).2.w.now = s.w.now ∧ s.w.pending + 5 * Second ≤ (body v s).2.w.pending)
    (hret : ∀ v s, (body v s).1 ≠ Step.ret Outcome.outOfFuel) :
    ∀ (fuel : Nat) (v : σ) (s : Sys), 1 ≤ fuel →
      W + ((5 * Second : Nat) : Int) ≤
        ((s.w.now + s.w.pending : Nat) : Int) - (rs : Int) + ((fuel * (5 * Second) : Nat) : Int) →
      (waitLoop body rs W fuel v s).1 ≠ some Outcome.outOfFuel := by
  intro fuel
  induction fuel with
  | zero => intro v s h; omega
  | succ f ih =>
    intro v s _ hinv
    unfold waitLoop
    by_cases hg : ((s.readClock.1 : Int) - (rs : Int) < W)
    · simp only [hg, if_true]
      rcases hstep : body v s.readClock.2 with ⟨st, s2⟩
      cases st with
      | ret o =>
        simp only [ne_eq, Option.some.injEq]
        intro ho
        have := hret v s.readClock.2
        rw [hstep, ho] at this
        exact this rfl
      | brk v2 => simp
      | cont v2 =>
        obtain ⟨c1, c2⟩ := hcont v s.readClock.2 v2 (by rw [hstep])
        rw [hstep] at c1 c2
        simp only [readClock_now, readClock_pending] at c1 c2
        rw [readClock_fst] at hg
        unfold Second at hinv c2
        refine ih v2 s2 ?_ ?_
        · cases f with
          | zero => omega
          | succ f => omega
        · unfold Second
          rw [c1]
          push_cast at hinv hg ⊢
          omega
    · simp only [hg, if_false]
      simp

/-- The fuel `loopFuel` covers the whole budget at the start of a loop. -/
theorem loopFuel_covers (W : Int) (t : Nat) :
    1 ≤ loopFuel W ∧
    W + ((5 * Second : Nat) : Int) ≤
      ((t + 0 : Nat) : Int) - (t : Int) + ((loopFuel W * (5 * Second) : Nat) : Int) := by
  unfold loopFuel Second
  constructor
  · omega
  · have h1 : W ≤ (W.toNat : Int) := Int.self_le_toNat W
    push_cast
    omega

/-- An iteration of the stack-wait loop that loops back has slept for at least
five seconds, and no iteration ends for want of fuel. -/
theorem stackWaitBody_sleeps (d : Deps) (v : Option String) (s : Sys) :
    (∀ v2, (stackWaitBody d v s).1 = Step.cont v2 →
      (stackWaitBody d v s).2.w.now = s.w.now ∧
      s.w.pending + 5 * Second ≤ (stackWaitBody d v s).2.w.pending) ∧
    (stackWaitBody d v s).1 ≠ Step.ret Outcome.outOfFuel := by
  unfold stackWaitBody
  simp only []
  repeat' split
  all_goals simp_all [Sys.sleep, Sys.sync, Sys.setStackStatus, Sys.describeStacks,
    Sys.observeStop]
  all_goals omega

/-- The second half of an iteration of the membership loop that loops back has
slept for at least five seconds, and does not end for want of fuel. -/
theorem getNodesStep_sleeps (d : Deps) (cfg : Config) (s : Sys) :
    (∀ v2, (getNodesStep d cfg s).1 = Step.cont v2 →
      (getNodesStep d cfg s).2.w.now = s.w.now ∧
      s.w.pending + 5 * Second ≤ (getNodesStep d cfg s).2.w.pending) ∧
    (getNodesStep d cfg s).1 ≠ Step.ret Outcome.outOfFuel := by
  unfold getNodesStep
  simp only []
  repeat' split
  all_goals simp_all [Sys.sleep, Sys.sync, Sys.setEC2Status, Sys.kubectlGetNodes]
  all_goals omega

/-- An iteration of the membership loop that loops back has slept for at least
five seconds, and no iteration ends for want of fuel. -/
theorem nodeReadyBody_sleeps (d : Deps) (cfg : Config) (cmPath : String) (applied : Bool)
    (s : Sys) :
    (∀ v2, (nodeReadyBody d cfg cmPath applied s).1 = Step.cont v2 →
      (nodeReadyBody d cfg cmPath applied s).2.w.now = s.w.now ∧
      s.w.pending + 5 * Second ≤ (nodeReadyBody d cfg cmPath applied s).2.w.pending) ∧
    (nodeReadyBody d cfg cmPath applied s).1 ≠ Step.ret Outcome.outOfFuel := by
  unfold nodeReadyBody
  simp only []
  split
  · simp
  · split
    · split
      · split
        · simp
        · simp [Sys.sleep, Sys.sync, Sys.setEC2Status, Sys.kubectlApply, Sys.observeStop]
      · exact getNodesStep_sleeps d cfg ((s.observeStop).2.kubectlApply (applyArgs cfg cmPath)).2
    · exact getNodesStep_sleeps d cfg (s.observeStop).2

/-- An iteration of the loop of `deleteWorkerNode` that loops back has slept for
at least five seconds, and no iteration ends for want of fuel. -/
theorem deleteWaitBody_sleeps (d : Deps) (v : Option String) (s : Sys) :
    (∀ v2, (deleteWaitBody d v s).1 = Step.cont v2 →
      (deleteWaitBody d v s).2.w.now = s.w.now ∧
      s.w.pending + 5 * Second ≤ (deleteWaitBody d v s).2.w.pending) ∧
    (deleteWaitBody d v s).1 ≠ Step.ret Outcome.outOfFuel := by
  unfold deleteWaitBody
  simp only []
  repeat' split
  all_goals simp_all [Sys.sleep, Sys.sync, Sys.setStackStatus, Sys.setEC2Status,
    Sys.describeStacks]
  all_goals omega

/-- A wait loop started as the two methods start it, right after the reading
of `retryStart` and with the fuel `loopFuel`, does not run out of fuel. -/
theorem waitLoop_loopFuel {σ : Type} (body : σ → Sys → Step σ × Sys) (W : Int)
    (hbody : ∀ v s, (∀ v2, (body v s).1 = Step.cont v2 →
        (body v s).2.w.now = s.w.now ∧ s.w.pending + 5 * Second ≤ (body v s).2.w.pending) ∧
      (body v s).1 ≠ Step.ret Outcome.outOfFuel)
    (v : σ) (s : Sys) :
    (waitLoop body s.readClock.1 W (loopFuel W) v s.readClock.2).1 ≠ some Outcome.outOfFuel := by
  refine waitLoop_fuel body s.readClock.1 W (fun v s v2 h => (hbody v s).1 v2 h)
    (fun v s => (hbody v s).2) (loopFuel W) v s.readClock.2 (loopFuel_covers W 0).1 ?_
  rw [readClock_now, readClock_pending, readClock_fst]
  exact (loopFuel_covers W (s.w.now + s.w.pending + s.w.tick 0)).2

/-- The membership phase does not end for want of fuel. -/
theorem verifyMembership_returns (d : Deps) (cfg : Config) (waitTime : Int) (cmPath : String)
    (s : Sys) : (verifyMembership d cfg waitTime cmPath s).1 ≠ Outcome.outOfFuel := by
  have h := waitLoop_loopFuel (nodeReadyBody d cfg cmPath) waitTime
    (fun v t => nodeReadyBody_sleeps d cfg cmPath v t) false s
  unfold verifyMembership
  rcases hr : waitLoop (nodeReadyBody d cfg cmPath) s.readClock.1 waitTime (loopFuel waitTime)
    false s.readClock.2 with ⟨o, a, t⟩
  rw [hr] at h
  cases o with
  | some o =>
    simp only [finishMembership]
    intro ho
    exact h (by rw [ho])
  | none =>
    unfold finishMembership
    simp only []
    split <;> simp

/-- `createWorkerNode` always ends by a return or a panic: the fuel of its
loops is never used up. -/
theorem createWorkerNode_returns (d : Deps) (cfg : Config) (s : Sys) :
    (createWorkerNode d cfg s).1 ≠ Outcome.outOfFuel := by
  rcases createWorkerNode_cases d cfg s with ⟨e, h⟩ | ⟨input, e, _, h⟩ | ⟨input, _, _, _, h⟩
  · rw [h]; simp
  · rw [h]; simp
  · rw [h]
    generalize (s.createStack input).2 = s1
    unfold afterCreateStack
    simp only []
    split
    · simp
    · have hl := waitLoop_loopFuel (stackWaitBody d) (waitTimeOf cfg.WorkderNodeASGMax)
        (fun v t => stackWaitBody_sleeps d v t) none
        ((((s1.setCreated true).sync).2).selectStopOrAfter (2 * Minute)).2
      rcases hr : waitLoop (stackWaitBody d)
        ((((s1.setCreated true).sync).2).selectStopOrAfter (2 * Minute)).2.readClock.1
        (waitTimeOf cfg.WorkderNodeASGMax) (loopFuel (waitTimeOf cfg.WorkderNodeASGMax)) none
        ((((s1.setCreated true).sync).2).selectStopOrAfter (2 * Minute)).2.readClock.2
        with ⟨o, e, t⟩
      rw [hr] at hl
      cases o with
      | some o =>
        simp only [finishStackWait]
        intro ho
        exact hl (by rw [ho])
      | none =>
        cases e with
        | some e => simp [finishStackWait]
        | none =>
          simp only [finishStackWait]
          unfold afterStackWait
          simp only []
          split
          · simp
          · split
            · simp
            · exact verifyMembership_returns d cfg _ _ _

/-- `deleteWorkerNode` always ends by a return or a panic: the fuel of its loop
is never used up. -/
theorem deleteWorkerNode_returns (d : Deps) (cfg : Config) (s : Sys) :
    (deleteWorkerNode d cfg s).1 ≠ Outcome.outOfFuel := by
  unfold deleteWorkerNode
  split
  · simp
  · simp only []
    unfold deleteWorkerNodeBody
    simp only []
    split
    · simp
    · split
      · simp
      · have hl := waitLoop_loopFuel (deleteWaitBody d) (waitTimeOf cfg.WorkderNodeASGMax)
          (fun v t => deleteWaitBody_sleeps d v t) none
          (((s.deleteStack s.cs.CFStackNodeGroupName).2.sync).2.sleep Minute)
        rcases hr : waitLoop (deleteWaitBody d)
          (((s.deleteStack s.cs.CFStackNodeGroupName).2.sync).2.sleep Minute).readClock.1
          (waitTimeOf cfg.WorkderNodeASGMax) (loopFuel (waitTimeOf cfg.WorkderNodeASGMax)) none
          (((s.deleteStack s.cs.CFStackNodeGroupName).2.sync).2.sleep Minute).readClock.2
          with ⟨o, e, t⟩
        rw [hr] at hl
        cases o with
        | some o =>
          simp only [finishDelete]
          intro ho
          exact hl (by rw [ho])
        | none =>
          cases e with
          | some e => simp [finishDelete]
          | none => simp [finishDelete]

end Eks
